import Mathlib

/-!
Cinema booking system: seat inventory, booking ledger, booking transaction, shows and
screens, and the client functions that format what the server stores.

A shallow embedding of `src/backend/server.js` and of the functions `formatTime` and
`collectBookingData` of `src/frontend/src/seat-script.js`, `splitSeat`, `renderGrid` and
`escapeHtml` of `src/frontend/src/admin-seats.js`.  The MySQL store is a record of
tables (lists of rows) with the `AUTO_INCREMENT` counters of the tables the handlers
insert into; every handler is a function from a store to a response and a new store.
A statement of a handler can be made to fail by a fault plan, and a failure inside a
transaction restores the tables as they were when the transaction began.  The keys of
the schema that the handlers rely on are part of the statements (the foreign keys of
`bookings` and `shows`, the unique key of `shows` and of `screens.name`, the unique keys
and the foreign keys of `seats` and `show_seats` under `INSERT IGNORE`, the actions
`ON DELETE CASCADE` and `ON DELETE SET NULL` of a deleted show) or are stated as
properties of a store (`usersUnique`, `bookingIdsFresh`, `showIdsFresh`).

The store does not compare the strings of its character columns character by character
but by the weights their collation gives them (the case of a letter, for one, has no
weight).  The collation is the parameter `Collation` of every handler that compares a
seat number, a username or a screen name: a general statement holds for every collation,
and the closed statements are evaluated at the collation `asciiCi`, which is that of the
store on the strings they hold.

A request body is a record of optional fields at the types the client sends (strings
and integers, the total price in hundredths); a field that is absent is `none`, and the
truthiness tests of the source are `truthyStr`, `truthyNat` and `truthyInt`.  A string
of the client is a Lean string: a sequence of code points, compared character by
character (`lexLe`); a code unit in the surrogate range has no counterpart.  A number
that `parseInt` reads is the double nearest to the digits (`roundToDouble`), the number
itself below 2^53.  The sorts of the source (`ORDER BY`, `Array.prototype.sort`) are a
stable sort.

Outside the model: the reading of dates and times by the store (the date and the time of
a show are compared as the strings of the request), the width of the columns
(`VARCHAR(500)`, `VARCHAR(10)`, `DECIMAL(10,2)`), request fields of another JSON type,
numbers beyond the largest double, and the interleaving of two handlers (every handler
runs alone).
-/

namespace Cinema

/-! ## Rows and tables -/

/-- The column type `ENUM('available','booked')` of `seats.status` and `show_seats.status`. -/
inductive SeatStatus where
  | available
  | booked
deriving DecidableEq, Repr

/-- A row of table `movies`; only the columns the booking core reads. -/
structure MovieRow where
  id : Nat
  is_active : Bool := true
deriving DecidableEq, Repr

/-- A row of table `screens`. -/
structure ScreenRow where
  id : Nat
  name : String
  row_count : Int := 7
  col_count : Int := 12
deriving DecidableEq, Repr

/-- A row of table `shows`. -/
structure ShowRow where
  id : Nat
  movie_id : Nat
  screen_id : Nat
  show_date : String
  show_time : String
  format : String := "2D"
deriving DecidableEq, Repr

/-- A row of table `seats` (movie-scoped seat). -/
structure SeatRow where
  seat_id : Nat
  movie_id : Nat
  seat_number : String
  status : SeatStatus := SeatStatus.available
deriving DecidableEq, Repr

/-- A row of table `show_seats` (show-scoped seat). -/
structure ShowSeatRow where
  id : Nat
  show_id : Nat
  seat_number : String
  status : SeatStatus := SeatStatus.available
deriving DecidableEq, Repr

/-- A row of table `bookings` (the ledger).  `total_price` is in hundredths. -/
structure BookingRow where
  id : Nat
  username : String
  user_id : Option Nat
  user_email : Option String
  movie_id : Nat
  show_id : Option Nat
  seats : String
  total_price : Int
deriving DecidableEq, Repr

/-- A row of table `users`; `is_blocked` is the `TINYINT(1)` flag, written as 0 or 1. -/
structure UserRow where
  id : Nat
  username : String
  is_blocked : Bool := false
  last_active : Option Nat := none
deriving DecidableEq, Repr

/-- The store: its tables and the `AUTO_INCREMENT` counters of the tables the core inserts into. -/
structure Store where
  movies : List MovieRow := []
  screens : List ScreenRow := []
  shows : List ShowRow := []
  seats : List SeatRow := []
  show_seats : List ShowSeatRow := []
  bookings : List BookingRow := []
  users : List UserRow := []
  nextScreenId : Nat := 1
  nextShowId : Nat := 1
  nextShowSeatId : Nat := 1
  nextSeatId : Nat := 1
  nextBookingId : Nat := 1
  nextUserId : Nat := 1
deriving DecidableEq, Repr

/-! ## Requests, responses and faults -/

/-- The body of `POST /api/bookings`; a field that is absent from the body is `none`. -/
structure BookingRequest where
  username : Option String := none
  user_id : Option Nat := none
  user_email : Option String := none
  movie_id : Option Nat := none
  show_id : Option Nat := none
  seats : Option String := none
  total_price : Option Int := none
deriving DecidableEq, Repr

/-- What a handler answers: the failure kinds of the spec, with the HTTP status of the source. -/
inductive Response where
  /-- Status 200 with `bookingId`. -/
  | created (bookingId : Nat)
  /-- Status 200 with `showId`. -/
  | createdShow (showId : Nat)
  /-- Status 200 with the `id` of a new screen. -/
  | createdScreen (id : Nat)
  /-- Status 200 with `success: true`. -/
  | success
  /-- Status 200 with `updated`. -/
  | updated (count : Nat)
  /-- Status 400. -/
  | invalidInput (error : String)
  /-- Status 403. -/
  | forbidden
  /-- Status 409 with the seat numbers found booked. -/
  | conflict (seats : List String)
  /-- Status 409 of a show that already exists. -/
  | conflictShow
  /-- Status 404. -/
  | notFound
  /-- Status 500. -/
  | failure (error : String)
deriving DecidableEq, Repr

/-- The store statements of the handlers, in the order of the source. -/
inductive Stmt where
  | blockedLookup
  | getConnection
  | beginTransaction
  | availabilityQuery
  | ledgerInsert
  | seatUpdate
  | userUpsert
  | commit
  | bookingSelect
  | seatRelease
  | ledgerDelete
  | seatReset
  | seatInsert
  | seatPatch (i : Nat)
  | showInsert
  | showSelect
  | screenSelect
  | showSeatInsert
  | screenInsert
  | seatSelect
  | showDelete
deriving DecidableEq, Repr

/-- A fault plan: the statements the store fails to execute. -/
abbrev Faults := Stmt → Bool

/-- The store answers every statement. -/
def noFaults : Faults := fun _ => false

/-! ## Parsing the seat list -/

/-- Code points that `String.prototype.trim` removes: `WhiteSpace` and `LineTerminator`. -/
def isJsWhitespace (c : Char) : Bool :=
  let n := c.toNat
  n = 0x09 || n = 0x0A || n = 0x0B || n = 0x0C || n = 0x0D || n = 0x20 || n = 0xA0 ||
  n = 0x1680 || (0x2000 ≤ n && n ≤ 0x200A) || n = 0x2028 || n = 0x2029 || n = 0x202F ||
  n = 0x205F || n = 0x3000 || n = 0xFEFF

/-- The pieces of `s.split(',')`: always at least one piece. -/
def splitComma : List Char → List (List Char)
  | [] => [[]]
  | c :: cs =>
    if c = ',' then [] :: splitComma cs
    else
      match splitComma cs with
      | [] => [[c]]
      | p :: ps => (c :: p) :: ps

/-- The characters of `s.trim()`. -/
def jsTrim (cs : List Char) : List Char :=
  ((cs.dropWhile isJsWhitespace).reverse.dropWhile isJsWhitespace).reverse

/-- The list `seats.split(',').map(s => s.trim()).filter(Boolean)` of both booking handlers. -/
def seatList (seats : String) : List String :=
  (((splitComma seats.data).map jsTrim).filter (fun p => !p.isEmpty)).map String.mk

/-! ## The collation of the store -/

/-- The collation of the character columns.  The database is created with
`COLLATE utf8mb4_unicode_ci` and every table with `DEFAULT CHARSET=utf8mb4`: the store compares
a `VARCHAR` column with a value (`=`, `IN`, a unique key, `ORDER BY`) by the weights the
collation gives the two strings, not by their characters.  The weights are a parameter of
every handler, so a statement about the handlers holds for every collation. -/
class Collation where
  /-- The weights of a string: the store takes two strings for equal when their weights are
  equal, and orders strings as it orders their weights. -/
  key : String → List Nat

/-- The comparison `a = b` of the store on two strings. -/
def collEq [Collation] (a b : String) : Prop := Collation.key a = Collation.key b

/-- The comparison `a IN (l)` of the store. -/
def collMem [Collation] (a : String) (l : List String) : Prop :=
  Collation.key a ∈ l.map Collation.key

instance collEqDecidable [Collation] (a b : String) : Decidable (collEq a b) :=
  inferInstanceAs (Decidable (Collation.key a = Collation.key b))

instance collMemDecidable [Collation] (a : String) (l : List String) : Decidable (collMem a l) :=
  inferInstanceAs (Decidable (Collation.key a ∈ l.map Collation.key))

/-- The order of two lists of weights, weight by weight, a proper prefix first:
`weightLe x y` is `x <= y`. -/
def weightLe : List Nat → List Nat → Bool
  | [], _ => true
  | _ :: _, [] => false
  | a :: as, b :: bs => decide (a < b) || (decide (a = b) && weightLe as bs)

/-- The weights of a string of ASCII letters, digits and signs under the case-insensitive
collations of `utf8mb4`: a small letter has the weight of its capital and no two other
characters have the same weight; the digits come before the letters, both in their usual
order. -/
def asciiWeights (s : String) : List Nat := s.data.map (fun c => c.toUpper.toNat)

/-- The collation at which the closed statements of this file are evaluated; their strings
hold ASCII characters only, and their seat numbers letters and digits, on which it is the
collation of the store. -/
instance asciiCi : Collation := ⟨asciiWeights⟩

/-! ## The booking transaction -/

/-- JavaScript truthiness of an optional string: absent and `""` are falsy. -/
def truthyStr : Option String → Bool
  | some s => s != ""
  | none => false

/-- JavaScript truthiness of an optional number: absent and `0` are falsy. -/
def truthyNat : Option Nat → Bool
  | some n => n != 0
  | none => false

/-- The value `x || null` for an optional number. -/
def orNullNat (x : Option Nat) : Option Nat := if truthyNat x then x else none

/-- The value `x || null` for an optional string. -/
def orNullStr (x : Option String) : Option String := if truthyStr x then x else none

/-- Rows of `SELECT is_blocked FROM users WHERE username = ? LIMIT 1`. -/
def selectBlocked [Collation] (s : Store) (username : String) : List Bool :=
  ((s.users.filter (fun u => collEq u.username username)).take 1).map (fun u => u.is_blocked)

/-- Rows of `SELECT seat_number FROM show_seats WHERE show_id = ? AND seat_number IN (..)
AND status = 'booked' FOR UPDATE`. -/
def selectBookedShowSeats [Collation] (s : Store) (showId : Nat) (l : List String) :
    List String :=
  (s.show_seats.filter
    (fun r => r.show_id = showId ∧ collMem r.seat_number l ∧ r.status = SeatStatus.booked)).map
    (fun r => r.seat_number)

/-- Rows of `SELECT seat_number FROM seats WHERE movie_id = ? AND seat_number IN (..)
AND status = 'booked' FOR UPDATE`. -/
def selectBookedSeats [Collation] (s : Store) (movieId : Nat) (l : List String) :
    List String :=
  (s.seats.filter
    (fun r => r.movie_id = movieId ∧ collMem r.seat_number l ∧ r.status = SeatStatus.booked)).map
    (fun r => r.seat_number)

/-- The statement `UPDATE show_seats SET status = ? WHERE show_id = ? AND seat_number IN (..)`. -/
def updateShowSeats [Collation] (rows : List ShowSeatRow) (st : SeatStatus) (showId : Nat)
    (l : List String) : List ShowSeatRow :=
  rows.map (fun r =>
    if r.show_id = showId ∧ collMem r.seat_number l then { r with status := st } else r)

/-- The statement `UPDATE seats SET status = ? WHERE movie_id = ? AND seat_number IN (..)`. -/
def updateSeats [Collation] (rows : List SeatRow) (st : SeatStatus) (movieId : Nat)
    (l : List String) : List SeatRow :=
  rows.map (fun r =>
    if r.movie_id = movieId ∧ collMem r.seat_number l then { r with status := st } else r)

/-- The foreign keys `fk_bookings_movie` and `fk_bookings_show` of a row to insert. -/
def bookingForeignKeysOk (s : Store) (movieId : Nat) (showId : Option Nat) : Bool :=
  decide (movieId ∈ s.movies.map (fun m => m.id)) &&
  match showId with
  | none => true
  | some sid => decide (sid ∈ s.shows.map (fun sh => sh.id))

/-- The statement `INSERT INTO users (username, last_active) VALUES (?, NOW())
ON DUPLICATE KEY UPDATE last_active = NOW()`; the key is the unique key of `users.username`. -/
def upsertUser [Collation] (s : Store) (username : String) (now : Nat) : Store :=
  if s.users.any (fun u => collEq u.username username) then
    { s with
      users := s.users.map (fun u =>
        if collEq u.username username then { u with last_active := some now } else u) }
  else
    { s with
      users := s.users ++ [{ id := s.nextUserId, username := username, last_active := some now }]
      nextUserId := s.nextUserId + 1 }

/-- The statement `conn.rollback`: the tables are those of the start of the transaction; the
`AUTO_INCREMENT` counters are not transactional and keep their value. -/
def rollback (start cur : Store) : Store :=
  { start with
    nextSeatId := cur.nextSeatId
    nextBookingId := cur.nextBookingId
    nextUserId := cur.nextUserId }

/-- The availability query of the transaction: on `show_seats` when `show_id` is truthy,
otherwise on `seats`. -/
def selectBooked [Collation] (s : Store) (movieId : Nat) (showId : Option Nat) (l : List String) :
    List String :=
  match orNullNat showId with
  | some show_id => selectBookedShowSeats s show_id l
  | none => selectBookedSeats s movieId l

/-- The seat update of both booking handlers: on `show_seats` when `show_id` is truthy,
otherwise on `seats`. -/
def setSeatStatus [Collation] (s : Store) (movieId : Nat) (showId : Option Nat) (st : SeatStatus)
    (l : List String) : Store :=
  match orNullNat showId with
  | some show_id => { s with show_seats := updateShowSeats s.show_seats st show_id l }
  | none => { s with seats := updateSeats s.seats st movieId l }

/-- The statement `INSERT INTO bookings (..) VALUES (..)`; the new row takes the counter as id. -/
def insertBooking (s : Store) (username : String) (userId : Option Nat)
    (userEmail : Option String) (movieId : Nat) (showId : Option Nat) (seats : String)
    (totalPrice : Int) : Store :=
  { s with
    bookings := s.bookings ++
      [{ id := s.nextBookingId, username := username, user_id := userId, user_email := userEmail,
         movie_id := movieId, show_id := showId, seats := seats, total_price := totalPrice }]
    nextBookingId := s.nextBookingId + 1 }

/-- The body of the transaction of `app.post('/api/bookings')`, from the availability check
to the commit; `l` is `seatList`. -/
def bookingTransaction [Collation] (now : Nat) (f : Faults) (s : Store) (req : BookingRequest)
    (username : String) (movie_id : Nat) (seats : String) (total_price : Int)
    (l : List String) : Response × Store :=
  if f Stmt.availabilityQuery then (Response.failure "Failed to create booking", rollback s s)
  else
    let booked := selectBooked s movie_id req.show_id l
    if booked.length > 0 then (Response.conflict booked, rollback s s)
    else if f Stmt.ledgerInsert || !bookingForeignKeysOk s movie_id (orNullNat req.show_id) then
      (Response.failure "Failed to create booking", rollback s s)
    else
      let insertId := s.nextBookingId
      let s1 := insertBooking s username (orNullNat req.user_id) (orNullStr req.user_email)
        movie_id (orNullNat req.show_id) seats total_price
      if f Stmt.seatUpdate then (Response.failure "Failed to create booking", rollback s s1)
      else
        let s2 := setSeatStatus s1 movie_id req.show_id SeatStatus.booked l
        if f Stmt.userUpsert then (Response.failure "Failed to create booking", rollback s s2)
        else
          let s3 := upsertUser s2 username now
          if f Stmt.commit then (Response.failure "Failed to create booking", rollback s s3)
          else (Response.created insertId, s3)

/-- The handler `app.post('/api/bookings')`.  `now` is the value of `NOW()`. -/
def createBooking [Collation] (now : Nat) (f : Faults) (s : Store) (req : BookingRequest) :
    Response × Store :=
  if !truthyStr req.username || !truthyNat req.movie_id || !truthyStr req.seats
      || req.total_price.isNone then
    (Response.invalidInput "Missing required fields", s)
  else
    match req.username, req.movie_id, req.seats, req.total_price with
    | some username, some movie_id, some seats, some total_price =>
      let l := seatList seats
      if l.length = 0 then (Response.invalidInput "No seats provided", s)
      else if f Stmt.blockedLookup then (Response.failure "Database error", s)
      else
        let blkRows := selectBlocked s username
        if blkRows.length > 0 ∧ blkRows.head? = some true then (Response.forbidden, s)
        else if f Stmt.getConnection then (Response.failure "Database error", s)
        else if f Stmt.beginTransaction then (Response.failure "Transaction start failed", s)
        else bookingTransaction now f s req username movie_id seats total_price l
    | _, _, _, _ => (Response.invalidInput "Missing required fields", s)

/-- The handler `app.delete('/api/bookings/:id')`.  `bookingId` is `parseInt(req.params.id, 10)`,
with `none` for `NaN`. -/
def deleteBooking [Collation] (f : Faults) (s : Store) (bookingId : Option Int) : Response × Store :=
  match bookingId with
  | none => (Response.invalidInput "Invalid booking id", s)
  | some bid =>
    if f Stmt.getConnection then (Response.failure "Database error", s)
    else if f Stmt.beginTransaction then (Response.failure "Transaction start failed", s)
    else if f Stmt.bookingSelect then (Response.failure "Failed to delete booking", rollback s s)
    else
      match (s.bookings.filter (fun b => (b.id : Int) = bid)).head? with
      | none => (Response.notFound, rollback s s)
      | some booking =>
        let l := seatList booking.seats
        if l.length ≠ 0 ∧ f Stmt.seatRelease = true then
          (Response.failure "Failed to delete booking", rollback s s)
        else
          let s1 :=
            if l.length ≠ 0 then
              setSeatStatus s booking.movie_id booking.show_id SeatStatus.available l
            else s
          if f Stmt.ledgerDelete then (Response.failure "Failed to delete booking", rollback s s1)
          else
            let s2 : Store :=
              { s1 with bookings := s1.bookings.filter (fun b => ¬ ((b.id : Int) = bid)) }
            if f Stmt.commit then (Response.failure "Failed to delete booking", rollback s s2)
            else (Response.success, s2)

/-! ## Seat inventory: generation, bulk status update, reset -/

/-- An entry `{labelFrom, labelTo, count}` of `config.rows`. -/
structure RowSpec where
  labelFrom : String
  labelTo : String
  count : Nat
deriving DecidableEq, Repr

/-- The value `s.charCodeAt(0)`: the first UTF-16 code unit, `none` for `NaN`. -/
def charCodeAt0 (s : String) : Option Nat :=
  match s.data with
  | [] => none
  | c :: _ => some (if c.toNat < 0x10000 then c.toNat else 0xD800 + (c.toNat - 0x10000) / 0x400)

/-- The value `String.fromCharCode(code)`: the code unit `code` modulo 2^16; a code unit in
the surrogate range has no counterpart here and is outside the model. -/
def fromCharCode (code : Nat) : String := String.mk [Char.ofNat (code % 0x10000)]

/-- The labels pushed by `pushRow(startChar, endChar, perRow)`. -/
def pushRow (startChar endChar : String) (perRow : Nat) : List String :=
  match charCodeAt0 startChar, charCodeAt0 endChar with
  | some a, some b =>
    (List.range (b + 1 - a)).flatMap (fun i =>
      (List.range perRow).map (fun j => fromCharCode (a + i) ++ toString (j + 1)))
  | _, _ => []

/-- The default `rows` of `generateDefaultSeats`. -/
def defaultRows : List RowSpec :=
  [{ labelFrom := "A", labelTo := "C", count := 12 }, { labelFrom := "D", labelTo := "G", count := 12 }]

/-- The seat numbers of `seatsToInsert`, in the order they are pushed. -/
def seatsToInsert (config : Option (List RowSpec)) : List String :=
  ((config.getD defaultRows).flatMap (fun r => pushRow r.labelFrom r.labelTo r.count))

/-- The statement `INSERT IGNORE INTO seats (movie_id, seat_number, status) VALUES ?`: a row
that breaks `uq_movie_seat` or `fk_seats_movie` is skipped. -/
def insertIgnoreSeats [Collation] (s : Store) (movieId : Nat) : List String → Store
  | [] => s
  | n :: ns =>
    if movieId ∈ s.movies.map (fun m => m.id) ∧
        ¬ (∃ r ∈ s.seats, r.movie_id = movieId ∧ collEq r.seat_number n) then
      insertIgnoreSeats
        { s with
          seats := s.seats ++ [{ seat_id := s.nextSeatId, movie_id := movieId, seat_number := n }]
          nextSeatId := s.nextSeatId + 1 } movieId ns
    else insertIgnoreSeats s movieId ns

/-- The helper `generateDefaultSeats(movieId, config)`; `none` is a rejected promise. -/
def generateDefaultSeats [Collation] (f : Faults) (s : Store) (movieId : Nat)
    (config : Option (List RowSpec)) : Option Store :=
  let l := seatsToInsert config
  if l.length = 0 then some s
  else if f Stmt.seatInsert then none
  else some (insertIgnoreSeats s movieId l)

/-- The handler `app.post('/api/movies/:id/seats/generate')`. -/
def generateSeats [Collation] (f : Faults) (s : Store) (movieId : Nat) (rows : Option (List RowSpec)) :
    Response × Store :=
  match generateDefaultSeats f s movieId rows with
  | some s1 => (Response.success, s1)
  | none => (Response.failure "Failed to generate seats", s)

/-- An entry `{seat_number, status}` of the body of the bulk update. -/
structure SeatPatch where
  seat_number : String
  status : SeatStatus
deriving DecidableEq, Repr

/-- The recursion `doUpdate(i)` of `app.patch('/api/movies/:id/seats')`, over the entries
from index `i` on; `total` is `updates.length`. -/
def doUpdate [Collation] (f : Faults) (movieId total : Nat) : List SeatPatch → Nat → Store → Response × Store
  | [], _, s => (Response.updated total, s)
  | u :: us, i, s =>
    if f (Stmt.seatPatch i) then (Response.failure "Failed to update seats", s)
    else
      doUpdate f movieId total us (i + 1)
        { s with seats := updateSeats s.seats u.status movieId [u.seat_number] }

/-- The handler `app.patch('/api/movies/:id/seats')`; `none` is a body without a `seats` array. -/
def patchMovieSeats [Collation] (f : Faults) (s : Store) (movieId : Nat) (seats : Option (List SeatPatch)) :
    Response × Store :=
  match seats with
  | none => (Response.invalidInput "No seats provided", s)
  | some l =>
    if l.length = 0 then (Response.invalidInput "No seats provided", s)
    else doUpdate f movieId l.length l 0 s

/-- The handler `app.post('/api/movies/:id/seats/reset')`. -/
def resetMovieSeats (f : Faults) (s : Store) (movieId : Nat) : Response × Store :=
  if f Stmt.seatReset then (Response.failure "Failed to reset seats", s)
  else
    (Response.success,
      { s with
        seats := s.seats.map (fun r =>
          if r.movie_id = movieId then { r with status := SeatStatus.available } else r) })

/-! ## Show creation -/

/-- The body of `POST /api/movies/:id/shows`; a field that is absent from the body is `none`. -/
structure ShowRequest where
  screen_id : Option Nat := none
  show_date : Option String := none
  show_time : Option String := none
  format : Option String := none
deriving DecidableEq, Repr

/-- The seat numbers of `values` in `generateSeatsForShow`, in the order they are pushed. -/
def showSeatLabels (rows cols : Int) : List String :=
  (List.range rows.toNat).flatMap (fun r =>
    (List.range cols.toNat).map (fun c => fromCharCode (65 + r) ++ toString (c + 1)))

/-- The statement `INSERT IGNORE INTO show_seats (show_id, seat_number, status) VALUES ?`: a
row that breaks `uq_show_seat` or `fk_showseats_show` is skipped. -/
def insertIgnoreShowSeats [Collation] (s : Store) (showId : Nat) : List String → Store
  | [] => s
  | n :: ns =>
    if showId ∈ s.shows.map (fun sh => sh.id) ∧
        ¬ (∃ r ∈ s.show_seats, r.show_id = showId ∧ collEq r.seat_number n) then
      insertIgnoreShowSeats
        { s with
          show_seats := s.show_seats ++
            [{ id := s.nextShowSeatId, show_id := showId, seat_number := n }]
          nextShowSeatId := s.nextShowSeatId + 1 } showId ns
    else insertIgnoreShowSeats s showId ns

/-- The helper `generateSeatsForShow(conn, showId)`; `none` is a rejected promise (a failed
statement, or a property read on a row that was not found). -/
def generateSeatsForShow [Collation] (f : Faults) (s : Store) (showId : Nat) : Option Store :=
  if f Stmt.showSelect then none
  else
    match (s.shows.filter (fun sh => sh.id = showId)).head? with
    | none => none
    | some showRow =>
      if f Stmt.screenSelect then none
      else
        match (s.screens.filter (fun sc => sc.id = showRow.screen_id)).head? with
        | none => none
        | some screen =>
          let values := showSeatLabels screen.row_count screen.col_count
          if values.length ≠ 0 then
            if f Stmt.showSeatInsert then none
            else some (insertIgnoreShowSeats s showId values)
          else some s

/-- The statement `INSERT INTO shows (..) VALUES (..)` breaks `uq_movie_screen_datetime`. -/
def showExists (s : Store) (movieId screenId : Nat) (date time : String) : Bool :=
  s.shows.any (fun sh =>
    sh.movie_id = movieId ∧ sh.screen_id = screenId ∧ sh.show_date = date ∧ sh.show_time = time)

/-- The foreign keys `fk_shows_movie` and `fk_shows_screen` of a row to insert. -/
def showForeignKeysOk (s : Store) (movieId screenId : Nat) : Bool :=
  decide (movieId ∈ s.movies.map (fun m => m.id)) &&
  decide (screenId ∈ s.screens.map (fun sc => sc.id))

/-- The handler `app.post('/api/movies/:id/shows')`.  `movieId` is
`parseInt(req.params.id, 10)`, with `none` for `NaN`.  The show row is inserted outside any
transaction and stays when the seat generation fails. -/
def createShow [Collation] (f : Faults) (s : Store) (movieId : Option Nat) (req : ShowRequest) :
    Response × Store :=
  if !truthyNat req.screen_id || !truthyStr req.show_date || !truthyStr req.show_time then
    (Response.invalidInput "screen_id, show_date, show_time required", s)
  else
    match req.screen_id, req.show_date, req.show_time with
    | some screen_id, some show_date, some show_time =>
      if f Stmt.getConnection then (Response.failure "DB error", s)
      else if f Stmt.showInsert then (Response.failure "Failed to create show", s)
      else
        match movieId with
        | none => (Response.failure "Failed to create show", s)
        | some movie_id =>
          if showExists s movie_id screen_id show_date show_time then (Response.conflictShow, s)
          else if !showForeignKeysOk s movie_id screen_id then
            (Response.failure "Failed to create show", s)
          else
            let showId := s.nextShowId
            let s1 : Store :=
              { s with
                shows := s.shows ++
                  [{ id := showId, movie_id := movie_id, screen_id := screen_id,
                     show_date := show_date, show_time := show_time,
                     format := req.format.getD "2D" }]
                nextShowId := s.nextShowId + 1 }
            match generateSeatsForShow f s1 showId with
            | some s2 => (Response.createdShow showId, s2)
            | none => (Response.failure "Failed to create show", s1)
    | _, _, _ => (Response.invalidInput "screen_id, show_date, show_time required", s)

/-! ## Screens and seat listing -/

/-- JavaScript truthiness of an optional integer: absent and `0` are falsy. -/
def truthyInt : Option Int → Bool
  | some n => n != 0
  | none => false

/-- The body of `POST /api/screens`; a field that is absent from the body is `none`. -/
structure ScreenRequest where
  name : Option String := none
  rows : Option Int := none
  cols : Option Int := none
deriving DecidableEq, Repr

/-- The handler `app.post('/api/screens')`.  The statement `INSERT INTO screens` fails when
the name breaks the unique key of `screens.name`; every error of the statement is answered
with status 500. -/
def createScreen [Collation] (f : Faults) (s : Store) (req : ScreenRequest) : Response × Store :=
  if !truthyStr req.name || !truthyInt req.rows || !truthyInt req.cols then
    (Response.invalidInput "name, rows, cols required", s)
  else
    match req.name, req.rows, req.cols with
    | some name, some rows, some cols =>
      if f Stmt.screenInsert || s.screens.any (fun sc => collEq sc.name name) then
        (Response.failure "Failed to create screen", s)
      else
        (Response.createdScreen s.nextScreenId,
          { s with
            screens := s.screens ++
              [{ id := s.nextScreenId, name := name, row_count := rows, col_count := cols }]
            nextScreenId := s.nextScreenId + 1 })
    | _, _, _ => (Response.invalidInput "name, rows, cols required", s)

/-- The order `<=` of JavaScript on two strings, compared character by character (by code
point), a proper prefix first: `lexLe x y` is `x <= y`. -/
def lexLe : List Char → List Char → Bool
  | [], _ => true
  | _ :: _, [] => false
  | a :: as, b :: bs => decide (a.toNat < b.toNat) || (decide (a = b) && lexLe as bs)

/-- The clause `ORDER BY seat_number` on rows of `seats`: a sort of the rows by the weights
of their seat numbers. -/
def orderBySeatNumber [Collation] (rows : List SeatRow) : List SeatRow :=
  rows.insertionSort (fun a b =>
    weightLe (Collation.key a.seat_number) (Collation.key b.seat_number) = true)

/-- The clause `ORDER BY seat_number` on rows of `show_seats`. -/
def orderByShowSeatNumber [Collation] (rows : List ShowSeatRow) : List ShowSeatRow :=
  rows.insertionSort (fun a b =>
    weightLe (Collation.key a.seat_number) (Collation.key b.seat_number) = true)

/-- The handler `app.get('/api/movies/:id/seats')`: the rows of the answer, `none` for
status 500. -/
def listMovieSeats [Collation] (f : Faults) (s : Store) (movieId : Nat) : Option (List SeatRow) :=
  if f Stmt.seatSelect then none
  else some (orderBySeatNumber (s.seats.filter (fun r => r.movie_id = movieId)))

/-- The handler `app.get('/api/shows/:id/seats')`: the rows of the answer, `none` for
status 500. -/
def listShowSeats [Collation] (f : Faults) (s : Store) (showId : Nat) : Option (List ShowSeatRow) :=
  if f Stmt.seatSelect then none
  else some (orderByShowSeatNumber (s.show_seats.filter (fun r => r.show_id = showId)))

/-! ## Bulk status update of a show, deletion of a show -/

/-- The recursion `doNext(i)` of `app.patch('/api/shows/:id/seats')`, over the entries from
index `i` on; `total` is `seats.length`. -/
def doNext [Collation] (f : Faults) (showId total : Nat) : List SeatPatch → Nat → Store → Response × Store
  | [], _, s => (Response.updated total, s)
  | u :: us, i, s =>
    if f (Stmt.seatPatch i) then (Response.failure "Failed to update seats", s)
    else
      doNext f showId total us (i + 1)
        { s with show_seats := updateShowSeats s.show_seats u.status showId [u.seat_number] }

/-- The handler `app.patch('/api/shows/:id/seats')`; `none` is a body without a `seats`
array. -/
def patchShowSeats [Collation] (f : Faults) (s : Store) (showId : Nat) (seats : Option (List SeatPatch)) :
    Response × Store :=
  match seats with
  | none => (Response.invalidInput "No seats provided", s)
  | some l =>
    if l.length = 0 then (Response.invalidInput "No seats provided", s)
    else doNext f showId l.length l 0 s

/-- The handler `app.delete('/api/shows/:id')`, for a numeric id: the statement
`DELETE FROM shows WHERE id = ?`.  With the show row go the rows of `show_seats` of the show
(`ON DELETE CASCADE`), and the ledger rows of the show get the show id `NULL`
(`fk_bookings_show`, `ON DELETE SET NULL`). -/
def deleteShow (f : Faults) (s : Store) (showId : Nat) : Response × Store :=
  if f Stmt.showDelete then (Response.failure "Failed to delete show", s)
  else if showId ∈ s.shows.map (fun sh => sh.id) then
    (Response.success,
      { s with
        shows := s.shows.filter (fun sh => sh.id ≠ showId)
        show_seats := s.show_seats.filter (fun r => r.show_id ≠ showId)
        bookings := s.bookings.map (fun b =>
          if b.show_id = some showId then { b with show_id := none } else b) })
  else (Response.success, s)

/-! ## Client functions -/

/-- The value `seatsArray.join(", ")` of `collectBookingData` in `seat-script.js`. -/
def joinSeats : List String → String
  | [] => ""
  | [x] => x
  | x :: y :: rest => x ++ ", " ++ joinSeats (y :: rest)

/-- The class `[A-Za-z]` of the pattern in `splitSeat`. -/
def isAsciiLetter (c : Char) : Bool := c.isUpper || c.isLower

/-- A match of the pattern `([A-Za-z]+)(\d+)` that starts at the head of `cs`: the two
groups, both greedy. -/
def matchSeatAt (cs : List Char) : Option (List Char × List Char) :=
  let letters := cs.takeWhile isAsciiLetter
  let digits := (cs.dropWhile isAsciiLetter).takeWhile Char.isDigit
  if letters.isEmpty || digits.isEmpty then none else some (letters, digits)

/-- The first match of the pattern `([A-Za-z]+)(\d+)` in `cs`, from left to right. -/
def matchSeat : List Char → Option (List Char × List Char)
  | [] => none
  | c :: cs =>
    match matchSeatAt (c :: cs) with
    | some m => some m
    | none => matchSeat cs

/-- The natural number that a run of decimal digits writes. -/
def digitsNat (ds : List Char) : Nat := ds.foldl (fun n d => 10 * n + (d.toNat - 48)) 0

/-- The number of low bits of `n` that a double does not hold: the least `e` with
`n / 2^e < 2^53`; `fuel` bounds the search and `n` itself is enough. -/
def droppedBits : Nat → Nat → Nat
  | 0, _ => 0
  | fuel + 1, n => if n < 2 ^ 53 then 0 else droppedBits fuel (n / 2) + 1

/-- The double nearest to the natural number `n`, ties to the even significand: `n` itself
below 2^53.  A number beyond the largest double (`Infinity` in the source) is outside the
model. -/
def roundToDouble (n : Nat) : Nat :=
  let e := droppedBits n n
  let q := n / 2 ^ e
  let r := n % 2 ^ e
  if 2 * r < 2 ^ e ∨ (2 * r = 2 ^ e ∧ q % 2 = 0) then q * 2 ^ e else (q + 1) * 2 ^ e

/-- The value `parseInt(ds, 10)` of a run of decimal digits: the double nearest to the number
the digits write. -/
def digitsValue (ds : List Char) : Nat := roundToDouble (digitsNat ds)

/-- The function `splitSeat(code)` of `admin-seats.js`: the upper-cased row letters and the
number of the first match, `['A', 0]` without a match. -/
def splitSeat (code : String) : String × Nat :=
  match matchSeat code.data with
  | some (letters, digits) => (String.mk (letters.map Char.toUpper), digitsValue digits)
  | none => ("A", 0)

/-- The comparator of the sort in `renderGrid`: `na - nb` for equal rows, else -1 or 1 by the
order of the rows as strings. -/
def compareSeats (a b : String) : Int :=
  if (splitSeat a).1 = (splitSeat b).1 then ((splitSeat a).2 : Int) - ((splitSeat b).2 : Int)
  else if lexLe (splitSeat b).1.data (splitSeat a).1.data = false then -1
  else 1

/-- The order in which `renderGrid` of `admin-seats.js` shows the seats: the stable sort
`[...data].sort(compare)`. -/
def renderGridOrder (data : List SeatRow) : List SeatRow :=
  data.insertionSort (fun a b => compareSeats a.seat_number b.seat_number ≤ 0)

/-- The pieces of `time.split(':')`: always at least one piece. -/
def splitColon : List Char → List (List Char)
  | [] => [[]]
  | c :: cs =>
    if c = ':' then [] :: splitColon cs
    else
      match splitColon cs with
      | [] => [[c]]
      | p :: ps => (c :: p) :: ps

/-- The value `parseInt(s, 10)`: leading whitespace is skipped, a sign is read, then the
longest run of decimal digits; `none` is `NaN`. -/
def parseInt10 (cs : List Char) : Option Int :=
  let t := cs.dropWhile isJsWhitespace
  let body :=
    match t with
    | '-' :: r => r
    | '+' :: r => r
    | _ => t
  let digits := body.takeWhile Char.isDigit
  if digits.isEmpty then none
  else
    match t with
    | '-' :: _ => some (-(digitsValue digits : Int))
    | _ => some (digitsValue digits : Int)

/-- The constant `ampm` of `formatTime`: a comparison with `NaN` is false. -/
def ampm (hour : Option Int) : String :=
  match hour with
  | some h => if h ≥ 12 then "PM" else "AM"
  | none => "AM"

/-- The constant `displayHour` of `formatTime`, as the template literal prints it. -/
def displayHour (hour : Option Int) : String :=
  match hour with
  | some h => if h > 12 then toString (h - 12) else if h = 0 then "12" else toString h
  | none => "NaN"

/-- The function `formatTime(time)` of `seat-script.js`; `none` is a missing time. -/
def formatTime (time : Option String) : String :=
  if !truthyStr time then ""
  else
    match time with
    | none => ""
    | some t =>
      let parts := splitColon t.data
      let hour := parseInt10 (parts.headD [])
      let minute :=
        match parts.get? 1 with
        | some m => if m.isEmpty then "00" else String.mk m
        | none => "00"
      displayHour hour ++ ":" ++ minute ++ " " ++ ampm hour

/-- The character `"`. -/
def quoteChar : Char := Char.ofNat 34

/-- The character of the single quote. -/
def aposChar : Char := Char.ofNat 39

/-- The replacement of one character by `escapeHtml`. -/
def escapeChar (c : Char) : List Char :=
  if c = '&' then ['&', 'a', 'm', 'p', ';']
  else if c = '<' then ['&', 'l', 't', ';']
  else if c = '>' then ['&', 'g', 't', ';']
  else if c = quoteChar then ['&', 'q', 'u', 'o', 't', ';']
  else if c = aposChar then ['&', '#', '3', '9', ';']
  else [c]

/-- The function `escapeHtml(s)` of `admin-seats.js` and `script.js`, on a string. -/
def escapeHtml (s : String) : String := String.mk (s.data.flatMap escapeChar)

/-! ## Vocabulary of the specification -/

/-- The owner of a set of seats: a movie or a show. -/
inductive Owner where
  | movie (id : Nat)
  | show (id : Nat)
deriving DecidableEq, Repr

/-- The seat inventory of an owner: seat number and status of each of its seat rows. -/
def Store.inventory (s : Store) : Owner → List (String × SeatStatus)
  | Owner.movie m => (s.seats.filter (fun r => r.movie_id = m)).map (fun r => (r.seat_number, r.status))
  | Owner.show sh =>
    (s.show_seats.filter (fun r => r.show_id = sh)).map (fun r => (r.seat_number, r.status))

/-- The owner a request targets: the show when a show id is given, otherwise the movie. -/
def targetOwner (movieId : Nat) (showId : Option Nat) : Owner :=
  match orNullNat showId with
  | some sh => Owner.show sh
  | none => Owner.movie movieId

/-- The owner of a ledger row, as `deleteBooking` reads it. -/
def BookingRow.owner (b : BookingRow) : Owner := targetOwner b.movie_id b.show_id

/-- A request that passes input validation: the four required fields are present
(a non-empty username, a non-zero movie id, a non-empty seats string, a total price) and the
parsed seat list is not empty. -/
def BookingRequest.valid (req : BookingRequest) : Prop :=
  truthyStr req.username = true ∧ truthyNat req.movie_id = true ∧ truthyStr req.seats = true ∧
  req.total_price.isSome = true ∧ seatList (req.seats.getD "") ≠ []

/-- The user directory holds a row whose username is, for the store, this username and whose
blocked flag is set. -/
def Store.blocked [Collation] (s : Store) (username : String) : Prop :=
  ∃ u ∈ s.users, collEq u.username username ∧ u.is_blocked = true

/-- The unique key of `users.username`: no two rows have the same username for the store. -/
def Store.usersUnique [Collation] (s : Store) : Prop :=
  (s.users.map (fun u => Collation.key u.username)).Nodup

/-- The primary key of `bookings`: ids are pairwise distinct and below the counter. -/
def Store.bookingIdsFresh (s : Store) : Prop :=
  (s.bookings.map (fun b => b.id)).Nodup ∧ ∀ b ∈ s.bookings, b.id < s.nextBookingId

/-- The derived-status property of the spec, as the claim states it: a seat is booked exactly
when its number is in the parsed seat list of a ledger row of its owner. -/
def Store.bookedIffListed (s : Store) : Prop :=
  ∀ (o : Owner) (n : String) (st : SeatStatus), (n, st) ∈ s.inventory o →
    (st = SeatStatus.booked ↔ ∃ b ∈ s.bookings, b.owner = o ∧ n ∈ seatList b.seats)

/-- The derived-status property with the comparison of the store: a seat is booked exactly
when its number is, for the store, a number of the parsed seat list of a ledger row of its
owner. -/
def Store.bookedIffInLedger [Collation] (s : Store) : Prop :=
  ∀ (o : Owner) (n : String) (st : SeatStatus), (n, st) ∈ s.inventory o →
    (st = SeatStatus.booked ↔ ∃ b ∈ s.bookings, b.owner = o ∧ collMem n (seatList b.seats))

/-- The primary key of `shows`: ids are below the counter. -/
def Store.showIdsFresh (s : Store) : Prop := ∀ sh ∈ s.shows, sh.id < s.nextShowId

/-- States reached from `s0` by `createBooking` calls, `deleteBooking` calls, show creations
and seat generations for a movie that has no ledger row, whatever the requests, the ids, the
row specs and the faults. -/
inductive BookingReachable [Collation] (s0 : Store) : Store → Prop where
  | start : BookingReachable s0 s0
  | create (now : Nat) (f : Faults) (req : BookingRequest) {s : Store} :
      BookingReachable s0 s → BookingReachable s0 (createBooking now f s req).2
  | delete (f : Faults) (bookingId : Option Int) {s : Store} :
      BookingReachable s0 s → BookingReachable s0 (deleteBooking f s bookingId).2
  | generate (f : Faults) (movieId : Nat) (rows : Option (List RowSpec)) {s : Store} :
      BookingReachable s0 s → (∀ b ∈ s.bookings, b.owner ≠ Owner.movie movieId) →
      BookingReachable s0 (generateSeats f s movieId rows).2
  | addShow (f : Faults) (movieId : Option Nat) (req : ShowRequest) {s : Store} :
      BookingReachable s0 s → BookingReachable s0 (createShow f s movieId req).2

/-! ## Auxiliary definitions and example data -/

/-- Two stores with the same tables (the counters may differ). -/
def sameTables (s t : Store) : Prop :=
  t.movies = s.movies ∧ t.shows = s.shows ∧ t.seats = s.seats ∧ t.show_seats = s.show_seats ∧
  t.bookings = s.bookings ∧ t.users = s.users ∧ s.nextBookingId ≤ t.nextBookingId ∧
  t.screens = s.screens ∧ t.nextShowId = s.nextShowId

/-- The store a committed transaction leaves. -/
def committedStore [Collation] (now : Nat) (s : Store) (req : BookingRequest) (u : String) (m : Nat)
    (str : String) (p : Int) : Store :=
  upsertUser
    (setSeatStatus
      (insertBooking s u (orNullNat req.user_id) (orNullStr req.user_email) m
        (orNullNat req.show_id) str p)
      m req.show_id SeatStatus.booked (seatList str)) u now

/-- The target owner of a request (the show when a show id is given, otherwise the movie). -/
def BookingRequest.owner (req : BookingRequest) : Owner :=
  targetOwner (req.movie_id.getD 0) req.show_id

/-- The parsed seat list of a request. -/
def BookingRequest.parsedSeats (req : BookingRequest) : List String :=
  seatList (req.seats.getD "")

/-- The username of a request. -/
def BookingRequest.name (req : BookingRequest) : String := req.username.getD ""

/-- A store with movie 1, its seats A1 (available), A2 (booked), A3 (available), show 1 of
movie 1 with seats A1 and A2 available, and a blocked user. -/
def demoStore : Store :=
  { movies := [{ id := 1 }]
    shows := [{ id := 1, movie_id := 1, screen_id := 1, show_date := "2025-10-27",
                show_time := "18:00:00" }]
    seats := [{ seat_id := 1, movie_id := 1, seat_number := "A1" },
              { seat_id := 2, movie_id := 1, seat_number := "A2", status := SeatStatus.booked },
              { seat_id := 3, movie_id := 1, seat_number := "A3" }]
    show_seats := [{ id := 1, show_id := 1, seat_number := "A1" },
                   { id := 2, show_id := 1, seat_number := "A2" }]
    users := [{ id := 1, username := "eve", is_blocked := true }]
    nextSeatId := 4
    nextUserId := 2 }

/-- A request of user bob for seats A1 and A2 of movie 1. -/
def demoRequest : BookingRequest :=
  { username := some "bob", movie_id := some 1, seats := some "A1, A2", total_price := some 76272 }

/-- A request of user bob for seats A1 and A3 of movie 1. -/
def demoRequestFree : BookingRequest :=
  { username := some "bob", movie_id := some 1, seats := some "A1, A3", total_price := some 76272 }

/-- A request of user bob for seat a2 of movie 1, written with a small letter. -/
def demoRequestLower : BookingRequest :=
  { username := some "bob", movie_id := some 1, seats := some "a2", total_price := some 38136 }

/-- A request of user bob for seat a1 of movie 1, written with a small letter. -/
def demoRequestLowerA1 : BookingRequest :=
  { username := some "bob", movie_id := some 1, seats := some "a1", total_price := some 38136 }

/-- A request of user EVE, in capitals, for seat A1 of movie 1. -/
def demoRequestUpperName : BookingRequest :=
  { username := some "EVE", movie_id := some 1, seats := some "A1", total_price := some 38136 }

/-- The fault plan in which only the commit fails. -/
def commitFails : Faults := fun st => decide (st = Stmt.commit)

/-- A request of the blocked user eve for seat A1 of movie 1. -/
def demoRequestBlocked : BookingRequest :=
  { username := some "eve", movie_id := some 1, seats := some "A1", total_price := some 38136 }

/-- A request whose four fields are present, with an empty username. -/
def demoRequestEmptyName : BookingRequest :=
  { username := some "", movie_id := some 1, seats := some "A1", total_price := some 38136 }

/-- A request whose four fields are present, with the movie id 0. -/
def demoRequestMovieZero : BookingRequest :=
  { username := some "bob", movie_id := some 0, seats := some "A1", total_price := some 38136 }

/-- A request with a total price of 0. -/
def demoRequestPriceZero : BookingRequest :=
  { username := some "bob", movie_id := some 1, seats := some "A1", total_price := some 0 }

/-- A request with an empty seat list after parsing, by the blocked user eve. -/
def demoRequestNoSeats : BookingRequest :=
  { username := some "eve", movie_id := some 1, seats := some " , ,", total_price := some 0 }

/-- The ledger row a committed transaction inserts. -/
def newRow (s : Store) (req : BookingRequest) (u : String) (m : Nat) (str : String)
    (p : Int) : BookingRow :=
  { id := s.nextBookingId, username := u, user_id := orNullNat req.user_id,
    user_email := orNullStr req.user_email, movie_id := m, show_id := orNullNat req.show_id,
    seats := str, total_price := p }

/-- A request of user bob for seat Z9, which movie 1 does not have. -/
def demoRequestGhost : BookingRequest :=
  { username := some "bob", movie_id := some 1, seats := some "Z9", total_price := some 38136 }

/-- A request of user bob for seats A1 and A2 of show 1 (of movie 1). -/
def demoRequestShow : BookingRequest :=
  { username := some "bob", movie_id := some 1, show_id := some 1, seats := some "A1,A2",
    total_price := some 76272 }

/-- The store a committed delete leaves: the seats of the row's owner released, the row gone. -/
def releasedStore [Collation] (s : Store) (b : BookingRow) (bid : Int) : Store :=
  { setSeatStatus s b.movie_id b.show_id SeatStatus.available (seatList b.seats) with
    bookings := s.bookings.filter (fun r => ¬ ((r.id : Int) = bid)) }

/-- No seat of an owner's inventory is, for the store, in the parsed lists of two ledger rows
of that owner. -/
def Store.ledgerDisjoint [Collation] (s : Store) : Prop :=
  ∀ b1 ∈ s.bookings, ∀ b2 ∈ s.bookings, b1.owner = b2.owner →
    ∀ n, collMem n (seatList b1.seats) → collMem n (seatList b2.seats) →
      (∃ st, (n, st) ∈ s.inventory b1.owner) → b1.id = b2.id

/-- Every ledger row of a show refers to a row of `shows` (the foreign key
`fk_bookings_show`). -/
def Store.ledgerShowsExist (s : Store) : Prop :=
  ∀ b ∈ s.bookings, ∀ sh, b.owner = Owner.show sh → sh ∈ s.shows.map (fun r => r.id)

/-- The invariant of the booking calls, the show creations and the seat generations. -/
def Store.bookingInvariant [Collation] (s : Store) : Prop :=
  s.bookedIffInLedger ∧ s.bookingIdsFresh ∧ s.ledgerDisjoint ∧ s.showIdsFresh ∧
  s.ledgerShowsExist

/-- The system with movie 1 and the screen Audi-1 (3 rows of 4 seats) in the catalogue, no
show, no seat, no ledger row and no user. -/
def catalogStore : Store :=
  { movies := [{ id := 1 }]
    screens := [{ id := 1, name := "Audi-1", row_count := 3, col_count := 4 }] }

/-- The request of a show on screen 1. -/
def demoShowRequest : ShowRequest :=
  { screen_id := some 1, show_date := some "2025-10-27", show_time := some "18:00:00" }

/-- The row spec of the single seat A1. -/
def rowA1 : List RowSpec := [{ labelFrom := "A", labelTo := "A", count := 1 }]

/-- A request of user bob for seat A1 of movie 1. -/
def demoRequestA1 : BookingRequest :=
  { username := some "bob", movie_id := some 1, seats := some "A1", total_price := some 38136 }

/-- Seat generation for movie 1, then a bulk status update that sets A1 to booked. -/
def afterPatch : Store :=
  (patchMovieSeats noFaults (generateSeats noFaults catalogStore 1 (some rowA1)).2 1
    (some [{ seat_number := "A1", status := SeatStatus.booked }])).2

/-- Seat generation for movie 1, a booking of A1, then a reset of the movie's seats. -/
def afterReset : Store :=
  (resetMovieSeats noFaults
    (createBooking 7 noFaults (generateSeats noFaults catalogStore 1 (some rowA1)).2
      demoRequestA1).2 1).2

/-- A booking of A1 for movie 1 while it has no seat, then seat generation for movie 1. -/
def afterLateGeneration : Store :=
  (generateSeats noFaults (createBooking 7 noFaults catalogStore demoRequestA1).2 1
    (some rowA1)).2

/-- The system after seat generation for movie 1: the seat A1, available, and no ledger
row. -/
def oneSeatStore : Store := (generateSeats noFaults catalogStore 1 (some rowA1)).2

/-- Seat generation for movie 1, then a booking of its seat under the number a1. -/
def afterLowerBooking : Store :=
  (createBooking 7 noFaults (generateSeats noFaults catalogStore 1 (some rowA1)).2
    demoRequestLowerA1).2

/-- The creation of show 1 of movie 1 on screen 1, then a booking of its seats A1 and A2. -/
def showBooked : Store :=
  (createBooking 7 noFaults (createShow noFaults catalogStore (some 1) demoShowRequest).2
    demoRequestShow).2

/-- After `showBooked`, seat generation for movie 1, a booking of its seat A1, and the
deletion of the booking of the show. -/
def showBookedMovieBooked : Store :=
  (deleteBooking noFaults
    (createBooking 8 noFaults (generateSeats noFaults showBooked 1 (some rowA1)).2
      demoRequestA1).2 (some 1)).2

/-! ## Further vocabulary -/

/-- The seat numbers that `INSERT IGNORE` keeps of a list of proposed ones: those that are
not, for the store, among the numbers `seen` so far, each at its first occurrence. -/
def keepNew [Collation] (seen : List String) : List String → List String
  | [] => []
  | n :: ns => if collMem n seen then keepNew seen ns else n :: keepNew (n :: seen) ns

/-- The seat numbers of a movie in the table `seats`. -/
def Store.seatNumbers (s : Store) (movieId : Nat) : List String :=
  (s.seats.filter (fun r => r.movie_id = movieId)).map (fun r => r.seat_number)

/-- The seat numbers of a show in the table `show_seats`. -/
def Store.showSeatNumbers (s : Store) (showId : Nat) : List String :=
  (s.show_seats.filter (fun r => r.show_id = showId)).map (fun r => r.seat_number)

/-- The labels of a grid: for each of `k` consecutive code units from `first` on, the numbers
1 to `count`. -/
def gridLabels (first k count : Nat) : List String :=
  (List.range k).flatMap (fun i =>
    (List.range count).map (fun j => fromCharCode (first + i) ++ toString (j + 1)))

/-- The store after the statement `INSERT INTO shows` of `createShow`. -/
def withShow (s : Store) (movieId screenId : Nat) (date time : String)
    (format : Option String) : Store :=
  { s with
    shows := s.shows ++
      [{ id := s.nextShowId, movie_id := movieId, screen_id := screenId,
         show_date := date, show_time := time, format := format.getD "2D" }]
    nextShowId := s.nextShowId + 1 }

/-- A seat number of the form letters A to Z, then decimal digits, both at least one. -/
def lettersThenDigits (x : String) : Bool :=
  let ls := x.data.takeWhile Char.isUpper
  let ds := x.data.dropWhile Char.isUpper
  !ls.isEmpty && !ds.isEmpty && ds.all Char.isDigit

/-- The seat rows of a movie that a list of entries names. -/
def Store.seatsNamed (s : Store) (movieId : Nat) (l : List SeatPatch) : List SeatRow :=
  s.seats.filter (fun r => r.movie_id = movieId ∧ r.seat_number ∈ l.map (fun u => u.seat_number))

/-- The seat rows of a show that a list of entries names. -/
def Store.showSeatsNamed (s : Store) (showId : Nat) (l : List SeatPatch) : List ShowSeatRow :=
  s.show_seats.filter
    (fun r => r.show_id = showId ∧ r.seat_number ∈ l.map (fun u => u.seat_number))

/-- The statuses of the seats of an owner with a given number. -/
def Store.statusOf (s : Store) (o : Owner) (n : String) : List SeatStatus :=
  ((s.inventory o).filter (fun p => p.1 = n)).map (fun p => p.2)

/-- A call of one of the two booking handlers. -/
inductive BookingCall where
  | create (now : Nat) (f : Faults) (req : BookingRequest)
  | delete (f : Faults) (bookingId : Option Int)

/-- The store after a sequence of calls of the booking handlers, in order. -/
def runCalls [Collation] (s : Store) : List BookingCall → Store
  | [] => s
  | BookingCall.create now f req :: rest => runCalls (createBooking now f s req).2 rest
  | BookingCall.delete f bookingId :: rest => runCalls (deleteBooking f s bookingId).2 rest

/-- The order of the specification on two seat numbers: by upper-cased row letters first,
by the number for equal rows. -/
def rowThenNumberLe (a b : String) : Prop :=
  ((splitSeat a).1 ≠ (splitSeat b).1 ∧ lexLe (splitSeat a).1.data (splitSeat b).1.data = true) ∨
  ((splitSeat a).1 = (splitSeat b).1 ∧ (splitSeat a).2 ≤ (splitSeat b).2)

/-- The five entities that `escapeHtml` writes. -/
def entities : List (List Char) :=
  [['&', 'a', 'm', 'p', ';'], ['&', 'l', 't', ';'], ['&', 'g', 't', ';'],
   ['&', 'q', 'u', 'o', 't', ';'], ['&', '#', '3', '9', ';']]

/-- The entity that follows an ampersand, if one does: its character and the rest. -/
def stripEntity (cs : List Char) : Option (Char × List Char) :=
  if ['a', 'm', 'p', ';'].isPrefixOf cs then some ('&', cs.drop 4)
  else if ['l', 't', ';'].isPrefixOf cs then some ('<', cs.drop 3)
  else if ['g', 't', ';'].isPrefixOf cs then some ('>', cs.drop 3)
  else if ['q', 'u', 'o', 't', ';'].isPrefixOf cs then some (quoteChar, cs.drop 5)
  else if ['#', '3', '9', ';'].isPrefixOf cs then some (aposChar, cs.drop 4)
  else none

/-- The replacement of the five entities by their characters, read from left to right, in
at most `fuel` steps. -/
def unescapeFuel : Nat → List Char → List Char
  | 0, _ => []
  | _ + 1, [] => []
  | fuel + 1, c :: rest =>
    if c = '&' then
      match stripEntity rest with
      | some (ch, rest') => ch :: unescapeFuel fuel rest'
      | none => c :: unescapeFuel fuel rest
    else c :: unescapeFuel fuel rest

/-- The string with the five entities replaced by their characters; every step reads at
least one character, so the length of the string is enough fuel. -/
def unescapeHtml (s : String) : String := String.mk (unescapeFuel s.data.length s.data)

/-! ## Further example data -/

/-- A store with movie 1 and its seats A1, A2 (booked), show 1 and its seats A1 (booked), A2
(booked), and two ledger rows: booking 1 of seat A2 of the movie, booking 2 of seats A1 and
A2 of the show. -/
def ledgerStore : Store :=
  { movies := [{ id := 1 }]
    shows := [{ id := 1, movie_id := 1, screen_id := 1, show_date := "2025-10-27",
                show_time := "18:00:00" }]
    seats := [{ seat_id := 1, movie_id := 1, seat_number := "A1" },
              { seat_id := 2, movie_id := 1, seat_number := "A2", status := SeatStatus.booked }]
    show_seats := [{ id := 1, show_id := 1, seat_number := "A1", status := SeatStatus.booked },
                   { id := 2, show_id := 1, seat_number := "A2", status := SeatStatus.booked }]
    bookings := [{ id := 1, username := "bob", user_id := none, user_email := none,
                   movie_id := 1, show_id := none, seats := "A2", total_price := 38136 },
                 { id := 2, username := "bob", user_id := none, user_email := none,
                   movie_id := 1, show_id := some 1, seats := "A1, A2", total_price := 76272 }]
    nextShowId := 2
    nextShowSeatId := 3
    nextSeatId := 3
    nextBookingId := 3 }

/-- The second ledger row of `ledgerStore`: seats A1 and A2 of show 1. -/
def ledgerRow2 : BookingRow :=
  { id := 2, username := "bob", user_id := none, user_email := none, movie_id := 1,
    show_id := some 1, seats := "A1, A2", total_price := 76272 }

/-- A store with movie 1 and its seats A1 (booked) and A2. -/
def twoSeatStore : Store :=
  { movies := [{ id := 1 }]
    seats := [{ seat_id := 1, movie_id := 1, seat_number := "A1", status := SeatStatus.booked },
              { seat_id := 2, movie_id := 1, seat_number := "A2" }]
    nextSeatId := 3 }

/-- The row spec of the seats A1, A2, A3. -/
def rowA3 : List RowSpec := [{ labelFrom := "A", labelTo := "A", count := 3 }]

/-- The row spec of the seats A1..A4 and B1..B4. -/
def rowsAB4 : List RowSpec := [{ labelFrom := "A", labelTo := "B", count := 4 }]

/-- The system with movie 1 and a screen of 33 rows of 1 seat. -/
def rows33Store : Store :=
  { movies := [{ id := 1 }]
    screens := [{ id := 1, name := "Audi-33", row_count := 33, col_count := 1 }] }

/-- The system with movie 1 and a screen of 27 rows of 1 seat. -/
def rows27Store : Store :=
  { movies := [{ id := 1 }]
    screens := [{ id := 1, name := "Audi-27", row_count := 27, col_count := 1 }] }

/-- A store with movie 1 and its seats A1, A2 and A10. -/
def tenSeatStore : Store :=
  { movies := [{ id := 1 }]
    seats := [{ seat_id := 1, movie_id := 1, seat_number := "A1" },
              { seat_id := 2, movie_id := 1, seat_number := "A2" },
              { seat_id := 3, movie_id := 1, seat_number := "A10" }]
    nextSeatId := 4 }

/-- A store with movie 1 and its seats B1, a1 and A2. -/
def mixedCaseStore : Store :=
  { movies := [{ id := 1 }]
    seats := [{ seat_id := 1, movie_id := 1, seat_number := "B1" },
              { seat_id := 2, movie_id := 1, seat_number := "a1" },
              { seat_id := 3, movie_id := 1, seat_number := "A2" }]
    nextSeatId := 4 }

/-- The request of a screen named Audi-1 with 3 rows of 4 seats. -/
def demoScreenRequest : ScreenRequest :=
  { name := some "Audi-1", rows := some 3, cols := some 4 }

/-- A store with show 1 of movie 1 on screen 1 at the date and time of `demoShowRequest`. -/
def oneShowStore : Store :=
  { movies := [{ id := 1 }]
    screens := [{ id := 1, name := "Audi-1", row_count := 3, col_count := 4 }]
    shows := [{ id := 1, movie_id := 1, screen_id := 1, show_date := "2025-10-27",
                show_time := "18:00:00" }]
    show_seats := [{ id := 1, show_id := 1, seat_number := "A1" }]
    nextShowId := 2
    nextShowSeatId := 2 }

/-- The fault plan in which only the user upsert fails. -/
def upsertFails : Faults := fun st => decide (st = Stmt.userUpsert)

/-- A request of user bob for seats A2 and A3 of show 1 (of movie 1). -/
def demoRequestShowA2A3 : BookingRequest :=
  { username := some "bob", movie_id := some 1, show_id := some 1, seats := some "A2,A3",
    total_price := some 76272 }

/-- A request of user bob for seats B1 and B2 of show 1, the second written b2. -/
def demoRequestShowB : BookingRequest :=
  { username := some "bob", movie_id := some 1, show_id := some 1, seats := some "B1, b2",
    total_price := some 76272 }

/-- The scenario: show 1 is created on the screen of 3 rows of 4 seats. -/
def scenarioShow : Store := (createShow noFaults catalogStore (some 1) demoShowRequest).2

/-- The scenario: the seats A1 and A2 of show 1 are booked. -/
def scenarioBooked : Store := (createBooking 7 noFaults scenarioShow demoRequestShow).2

/-- The scenario: a booking of the seats A2 and A3 of show 1 is tried. -/
def scenarioRefused : Store := (createBooking 8 noFaults scenarioBooked demoRequestShowA2A3).2

/-- The scenario: the first booking is deleted. -/
def scenarioDeleted : Store := (deleteBooking noFaults scenarioRefused (some 1)).2

/-- The scenario of a deleted show: show 1 is created, seat A1 of movie 1 is generated and
booked (ledger row 1), and the seats A1 and A2 of show 1 are booked (ledger row 2). -/
def bothBooked : Store :=
  (createBooking 8 noFaults
    (createBooking 7 noFaults
      (generateSeats noFaults (createShow noFaults catalogStore (some 1) demoShowRequest).2 1
        (some rowA1)).2
      demoRequestA1).2
    demoRequestShow).2

/-- The scenario of a deleted show: then show 1 is deleted. -/
def showDeleted : Store := (deleteShow noFaults bothBooked 1).2

/-- Two seats of row A with the numbers 2^53 + 1 and 2^53, in this order. -/
def hugeRows : List SeatRow :=
  [{ seat_id := 1, movie_id := 1, seat_number := "A9007199254740993" },
   { seat_id := 2, movie_id := 1, seat_number := "A9007199254740992" }]

/-- The seats A10, B1 and A2 of movie 1, in this order. -/
def gridRows : List SeatRow :=
  [{ seat_id := 3, movie_id := 1, seat_number := "A10" },
   { seat_id := 4, movie_id := 1, seat_number := "B1" },
   { seat_id := 2, movie_id := 1, seat_number := "A2" }]

/-! ## Lemmas on the handlers -/

open SeatStatus

theorem rollback_self (s : Store) : rollback s s = s := rfl

theorem truthyStr_some {u : String} : truthyStr (some u) = true ↔ u ≠ "" := by
  simp [truthyStr]

theorem truthyNat_some {n : Nat} : truthyNat (some n) = true ↔ n ≠ 0 := by
  simp [truthyNat]

/-- A valid request has its four fields, and the handler reaches the blocked check. -/
theorem valid_fields {req : BookingRequest} (h : req.valid) :
    ∃ u m str p, req.username = some u ∧ req.movie_id = some m ∧ req.seats = some str ∧
      req.total_price = some p ∧ u ≠ "" ∧ m ≠ 0 ∧ str ≠ "" ∧ seatList str ≠ [] := by
  rcases req with ⟨username, uid, email, movie, shw, seats, price⟩
  rcases h with ⟨h1, h2, h3, h4, h5⟩
  rcases username with _ | u
  · simp [truthyStr] at h1
  rcases movie with _ | m
  · simp [truthyNat] at h2
  rcases seats with _ | str
  · simp [truthyStr] at h3
  rcases price with _ | p
  · simp at h4
  exact ⟨u, m, str, p, rfl, rfl, rfl, rfl, truthyStr_some.1 h1, truthyNat_some.1 h2,
    truthyStr_some.1 h3, by simpa using h5⟩

/-- The handler on a request with its four fields: the steps after validation. -/
theorem createBooking_of_fields [Collation] (now : Nat) (f : Faults) (s : Store) {req : BookingRequest}
    {u : String} {m : Nat} {str : String} {p : Int}
    (hu : req.username = some u) (hm : req.movie_id = some m) (hs : req.seats = some str)
    (hp : req.total_price = some p) (hu' : u ≠ "") (hm' : m ≠ 0) (hs' : str ≠ "")
    (hl : seatList str ≠ []) :
    createBooking now f s req =
      if f Stmt.blockedLookup = true then (Response.failure "Database error", s)
      else if (selectBlocked s u).head? = some true then (Response.forbidden, s)
      else if f Stmt.getConnection = true then (Response.failure "Database error", s)
      else if f Stmt.beginTransaction = true then (Response.failure "Transaction start failed", s)
      else bookingTransaction now f s req u m str p (seatList str) := by
  have h1 : ¬ (0 < (selectBlocked s u).length ∧ (selectBlocked s u).head? = some true) ↔
      ¬ ((selectBlocked s u).head? = some true) := by
    constructor
    · intro h h'
      apply h
      refine ⟨?_, h'⟩
      cases hb : selectBlocked s u with
      | nil => simp [hb] at h'
      | cons a t => simp
    · intro h h'
      exact h h'.2
  unfold createBooking
  simp only [hu, hm, hs, hp, truthyStr, truthyNat]
  simp [hu', hm', hs', hl]
  by_cases hb : (selectBlocked s u).head? = some true
  · have : 0 < (selectBlocked s u).length := by
      cases hb' : selectBlocked s u with
      | nil => simp [hb'] at hb
      | cons a t => simp
    simp [hb, this]
  · simp [hb]

/-- A request that is not valid is answered InvalidInput, with one answer for every store and
every fault plan. -/
theorem createBooking_of_not_valid [Collation] {req : BookingRequest} (h : ¬ req.valid) :
    ∃ e, ∀ (now : Nat) (f : Faults) (s : Store),
      createBooking now f s req = (Response.invalidInput e, s) := by
  rcases req with ⟨username, uid, email, movie, shw, seats, price⟩
  rcases username with _ | u
  · exact ⟨"Missing required fields", fun now f s => by simp [createBooking, truthyStr]⟩
  rcases movie with _ | m
  · exact ⟨"Missing required fields", fun now f s => by
      simp [createBooking, truthyStr, truthyNat]⟩
  rcases seats with _ | str
  · exact ⟨"Missing required fields", fun now f s => by
      simp [createBooking, truthyStr, truthyNat]⟩
  rcases price with _ | p
  · exact ⟨"Missing required fields", fun now f s => by
      simp [createBooking, truthyStr, truthyNat]⟩
  by_cases hu : u = ""
  · exact ⟨"Missing required fields", fun now f s => by
      simp [createBooking, truthyStr, truthyNat, hu]⟩
  by_cases hm : m = 0
  · exact ⟨"Missing required fields", fun now f s => by
      simp [createBooking, truthyStr, truthyNat, hm]⟩
  by_cases hs : str = ""
  · exact ⟨"Missing required fields", fun now f s => by
      simp [createBooking, truthyStr, truthyNat, hs]⟩
  have hl : seatList str = [] := by
    by_contra hl
    exact h ⟨by simp [truthyStr, hu], by simp [truthyNat, hm], by simp [truthyStr, hs], rfl,
      by simpa using hl⟩
  refine ⟨"No seats provided", fun now f s => ?_⟩
  unfold createBooking
  simp only [truthyStr, truthyNat]
  simp [hu, hm, hs, hl]

theorem sameTables_refl (s : Store) : sameTables s s :=
  ⟨rfl, rfl, rfl, rfl, rfl, rfl, le_refl _, rfl, rfl⟩

theorem sameTables_rollback (s t : Store) (h : s.nextBookingId ≤ t.nextBookingId) :
    sameTables s (rollback s t) :=
  ⟨rfl, rfl, rfl, rfl, rfl, rfl, h, rfl, rfl⟩

theorem insertBooking_nextBookingId (s : Store) (u : String) (uid : Option Nat)
    (email : Option String) (m : Nat) (shw : Option Nat) (str : String) (p : Int) :
    (insertBooking s u uid email m shw str p).nextBookingId = s.nextBookingId + 1 := rfl

theorem setSeatStatus_nextBookingId [Collation] (s : Store) (m : Nat) (shw : Option Nat)
    (st : SeatStatus) (l : List String) :
    (setSeatStatus s m shw st l).nextBookingId = s.nextBookingId := by
  unfold setSeatStatus
  cases orNullNat shw <;> rfl

theorem upsertUser_nextBookingId [Collation] (s : Store) (u : String) (now : Nat) :
    (upsertUser s u now).nextBookingId = s.nextBookingId := by
  unfold upsertUser; split_ifs <;> rfl

/-- The outcomes of the transaction body: a failure with the tables restored, a conflict with
the booked seats found, or a commit. -/
theorem bookingTransaction_cases [Collation] (now : Nat) (f : Faults) (s : Store) (req : BookingRequest)
    (u : String) (m : Nat) (str : String) (p : Int) :
    let r := bookingTransaction now f s req u m str p (seatList str)
    (r.1 = Response.failure "Failed to create booking" ∧ sameTables s r.2 ∧
      ((∃ st, f st = true) ∨ (selectBooked s m req.show_id (seatList str) = [] ∧
        bookingForeignKeysOk s m (orNullNat req.show_id) = false))) ∨
    (r = (Response.conflict (selectBooked s m req.show_id (seatList str)), s) ∧
      f Stmt.availabilityQuery = false ∧ selectBooked s m req.show_id (seatList str) ≠ []) ∨
    (r = (Response.created s.nextBookingId, committedStore now s req u m str p) ∧
      f Stmt.availabilityQuery = false ∧
      selectBooked s m req.show_id (seatList str) = [] ∧
      bookingForeignKeysOk s m (orNullNat req.show_id) = true) := by
  intro r
  by_cases h1 : f Stmt.availabilityQuery = true
  · left
    exact ⟨by simp [r, bookingTransaction, h1], by simp [r, bookingTransaction, h1, sameTables_rollback],
      Or.inl ⟨_, h1⟩⟩
  by_cases h2 : selectBooked s m req.show_id (seatList str) = []
  · by_cases h3 : (f Stmt.ledgerInsert || !bookingForeignKeysOk s m (orNullNat req.show_id)) = true
    · left
      refine ⟨?_, ?_, ?_⟩
      · simp only [r, bookingTransaction, h1, h2, h3]
        simp
      · simp only [r, bookingTransaction, h1, h2, h3]
        simp [rollback_self, sameTables_refl]
      · simp only [Bool.or_eq_true, Bool.not_eq_true'] at h3
        rcases h3 with h3 | h3
        · exact Or.inl ⟨_, h3⟩
        · exact Or.inr ⟨h2, h3⟩
    by_cases h4 : f Stmt.seatUpdate = true
    · left
      refine ⟨?_, ?_, Or.inl ⟨_, h4⟩⟩
      · simp only [r, bookingTransaction, h1, h2, h3, h4]
        simp
      · simp only [r, bookingTransaction, h1, h2, h3, h4]
        simp only [List.length_nil, gt_iff_lt, lt_self_iff_false, if_false]
        apply sameTables_rollback
        simp [insertBooking_nextBookingId, setSeatStatus_nextBookingId,
          upsertUser_nextBookingId]
    by_cases h5 : f Stmt.userUpsert = true
    · left
      refine ⟨?_, ?_, Or.inl ⟨_, h5⟩⟩
      · simp only [r, bookingTransaction, h1, h2, h3, h4, h5]
        simp
      · simp only [r, bookingTransaction, h1, h2, h3, h4, h5]
        simp only [List.length_nil, gt_iff_lt, lt_self_iff_false, if_false]
        apply sameTables_rollback
        simp [insertBooking_nextBookingId, setSeatStatus_nextBookingId,
          upsertUser_nextBookingId]
    by_cases h6 : f Stmt.commit = true
    · left
      refine ⟨?_, ?_, Or.inl ⟨_, h6⟩⟩
      · simp only [r, bookingTransaction, h1, h2, h3, h4, h5, h6]
        simp
      · simp only [r, bookingTransaction, h1, h2, h3, h4, h5, h6]
        simp only [List.length_nil, gt_iff_lt, lt_self_iff_false, if_false]
        apply sameTables_rollback
        simp [insertBooking_nextBookingId, setSeatStatus_nextBookingId,
          upsertUser_nextBookingId]
    · right; right
      simp only [r, bookingTransaction, h1, h2, h3, h4, h5, h6]
      simp at h3
      simp [committedStore, h1, h3.2]
  · right; left
    have : 0 < (selectBooked s m req.show_id (seatList str)).length :=
      List.length_pos.2 h2
    simp [r, bookingTransaction, h1, h2, this, rollback_self]

theorem collMem_of_mem [Collation] {n : String} {l : List String} (h : n ∈ l) : collMem n l :=
  List.mem_map_of_mem _ h

theorem collMem_nil [Collation] (n : String) : ¬ collMem n [] := by
  simp [collMem]

theorem collMem_cons [Collation] {n x : String} {l : List String} :
    collMem n (x :: l) ↔ collEq n x ∨ collMem n l := by
  simp [collMem, collEq]

theorem collMem_append [Collation] {n : String} {a b : List String} :
    collMem n (a ++ b) ↔ collMem n a ∨ collMem n b := by
  simp [collMem]

theorem collMem_iff [Collation] {n : String} {l : List String} :
    collMem n l ↔ ∃ x ∈ l, collEq n x := by
  unfold collMem collEq
  rw [List.mem_map]
  constructor
  · rintro ⟨x, hx, h⟩
    exact ⟨x, hx, h.symm⟩
  · rintro ⟨x, hx, h⟩
    exact ⟨x, hx, h.symm⟩

theorem mem_inventory_movie {s : Store} {m : Nat} {n : String} {st : SeatStatus} :
    (n, st) ∈ s.inventory (Owner.movie m) ↔
      ∃ r ∈ s.seats, r.movie_id = m ∧ r.seat_number = n ∧ r.status = st := by
  simp only [Store.inventory, List.mem_map, List.mem_filter, decide_eq_true_eq, Prod.mk.injEq]
  constructor
  · rintro ⟨r, ⟨hr, hm⟩, hn, hst⟩
    exact ⟨r, hr, hm, hn, hst⟩
  · rintro ⟨r, hr, hm, hn, hst⟩
    exact ⟨r, ⟨hr, hm⟩, hn, hst⟩

theorem mem_inventory_show {s : Store} {sh : Nat} {n : String} {st : SeatStatus} :
    (n, st) ∈ s.inventory (Owner.show sh) ↔
      ∃ r ∈ s.show_seats, r.show_id = sh ∧ r.seat_number = n ∧ r.status = st := by
  simp only [Store.inventory, List.mem_map, List.mem_filter, decide_eq_true_eq, Prod.mk.injEq]
  constructor
  · rintro ⟨r, ⟨hr, hm⟩, hn, hst⟩
    exact ⟨r, hr, hm, hn, hst⟩
  · rintro ⟨r, hr, hm, hn, hst⟩
    exact ⟨r, ⟨hr, hm⟩, hn, hst⟩

/-- The availability query returns the requested seat numbers booked for the target owner. -/
theorem mem_selectBooked [Collation] {s : Store} {m : Nat} {shw : Option Nat} {l : List String}
    {n : String} :
    n ∈ selectBooked s m shw l ↔
      collMem n l ∧ (n, SeatStatus.booked) ∈ s.inventory (targetOwner m shw) := by
  unfold selectBooked targetOwner
  cases h : orNullNat shw with
  | none =>
    simp only [mem_inventory_movie, selectBookedSeats, List.mem_map, List.mem_filter,
      decide_eq_true_eq]
    constructor
    · rintro ⟨r, ⟨hr, hm, hl, hst⟩, rfl⟩
      exact ⟨hl, r, hr, hm, rfl, hst⟩
    · rintro ⟨hl, r, hr, hm, rfl, hst⟩
      exact ⟨r, ⟨hr, hm, hl, hst⟩, rfl⟩
  | some sh =>
    simp only [mem_inventory_show, selectBookedShowSeats, List.mem_map, List.mem_filter,
      decide_eq_true_eq]
    constructor
    · rintro ⟨r, ⟨hr, hm, hl, hst⟩, rfl⟩
      exact ⟨hl, r, hr, hm, rfl, hst⟩
    · rintro ⟨hl, r, hr, hm, rfl, hst⟩
      exact ⟨r, ⟨hr, hm, hl, hst⟩, rfl⟩

/-- With unique usernames, the blocked lookup finds a set flag exactly for a blocked user. -/
theorem selectBlocked_head [Collation] {s : Store} {u : String} :
    (selectBlocked s u).head? = some true → s.blocked u := by
  unfold selectBlocked Store.blocked
  intro h
  cases hf : s.users.filter (fun r => decide (collEq r.username u)) with
  | nil => simp [hf] at h
  | cons a t =>
    simp [hf] at h
    have ha : a ∈ s.users.filter (fun r => decide (collEq r.username u)) := by simp [hf]
    rw [List.mem_filter] at ha
    exact ⟨a, ha.1, by simpa using ha.2, h⟩

theorem filter_username_of_unique [Collation] {users : List UserRow} {u : UserRow}
    {name : String} (hn : (users.map (fun r => Collation.key r.username)).Nodup)
    (hu : u ∈ users) (hk : collEq u.username name) :
    users.filter (fun r => decide (collEq r.username name)) = [u] := by
  induction users with
  | nil => simp at hu
  | cons a t ih =>
    simp only [List.map_cons, List.nodup_cons, List.mem_map, not_exists, not_and] at hn
    rcases List.mem_cons.1 hu with rfl | hu'
    · have : t.filter (fun r => decide (collEq r.username name)) = [] := by
        rw [List.filter_eq_nil_iff]
        intro r hr
        simp only [decide_eq_true_eq]
        intro h
        exact hn.1 r hr (Eq.trans h (Eq.symm hk))
      simp [List.filter_cons, this, hk]
    · have hne : ¬ collEq a.username name := fun h => hn.1 u hu' (Eq.trans hk (Eq.symm h))
      simp [List.filter_cons, hne, ih hn.2 hu']

theorem selectBlocked_of_blocked [Collation] {s : Store} {u : String} (hn : s.usersUnique)
    (hb : s.blocked u) : (selectBlocked s u).head? = some true := by
  rcases hb with ⟨r, hr, hk, hbl⟩
  simp [selectBlocked, filter_username_of_unique hn hr hk, hbl]

/-- The outcomes of the handler on a valid request. -/
theorem createBooking_cases [Collation] (now : Nat) (f : Faults) (s : Store) {req : BookingRequest}
    {u : String} {m : Nat} {str : String} {p : Int}
    (hu : req.username = some u) (hm : req.movie_id = some m) (hs : req.seats = some str)
    (hp : req.total_price = some p) (hu' : u ≠ "") (hm' : m ≠ 0) (hs' : str ≠ "")
    (hl : seatList str ≠ []) :
    let r := createBooking now f s req
    ((∃ e, r.1 = Response.failure e) ∧ sameTables s r.2 ∧
      (f Stmt.blockedLookup = true ∨ (selectBlocked s u).head? ≠ some true) ∧
      ((∃ st, f st = true) ∨ (selectBooked s m req.show_id (seatList str) = [] ∧
        bookingForeignKeysOk s m (orNullNat req.show_id) = false))) ∨
    (r = (Response.forbidden, s) ∧ f Stmt.blockedLookup = false ∧
      (selectBlocked s u).head? = some true) ∨
    (r = (Response.conflict (selectBooked s m req.show_id (seatList str)), s) ∧
      f Stmt.blockedLookup = false ∧ (selectBlocked s u).head? ≠ some true ∧
      selectBooked s m req.show_id (seatList str) ≠ []) ∨
    (r = (Response.created s.nextBookingId, committedStore now s req u m str p) ∧
      f Stmt.blockedLookup = false ∧ (selectBlocked s u).head? ≠ some true ∧
      selectBooked s m req.show_id (seatList str) = [] ∧
      bookingForeignKeysOk s m (orNullNat req.show_id) = true) := by
  intro r
  have hr : r = _ := createBooking_of_fields now f s hu hm hs hp hu' hm' hs' hl
  by_cases h1 : f Stmt.blockedLookup = true
  · left
    simp only [h1, if_true] at hr
    exact ⟨⟨_, by rw [hr]⟩, by rw [hr]; exact sameTables_refl s, Or.inl h1, Or.inl ⟨_, h1⟩⟩
  by_cases h2 : (selectBlocked s u).head? = some true
  · right; left
    simp only [h1, h2, if_true] at hr
    simp at hr
    simp [hr, h1, h2]
  by_cases h3 : f Stmt.getConnection = true
  · left
    simp only [h1, h2, h3, if_true] at hr
    simp at hr
    exact ⟨⟨_, by rw [hr]⟩, by rw [hr]; exact sameTables_refl s, Or.inr h2, Or.inl ⟨_, h3⟩⟩
  by_cases h4 : f Stmt.beginTransaction = true
  · left
    simp only [h1, h2, h3, h4, if_true] at hr
    simp at hr
    exact ⟨⟨_, by rw [hr]⟩, by rw [hr]; exact sameTables_refl s, Or.inr h2, Or.inl ⟨_, h4⟩⟩
  simp only [h1, h2, h3, h4] at hr
  simp at hr
  rcases bookingTransaction_cases now f s req u m str p with h | h | h
  · left
    rw [hr]
    exact ⟨⟨_, h.1⟩, h.2.1, Or.inr h2, h.2.2⟩
  · right; right; left
    rw [hr]
    exact ⟨h.1, by simpa using h1, h2, h.2.2⟩
  · right; right; right
    rw [hr]
    exact ⟨h.1, by simpa using h1, h2, h.2.2⟩

theorem orNullNat_idem (x : Option Nat) : orNullNat (orNullNat x) = orNullNat x := by
  unfold orNullNat
  split_ifs <;> simp_all [truthyNat]

theorem targetOwner_orNull (m : Nat) (x : Option Nat) :
    targetOwner m (orNullNat x) = targetOwner m x := by
  unfold targetOwner
  rw [orNullNat_idem]

theorem updateSeats_nil [Collation] (rows : List SeatRow) (st : SeatStatus) (m : Nat) :
    updateSeats rows st m [] = rows := by
  simp [updateSeats, collMem]

theorem updateShowSeats_nil [Collation] (rows : List ShowSeatRow) (st : SeatStatus) (sh : Nat) :
    updateShowSeats rows st sh [] = rows := by
  simp [updateShowSeats, collMem]

theorem setSeatStatus_nil [Collation] (s : Store) (m : Nat) (shw : Option Nat) (st : SeatStatus) :
    setSeatStatus s m shw st [] = s := by
  unfold setSeatStatus
  cases orNullNat shw <;> simp [updateSeats_nil, updateShowSeats_nil]

@[simp]
theorem setSeatStatus_bookings [Collation] (s : Store) (m : Nat) (shw : Option Nat)
    (st : SeatStatus) (l : List String) : (setSeatStatus s m shw st l).bookings = s.bookings := by
  unfold setSeatStatus
  cases orNullNat shw <;> rfl

@[simp]
theorem setSeatStatus_users [Collation] (s : Store) (m : Nat) (shw : Option Nat)
    (st : SeatStatus) (l : List String) : (setSeatStatus s m shw st l).users = s.users := by
  unfold setSeatStatus
  cases orNullNat shw <;> rfl

theorem setSeatStatus_seats [Collation] (s : Store) (m : Nat) (shw : Option Nat)
    (st : SeatStatus) (l : List String) :
    (setSeatStatus s m shw st l).seats =
      s.seats.map (fun r =>
        if Owner.movie r.movie_id = targetOwner m shw ∧ collMem r.seat_number l then
          { r with status := st } else r) := by
  unfold setSeatStatus targetOwner
  cases orNullNat shw with
  | none => simp [updateSeats]
  | some sh => simp

theorem setSeatStatus_show_seats [Collation] (s : Store) (m : Nat) (shw : Option Nat)
    (st : SeatStatus) (l : List String) :
    (setSeatStatus s m shw st l).show_seats =
      s.show_seats.map (fun r =>
        if Owner.show r.show_id = targetOwner m shw ∧ collMem r.seat_number l then
          { r with status := st } else r) := by
  unfold setSeatStatus targetOwner
  cases orNullNat shw with
  | none => simp
  | some sh => simp [updateShowSeats]

@[simp]
theorem upsertUser_seats [Collation] (s : Store) (u : String) (now : Nat) :
    (upsertUser s u now).seats = s.seats := by
  unfold upsertUser; split_ifs <;> rfl

@[simp]
theorem upsertUser_show_seats [Collation] (s : Store) (u : String) (now : Nat) :
    (upsertUser s u now).show_seats = s.show_seats := by
  unfold upsertUser; split_ifs <;> rfl

@[simp]
theorem upsertUser_bookings [Collation] (s : Store) (u : String) (now : Nat) :
    (upsertUser s u now).bookings = s.bookings := by
  unfold upsertUser; split_ifs <;> rfl

theorem committedStore_bookings [Collation] (now : Nat) (s : Store) (req : BookingRequest) (u : String)
    (m : Nat) (str : String) (p : Int) :
    (committedStore now s req u m str p).bookings = s.bookings ++ [newRow s req u m str p] := by
  simp [committedStore, insertBooking, newRow]

theorem committedStore_nextBookingId [Collation] (now : Nat) (s : Store) (req : BookingRequest)
    (u : String) (m : Nat) (str : String) (p : Int) :
    (committedStore now s req u m str p).nextBookingId = s.nextBookingId + 1 := by
  simp [committedStore, insertBooking, upsertUser_nextBookingId, setSeatStatus_nextBookingId]

theorem committedStore_seats [Collation] (now : Nat) (s : Store) (req : BookingRequest) (u : String)
    (m : Nat) (str : String) (p : Int) :
    (committedStore now s req u m str p).seats =
      s.seats.map (fun r =>
        if Owner.movie r.movie_id = targetOwner m req.show_id ∧ collMem r.seat_number (seatList str) then
          { r with status := SeatStatus.booked } else r) := by
  simp [committedStore, setSeatStatus_seats, insertBooking]

theorem committedStore_show_seats [Collation] (now : Nat) (s : Store) (req : BookingRequest) (u : String)
    (m : Nat) (str : String) (p : Int) :
    (committedStore now s req u m str p).show_seats =
      s.show_seats.map (fun r =>
        if Owner.show r.show_id = targetOwner m req.show_id ∧ collMem r.seat_number (seatList str) then
          { r with status := SeatStatus.booked } else r) := by
  simp [committedStore, setSeatStatus_show_seats, insertBooking]

/-- What a booking id in the answer tells: the request is valid, no requested seat of the
target owner was booked, and the store is the committed one. -/
theorem createBooking_created [Collation] {now : Nat} {f : Faults} {s s' : Store} {req : BookingRequest}
    {id : Nat} (h : createBooking now f s req = (Response.created id, s')) :
    ∃ u m str p, req.username = some u ∧ req.movie_id = some m ∧ req.seats = some str ∧
      req.total_price = some p ∧ seatList str ≠ [] ∧
      selectBooked s m req.show_id (seatList str) = [] ∧
      id = s.nextBookingId ∧ s' = committedStore now s req u m str p := by
  by_cases hv : req.valid
  · obtain ⟨u, m, str, p, hu, hm, hs, hp, hu', hm', hs', hl⟩ := valid_fields hv
    refine ⟨u, m, str, p, hu, hm, hs, hp, hl, ?_⟩
    rcases createBooking_cases now f s hu hm hs hp hu' hm' hs' hl with h' | h' | h' | h'
    · obtain ⟨⟨e, he⟩, -⟩ := h'
      rw [h] at he; simp at he
    · rw [h] at h'; simp at h'
    · rw [h] at h'; simp at h'
    · rw [h] at h'
      simp only [Prod.mk.injEq, Response.created.injEq] at h'
      exact ⟨h'.2.2.2.1, h'.1.1, h'.1.2⟩
  · obtain ⟨e, he⟩ := createBooking_of_not_valid hv
    rw [he now f s] at h; simp at h

theorem selectBooked_eq_nil [Collation] {s : Store} {m : Nat} {shw : Option Nat} {l : List String}
    (h : selectBooked s m shw l = []) {n : String} {st : SeatStatus} (hn : collMem n l)
    (hi : (n, st) ∈ s.inventory (targetOwner m shw)) : st = SeatStatus.available := by
  cases st with
  | available => rfl
  | booked =>
    have : n ∈ selectBooked s m shw l := mem_selectBooked.2 ⟨hn, hi⟩
    rw [h] at this
    simp at this

/-- The outcomes of `deleteBooking` on a numeric id: NotFound with the store as it was, a
failure with the tables restored, or a commit. -/
theorem deleteBooking_cases [Collation] (f : Faults) (s : Store) (bid : Int) :
    let r := deleteBooking f s (some bid)
    (r = (Response.notFound, s) ∧
      (s.bookings.filter (fun b => (b.id : Int) = bid)).head? = none) ∨
    ((∃ e, r.1 = Response.failure e) ∧ sameTables s r.2 ∧ ∃ st, f st = true) ∨
    (∃ b, (s.bookings.filter (fun b => (b.id : Int) = bid)).head? = some b ∧
      r = (Response.success, releasedStore s b bid)) := by
  intro r
  by_cases h1 : f Stmt.getConnection = true
  · right; left
    exact ⟨⟨"Database error", by simp [r, deleteBooking, h1]⟩, by simp [r, deleteBooking, h1, sameTables_refl],
      _, h1⟩
  by_cases h2 : f Stmt.beginTransaction = true
  · right; left
    exact ⟨⟨"Transaction start failed", by simp [r, deleteBooking, h1, h2]⟩,
      by simp [r, deleteBooking, h1, h2, sameTables_refl], _, h2⟩
  by_cases h3 : f Stmt.bookingSelect = true
  · right; left
    exact ⟨⟨"Failed to delete booking", by simp [r, deleteBooking, h1, h2, h3]⟩,
      by simp [r, deleteBooking, h1, h2, h3, rollback_self, sameTables_refl], _, h3⟩
  cases hb : (s.bookings.filter (fun b => (b.id : Int) = bid)).head? with
  | none =>
    left
    refine ⟨?_, rfl⟩
    simp only [r, deleteBooking, h1, h2, h3, hb]
    simp [rollback_self]
  | some b =>
    right
    by_cases h4 : (seatList b.seats).length ≠ 0 ∧ f Stmt.seatRelease = true
    · left
      refine ⟨⟨"Failed to delete booking", ?_⟩, ?_, _, h4.2⟩
      · simp only [r, deleteBooking, h1, h2, h3, hb]
        simp [h4.1, h4.2]
      · simp only [r, deleteBooking, h1, h2, h3, hb]
        simp [h4.1, h4.2, rollback_self, sameTables_refl]
    by_cases h5 : f Stmt.ledgerDelete = true
    · left
      refine ⟨⟨"Failed to delete booking", ?_⟩, ?_, _, h5⟩
      · simp only [r, deleteBooking, h1, h2, h3, hb, h4, h5]
        simp
      · simp only [r, deleteBooking, h1, h2, h3, hb, h4, h5]
        apply sameTables_rollback
        split_ifs <;> simp [setSeatStatus_nextBookingId]
    by_cases h6 : f Stmt.commit = true
    · left
      refine ⟨⟨"Failed to delete booking", ?_⟩, ?_, _, h6⟩
      · simp only [r, deleteBooking, h1, h2, h3, hb, h4, h5, h6]
        simp
      · simp only [r, deleteBooking, h1, h2, h3, hb, h4, h5, h6]
        apply sameTables_rollback
        split_ifs <;> simp [setSeatStatus_nextBookingId]
    · right
      refine ⟨b, rfl, ?_⟩
      simp only [r, deleteBooking, h1, h2, h3, hb, h4, h5, h6]
      by_cases hl : seatList b.seats = []
      · simp [releasedStore, hl, setSeatStatus_nil]
      · simp [releasedStore, hl]

theorem filter_id_append_fresh {rows : List BookingRow} {row : BookingRow}
    (h : ∀ b ∈ rows, b.id ≠ row.id) :
    (rows ++ [row]).filter (fun b => ((b.id : Int) = (row.id : Int))) = [row] ∧
    (rows ++ [row]).filter (fun b => ¬ ((b.id : Int) = (row.id : Int))) = rows := by
  constructor
  · rw [List.filter_append]
    have : rows.filter (fun b => ((b.id : Int) = (row.id : Int))) = [] := by
      rw [List.filter_eq_nil_iff]
      intro b hb
      simpa using h b hb
    simpa [this] using h
  · rw [List.filter_append]
    have : rows.filter (fun b => ¬ ((b.id : Int) = (row.id : Int))) = rows := by
      rw [List.filter_eq_self]
      intro b hb
      simpa using h b hb
    simpa [this] using h

theorem release_after_book_seats [Collation] (rows : List SeatRow) (o : Owner) (l : List String)
    (h : ∀ r ∈ rows, Owner.movie r.movie_id = o → collMem r.seat_number l →
      r.status = SeatStatus.available) :
    (rows.map (fun r =>
        if Owner.movie r.movie_id = o ∧ collMem r.seat_number l then
          { r with status := SeatStatus.booked } else r)).map (fun r =>
        if Owner.movie r.movie_id = o ∧ collMem r.seat_number l then
          { r with status := SeatStatus.available } else r) = rows := by
  rw [List.map_map]
  conv_rhs => rw [← List.map_id rows]
  apply List.map_congr_left
  intro r hr
  by_cases hc : Owner.movie r.movie_id = o ∧ collMem r.seat_number l
  · have := h r hr hc.1 hc.2
    simp only [Function.comp, hc, and_self, if_true, id]
    rw [← this]
  · simp [Function.comp, hc]

theorem release_after_book_show_seats [Collation] (rows : List ShowSeatRow) (o : Owner) (l : List String)
    (h : ∀ r ∈ rows, Owner.show r.show_id = o → collMem r.seat_number l →
      r.status = SeatStatus.available) :
    (rows.map (fun r =>
        if Owner.show r.show_id = o ∧ collMem r.seat_number l then
          { r with status := SeatStatus.booked } else r)).map (fun r =>
        if Owner.show r.show_id = o ∧ collMem r.seat_number l then
          { r with status := SeatStatus.available } else r) = rows := by
  rw [List.map_map]
  conv_rhs => rw [← List.map_id rows]
  apply List.map_congr_left
  intro r hr
  by_cases hc : Owner.show r.show_id = o ∧ collMem r.seat_number l
  · have := h r hr hc.1 hc.2
    simp only [Function.comp, hc, and_self, if_true, id]
    rw [← this]
  · simp [Function.comp, hc]

theorem inventory_congr {s t : Store} (h1 : t.seats = s.seats)
    (h2 : t.show_seats = s.show_seats) (o : Owner) : t.inventory o = s.inventory o := by
  cases o <;> simp [Store.inventory, h1, h2]

theorem mem_inventory_setSeatStatus [Collation] {s : Store} {m : Nat} {shw : Option Nat}
    {st' : SeatStatus} {l : List String} {o : Owner} {n : String} {st : SeatStatus} :
    (n, st) ∈ (setSeatStatus s m shw st' l).inventory o ↔
      ∃ st0, (n, st0) ∈ s.inventory o ∧
        st = if o = targetOwner m shw ∧ collMem n l then st' else st0 := by
  rcases o with m' | sh
  · simp only [mem_inventory_movie, setSeatStatus_seats, List.mem_map]
    constructor
    · rintro ⟨r', ⟨r, hr, rfl⟩, hm, hn, hst⟩
      by_cases hc : Owner.movie r.movie_id = targetOwner m shw ∧ collMem r.seat_number l
      · simp only [hc, and_self, if_true] at hm hn hst
        refine ⟨r.status, ⟨r, hr, hm, hn, rfl⟩, ?_⟩
        rw [← hm, ← hn, if_pos hc, hst]
      · simp only [hc, if_false] at hm hn hst
        refine ⟨r.status, ⟨r, hr, hm, hn, rfl⟩, ?_⟩
        rw [← hm, ← hn, if_neg hc, hst]
    · rintro ⟨st0, ⟨r, hr, hm, hn, hst0⟩, hst⟩
      refine ⟨_, ⟨r, hr, rfl⟩, ?_⟩
      by_cases hc : Owner.movie r.movie_id = targetOwner m shw ∧ collMem r.seat_number l
      · rw [← hm, ← hn, if_pos hc] at hst
        rw [if_pos hc]
        exact ⟨hm, hn, hst.symm⟩
      · rw [← hm, ← hn, if_neg hc] at hst
        rw [if_neg hc]
        exact ⟨hm, hn, by rw [hst, hst0]⟩
  · simp only [mem_inventory_show, setSeatStatus_show_seats, List.mem_map]
    constructor
    · rintro ⟨r', ⟨r, hr, rfl⟩, hm, hn, hst⟩
      by_cases hc : Owner.show r.show_id = targetOwner m shw ∧ collMem r.seat_number l
      · simp only [hc, and_self, if_true] at hm hn hst
        refine ⟨r.status, ⟨r, hr, hm, hn, rfl⟩, ?_⟩
        rw [← hm, ← hn, if_pos hc, hst]
      · simp only [hc, if_false] at hm hn hst
        refine ⟨r.status, ⟨r, hr, hm, hn, rfl⟩, ?_⟩
        rw [← hm, ← hn, if_neg hc, hst]
    · rintro ⟨st0, ⟨r, hr, hm, hn, hst0⟩, hst⟩
      refine ⟨_, ⟨r, hr, rfl⟩, ?_⟩
      by_cases hc : Owner.show r.show_id = targetOwner m shw ∧ collMem r.seat_number l
      · rw [← hm, ← hn, if_pos hc] at hst
        rw [if_pos hc]
        exact ⟨hm, hn, hst.symm⟩
      · rw [← hm, ← hn, if_neg hc] at hst
        rw [if_neg hc]
        exact ⟨hm, hn, by rw [hst, hst0]⟩

theorem mem_inventory_committedStore [Collation] {now : Nat} {s : Store} {req : BookingRequest}
    {u : String} {m : Nat} {str : String} {p : Int} {o : Owner} {n : String}
    {st : SeatStatus} :
    (n, st) ∈ (committedStore now s req u m str p).inventory o ↔
      ∃ st0, (n, st0) ∈ s.inventory o ∧
        st = if o = targetOwner m req.show_id ∧ collMem n (seatList str) then SeatStatus.booked
          else st0 := by
  have h : (committedStore now s req u m str p).inventory o =
      (setSeatStatus s m req.show_id SeatStatus.booked (seatList str)).inventory o := by
    apply inventory_congr
    · simp [committedStore, setSeatStatus_seats, insertBooking]
    · simp [committedStore, setSeatStatus_show_seats, insertBooking]
  rw [h, mem_inventory_setSeatStatus]

theorem mem_inventory_releasedStore [Collation] {s : Store} {b : BookingRow} {bid : Int} {o : Owner}
    {n : String} {st : SeatStatus} :
    (n, st) ∈ (releasedStore s b bid).inventory o ↔
      ∃ st0, (n, st0) ∈ s.inventory o ∧
        st = if o = b.owner ∧ collMem n (seatList b.seats) then SeatStatus.available else st0 := by
  have h : (releasedStore s b bid).inventory o =
      (setSeatStatus s b.movie_id b.show_id SeatStatus.available (seatList b.seats)).inventory
        o := by
    apply inventory_congr <;> rfl
  rw [h, mem_inventory_setSeatStatus]
  rfl

theorem bookingInvariant_of_sameTables [Collation] {s t : Store} (h : sameTables s t)
    (hi : s.bookingInvariant) : t.bookingInvariant := by
  obtain ⟨-, h0, h1, h2, h3, -, h4, -, h5⟩ := h
  obtain ⟨i1, i2, i3, i4, i5⟩ := hi
  refine ⟨?_, ?_, ?_, ?_, ?_⟩
  · intro o n st hn
    rw [inventory_congr h1 h2] at hn
    rw [h3]
    exact i1 o n st hn
  · refine ⟨by rw [h3]; exact i2.1, ?_⟩
    intro b hb
    rw [h3] at hb
    exact lt_of_lt_of_le (i2.2 b hb) h4
  · intro b1 hb1 b2 hb2 ho n hn1 hn2 hex
    rw [h3] at hb1 hb2
    rw [inventory_congr h1 h2] at hex
    exact i3 b1 hb1 b2 hb2 ho n hn1 hn2 hex
  · intro sh hsh
    rw [h0] at hsh
    rw [h5]
    exact i4 sh hsh
  · intro b hb sh ho
    rw [h3] at hb
    rw [h0]
    exact i5 b hb sh ho

/-- The statement `INSERT IGNORE INTO seats` only appends available seats of the movie. -/
theorem insertIgnoreSeats_spec [Collation] (movieId : Nat) (l : List String) (s : Store) :
    ∃ added : List SeatRow,
      (insertIgnoreSeats s movieId l).seats = s.seats ++ added ∧
      (∀ r ∈ added, r.movie_id = movieId ∧ r.status = SeatStatus.available) ∧
      (insertIgnoreSeats s movieId l).show_seats = s.show_seats ∧
      (insertIgnoreSeats s movieId l).bookings = s.bookings ∧
      (insertIgnoreSeats s movieId l).nextBookingId = s.nextBookingId ∧
      (insertIgnoreSeats s movieId l).shows = s.shows ∧
      (insertIgnoreSeats s movieId l).nextShowId = s.nextShowId := by
  induction l generalizing s with
  | nil => exact ⟨[], by simp [insertIgnoreSeats]⟩
  | cons n ns ih =>
    unfold insertIgnoreSeats
    split_ifs with hc
    · obtain ⟨added, h1, h2, h3, h4, h5, h6, h7⟩ := ih
        { s with
          seats := s.seats ++ [{ seat_id := s.nextSeatId, movie_id := movieId, seat_number := n }]
          nextSeatId := s.nextSeatId + 1 }
      refine ⟨{ seat_id := s.nextSeatId, movie_id := movieId, seat_number := n } :: added,
        ?_, ?_, h3, h4, h5, h6, h7⟩
      · rw [h1]; simp
      · intro r hr
        rcases List.mem_cons.1 hr with rfl | hr
        · exact ⟨rfl, rfl⟩
        · exact h2 r hr
    · exact ih s

/-- Seat generation only appends available seats of the movie, or changes nothing. -/
theorem generateSeats_spec [Collation] (f : Faults) (s : Store) (movieId : Nat)
    (rows : Option (List RowSpec)) :
    ∃ added : List SeatRow,
      (generateSeats f s movieId rows).2.seats = s.seats ++ added ∧
      (∀ r ∈ added, r.movie_id = movieId ∧ r.status = SeatStatus.available) ∧
      (generateSeats f s movieId rows).2.show_seats = s.show_seats ∧
      (generateSeats f s movieId rows).2.bookings = s.bookings ∧
      (generateSeats f s movieId rows).2.nextBookingId = s.nextBookingId ∧
      (generateSeats f s movieId rows).2.shows = s.shows ∧
      (generateSeats f s movieId rows).2.nextShowId = s.nextShowId := by
  unfold generateSeats generateDefaultSeats
  by_cases h1 : (seatsToInsert rows).length = 0
  · exact ⟨[], by simp [h1]⟩
  by_cases h2 : f Stmt.seatInsert = true
  · exact ⟨[], by simp [h1, h2]⟩
  · simp only [h1, h2, if_false]
    exact insertIgnoreSeats_spec movieId _ s

/-- Adding available seats to an owner without ledger rows keeps the invariant. -/
theorem bookingInvariant_of_added_seats [Collation] {s t : Store} {o0 : Owner} (hi : s.bookingInvariant)
    (hno : ∀ b ∈ s.bookings, b.owner ≠ o0)
    (hinv : ∀ o n st, (n, st) ∈ t.inventory o →
      (n, st) ∈ s.inventory o ∨ (o = o0 ∧ st = SeatStatus.available))
    (h4 : t.bookings = s.bookings) (h5 : t.nextBookingId = s.nextBookingId)
    (h6 : ∀ sh ∈ s.shows, sh ∈ t.shows) (h7 : t.showIdsFresh) : t.bookingInvariant := by
  obtain ⟨i1, i2, i3, i4, i5⟩ := hi
  refine ⟨?_, ?_, ?_, h7, ?_⟩
  · intro o n st hn
    rw [h4]
    rcases hinv o n st hn with h | ⟨ho, hst⟩
    · exact i1 o n st h
    · rw [hst]
      constructor
      · intro h; cases h
      · rintro ⟨b, hb, hbo, -⟩
        exact absurd (hbo.trans ho) (hno b hb)
  · refine ⟨by rw [h4]; exact i2.1, ?_⟩
    intro b hb
    rw [h4] at hb
    rw [h5]
    exact i2.2 b hb
  · intro b1 hb1 b2 hb2 ho n hn1 hn2 hex
    rw [h4] at hb1 hb2
    obtain ⟨st, hst⟩ := hex
    rcases hinv _ n st hst with h | ⟨ho', -⟩
    · exact i3 b1 hb1 b2 hb2 ho n hn1 hn2 ⟨st, h⟩
    · exact absurd ho' (hno b1 hb1)
  · intro b hb sh ho
    rw [h4] at hb
    obtain ⟨r, hr, hid⟩ := List.mem_map.1 (i5 b hb sh ho)
    exact List.mem_map.2 ⟨r, h6 r hr, hid⟩

/-- Seat generation for a movie without ledger rows keeps the invariant. -/
theorem bookingInvariant_generateSeats [Collation] (f : Faults) (s : Store) (movieId : Nat)
    (rows : Option (List RowSpec)) (hi : s.bookingInvariant)
    (hno : ∀ b ∈ s.bookings, b.owner ≠ Owner.movie movieId) :
    (generateSeats f s movieId rows).2.bookingInvariant := by
  obtain ⟨added, h1, h2, h3, h4, h5, h6, h7⟩ := generateSeats_spec f s movieId rows
  refine bookingInvariant_of_added_seats hi hno ?_ h4 h5 (by rw [h6]; exact fun _ h => h) ?_
  · intro o n st hn
    rcases o with m | sh
    · obtain ⟨r, hr, hm, hnr, hst⟩ := mem_inventory_movie.1 hn
      rw [h1, List.mem_append] at hr
      rcases hr with hr | hr
      · exact Or.inl (mem_inventory_movie.2 ⟨r, hr, hm, hnr, hst⟩)
      · right
        obtain ⟨hrm, hrs⟩ := h2 r hr
        exact ⟨by rw [← hm, hrm], by rw [← hst, hrs]⟩
    · left
      obtain ⟨r, hr, hm, hnr, hst⟩ := mem_inventory_show.1 hn
      rw [h3] at hr
      exact mem_inventory_show.2 ⟨r, hr, hm, hnr, hst⟩
  · intro sh hsh
    rw [h6] at hsh
    rw [h7]
    exact hi.2.2.2.1 sh hsh

/-- The statement `INSERT IGNORE INTO show_seats` only appends available seats of the show. -/
theorem insertIgnoreShowSeats_spec [Collation] (showId : Nat) (l : List String) (s : Store) :
    ∃ added : List ShowSeatRow,
      (insertIgnoreShowSeats s showId l).show_seats = s.show_seats ++ added ∧
      (∀ r ∈ added, r.show_id = showId ∧ r.status = SeatStatus.available) ∧
      (insertIgnoreShowSeats s showId l).seats = s.seats ∧
      (insertIgnoreShowSeats s showId l).bookings = s.bookings ∧
      (insertIgnoreShowSeats s showId l).nextBookingId = s.nextBookingId ∧
      (insertIgnoreShowSeats s showId l).shows = s.shows ∧
      (insertIgnoreShowSeats s showId l).nextShowId = s.nextShowId := by
  induction l generalizing s with
  | nil => exact ⟨[], by simp [insertIgnoreShowSeats]⟩
  | cons n ns ih =>
    unfold insertIgnoreShowSeats
    split_ifs with hc
    · obtain ⟨added, h1, h2, h3, h4, h5, h6, h7⟩ := ih
        { s with
          show_seats := s.show_seats ++
            [{ id := s.nextShowSeatId, show_id := showId, seat_number := n }]
          nextShowSeatId := s.nextShowSeatId + 1 }
      refine ⟨{ id := s.nextShowSeatId, show_id := showId, seat_number := n } :: added,
        ?_, ?_, h3, h4, h5, h6, h7⟩
      · rw [h1]; simp
      · intro r hr
        rcases List.mem_cons.1 hr with rfl | hr
        · exact ⟨rfl, rfl⟩
        · exact h2 r hr
    · exact ih s

/-- The helper `generateSeatsForShow`, when it resolves, only appends available seats of the
show. -/
theorem generateSeatsForShow_spec [Collation] {f : Faults} {s t : Store} {showId : Nat}
    (h : generateSeatsForShow f s showId = some t) :
    ∃ added : List ShowSeatRow,
      t.show_seats = s.show_seats ++ added ∧
      (∀ r ∈ added, r.show_id = showId ∧ r.status = SeatStatus.available) ∧
      t.seats = s.seats ∧ t.bookings = s.bookings ∧ t.nextBookingId = s.nextBookingId ∧
      t.shows = s.shows ∧ t.nextShowId = s.nextShowId := by
  unfold generateSeatsForShow at h
  by_cases h1 : f Stmt.showSelect = true
  · simp [h1] at h
  cases hsh : (s.shows.filter (fun sh => sh.id = showId)).head? with
  | none => simp [hsh] at h
  | some showRow =>
    by_cases h2 : f Stmt.screenSelect = true
    · simp [h2, hsh] at h
    cases hsc : (s.screens.filter (fun sc => sc.id = showRow.screen_id)).head? with
    | none => simp [hsh, hsc] at h
    | some screen =>
      by_cases h4 : f Stmt.showSeatInsert = true
      · by_cases h3 : showSeatLabels screen.row_count screen.col_count = []
        · simp [h1, h2, hsh, hsc, h3] at h
          rw [← h]
          exact ⟨[], by simp⟩
        · simp [h1, h2, hsh, hsc, h3, h4] at h
      · by_cases h3 : showSeatLabels screen.row_count screen.col_count = []
        · simp [h1, h2, hsh, hsc, h3] at h
          rw [← h]
          exact ⟨[], by simp⟩
        · simp [h1, h2, hsh, hsc, h3, h4] at h
          rw [← h]
          exact insertIgnoreShowSeats_spec showId _ s

/-- What `createShow` does to the store: nothing, or one show row with the counter as id and
available seats of that show. -/
theorem createShow_spec [Collation] (f : Faults) (s : Store) (movieId : Option Nat) (req : ShowRequest) :
    (createShow f s movieId req).2 = s ∨
    ∃ (row : ShowRow) (added : List ShowSeatRow),
      row.id = s.nextShowId ∧
      (createShow f s movieId req).2.shows = s.shows ++ [row] ∧
      (createShow f s movieId req).2.nextShowId = s.nextShowId + 1 ∧
      (createShow f s movieId req).2.show_seats = s.show_seats ++ added ∧
      (∀ r ∈ added, r.show_id = s.nextShowId ∧ r.status = SeatStatus.available) ∧
      (createShow f s movieId req).2.seats = s.seats ∧
      (createShow f s movieId req).2.bookings = s.bookings ∧
      (createShow f s movieId req).2.nextBookingId = s.nextBookingId := by
  rcases req with ⟨screen, date, time, format⟩
  rcases screen with _ | screen_id
  · exact Or.inl (by simp [createShow, truthyNat])
  rcases date with _ | show_date
  · exact Or.inl (by simp [createShow, truthyStr])
  rcases time with _ | show_time
  · exact Or.inl (by simp [createShow, truthyStr])
  by_cases h0 : (!truthyNat (some screen_id) || !truthyStr (some show_date) ||
      !truthyStr (some show_time)) = true
  · exact Or.inl (by simp only [createShow, h0, if_true])
  by_cases h1 : f Stmt.getConnection = true
  · exact Or.inl (by simp only [createShow, h0, h1, if_true]; simp)
  by_cases h2 : f Stmt.showInsert = true
  · exact Or.inl (by simp only [createShow, h0, h1, h2, if_true]; simp)
  rcases movieId with _ | movie_id
  · exact Or.inl (by simp only [createShow, h0, h1, h2]; simp)
  by_cases h3 : showExists s movie_id screen_id show_date show_time = true
  · exact Or.inl (by simp only [createShow, h0, h1, h2, h3, if_true]; simp)
  by_cases h4 : (!showForeignKeysOk s movie_id screen_id) = true
  · exact Or.inl (by simp only [createShow, h0, h1, h2, h3, h4, if_true]; simp)
  right
  simp only [createShow, h0, h1, h2, h3, h4]
  simp only [Bool.false_eq_true, if_false]
  split
  · rename_i s2 hs2
    obtain ⟨added, g1, g2, g3, g4, g5, g6, g7⟩ := generateSeatsForShow_spec hs2
    exact ⟨_, added, rfl, g6, g7, g1, g2, g3, g4, g5⟩
  · exact ⟨_, [], rfl, rfl, rfl, by simp, by simp, rfl, rfl, rfl⟩

/-- Every call of `createShow` keeps the invariant. -/
theorem bookingInvariant_createShow [Collation] (f : Faults) (s : Store) (movieId : Option Nat)
    (req : ShowRequest) (hi : s.bookingInvariant) :
    (createShow f s movieId req).2.bookingInvariant := by
  rcases createShow_spec f s movieId req with h | ⟨row, added, h1, h2, h3, h4, h5, h6, h7, h8⟩
  · rw [h]; exact hi
  · have hno : ∀ b ∈ s.bookings, b.owner ≠ Owner.show s.nextShowId := by
      intro b hb ho
      obtain ⟨r, hr, hid⟩ := List.mem_map.1 (hi.2.2.2.2 b hb _ ho)
      have := hi.2.2.2.1 r hr
      omega
    refine bookingInvariant_of_added_seats hi hno ?_ h7 h8 ?_ ?_
    · intro o n st hn
      rcases o with m | sh
      · left
        obtain ⟨r, hr, hm, hnr, hst⟩ := mem_inventory_movie.1 hn
        rw [h6] at hr
        exact mem_inventory_movie.2 ⟨r, hr, hm, hnr, hst⟩
      · obtain ⟨r, hr, hm, hnr, hst⟩ := mem_inventory_show.1 hn
        rw [h4, List.mem_append] at hr
        rcases hr with hr | hr
        · exact Or.inl (mem_inventory_show.2 ⟨r, hr, hm, hnr, hst⟩)
        · right
          obtain ⟨hrm, hrs⟩ := h5 r hr
          exact ⟨by rw [← hm, hrm], by rw [← hst, hrs]⟩
    · intro sh hsh
      rw [h2]
      exact List.mem_append_left _ hsh
    · intro sh hsh
      rw [h2, List.mem_append] at hsh
      rw [h3]
      rcases hsh with hsh | hsh
      · exact Nat.lt_succ_of_lt (hi.2.2.2.1 sh hsh)
      · rw [List.mem_singleton] at hsh
        rw [hsh, h1]
        exact Nat.lt_succ_self _

theorem newRow_owner (s : Store) (req : BookingRequest) (u : String) (m : Nat) (str : String)
    (p : Int) : (newRow s req u m str p).owner = targetOwner m req.show_id := by
  simp [BookingRow.owner, newRow, targetOwner_orNull]

/-- A committed booking keeps the invariant. -/
theorem bookingInvariant_committedStore [Collation] {now : Nat} {s : Store} {req : BookingRequest}
    {u : String} {m : Nat} {str : String} {p : Int} (hi : s.bookingInvariant)
    (hnb : selectBooked s m req.show_id (seatList str) = [])
    (hfk : bookingForeignKeysOk s m (orNullNat req.show_id) = true) :
    (committedStore now s req u m str p).bookingInvariant := by
  obtain ⟨i1, i2, i3, i4, i5⟩ := hi
  have hshows : (committedStore now s req u m str p).shows = s.shows := by
    simp only [committedStore, upsertUser, setSeatStatus, insertBooking]
    split_ifs <;> cases orNullNat req.show_id <;> rfl
  have hnext : (committedStore now s req u m str p).nextShowId = s.nextShowId := by
    simp only [committedStore, upsertUser, setSeatStatus, insertBooking]
    split_ifs <;> cases orNullNat req.show_id <;> rfl
  have hrow : ∀ b, b ∈ (committedStore now s req u m str p).bookings ↔
      b ∈ s.bookings ∨ b = newRow s req u m str p := by
    intro b
    rw [committedStore_bookings]
    simp
  have hold : ∀ b ∈ s.bookings, ∀ n, b.owner = targetOwner m req.show_id →
      collMem n (seatList b.seats) → collMem n (seatList str) →
      ¬ ∃ st, (n, st) ∈ s.inventory (targetOwner m req.show_id) := by
    rintro b hb n ho hn hl ⟨st, hst⟩
    have h1 : st = SeatStatus.booked := (i1 _ n st hst).2 ⟨b, hb, ho, hn⟩
    have h2 : st = SeatStatus.available := selectBooked_eq_nil hnb hl hst
    rw [h1] at h2
    cases h2
  refine ⟨?_, ?_, ?_, ?_, ?_⟩
  · intro o n st hn
    obtain ⟨st0, hst0, hst⟩ := mem_inventory_committedStore.1 hn
    by_cases hc : o = targetOwner m req.show_id ∧ collMem n (seatList str)
    · rw [if_pos hc] at hst
      constructor
      · intro _
        exact ⟨newRow s req u m str p, (hrow _).2 (Or.inr rfl),
          by rw [newRow_owner, hc.1], hc.2⟩
      · intro _
        exact hst
    · rw [if_neg hc] at hst
      rw [hst, i1 o n st0 hst0]
      constructor
      · rintro ⟨b, hb, ho, hnb'⟩
        exact ⟨b, (hrow b).2 (Or.inl hb), ho, hnb'⟩
      · rintro ⟨b, hb, ho, hnb'⟩
        rcases (hrow b).1 hb with hb | rfl
        · exact ⟨b, hb, ho, hnb'⟩
        · exact absurd ⟨by rw [← ho, newRow_owner], hnb'⟩ hc
  · constructor
    · rw [committedStore_bookings, List.map_append, List.nodup_append]
      refine ⟨i2.1, by simp, ?_⟩
      intro a ha hb
      simp only [List.map_cons, List.map_nil, List.mem_singleton] at hb
      obtain ⟨b, hb', rfl⟩ := List.mem_map.1 ha
      have := i2.2 b hb'
      simp only [newRow] at hb
      omega
    · intro b hb
      rw [committedStore_nextBookingId]
      rcases (hrow b).1 hb with hb | rfl
      · exact Nat.lt_succ_of_lt (i2.2 b hb)
      · simp [newRow]
  · intro b1 hb1 b2 hb2 ho n hn1 hn2 hex
    have hex' : ∃ st, (n, st) ∈ s.inventory b1.owner := by
      obtain ⟨st, hst⟩ := hex
      obtain ⟨st0, hst0, -⟩ := mem_inventory_committedStore.1 hst
      exact ⟨st0, hst0⟩
    rcases (hrow b1).1 hb1 with hb1 | rfl <;> rcases (hrow b2).1 hb2 with hb2 | rfl
    · exact i3 b1 hb1 b2 hb2 ho n hn1 hn2 hex'
    · rw [newRow_owner] at ho
      rw [ho] at hex'
      exact absurd hex' (hold b1 hb1 n ho hn1 hn2)
    · rw [newRow_owner] at ho hex'
      exact absurd hex' (hold b2 hb2 n ho.symm hn2 hn1)
    · rfl
  · intro sh hsh
    rw [hshows] at hsh
    rw [hnext]
    exact i4 sh hsh
  · intro b hb sh ho
    rw [hshows]
    rcases (hrow b).1 hb with hb | rfl
    · exact i5 b hb sh ho
    · rw [newRow_owner] at ho
      unfold targetOwner at ho
      unfold bookingForeignKeysOk at hfk
      cases hsid : orNullNat req.show_id with
      | none => rw [hsid] at ho; cases ho
      | some sid =>
        rw [hsid] at ho hfk
        injection ho with ho
        rw [← ho]
        simp only [Bool.and_eq_true, decide_eq_true_eq] at hfk
        exact hfk.2

theorem eq_of_id_eq {rows : List BookingRow} (hn : (rows.map (fun b => b.id)).Nodup)
    {a b : BookingRow} (ha : a ∈ rows) (hb : b ∈ rows) (h : a.id = b.id) : a = b :=
  List.inj_on_of_nodup_map hn ha hb h

/-- A committed delete keeps the invariant. -/
theorem bookingInvariant_releasedStore [Collation] {s : Store} {b : BookingRow} {bid : Int}
    (hi : s.bookingInvariant)
    (hb : (s.bookings.filter (fun r => (r.id : Int) = bid)).head? = some b) :
    (releasedStore s b bid).bookingInvariant := by
  obtain ⟨i1, i2, i3, i4, i5⟩ := hi
  have hshows : (releasedStore s b bid).shows = s.shows := by
    simp only [releasedStore, setSeatStatus]
    cases orNullNat b.show_id <;> rfl
  have hnext : (releasedStore s b bid).nextShowId = s.nextShowId := by
    simp only [releasedStore, setSeatStatus]
    cases orNullNat b.show_id <;> rfl
  have hmem : b ∈ s.bookings.filter (fun r => (r.id : Int) = bid) := List.mem_of_mem_head? hb
  rw [List.mem_filter] at hmem
  obtain ⟨hbs, hbid⟩ := hmem
  have hbid : (b.id : Int) = bid := by simpa using hbid
  have hrow : ∀ r, r ∈ (releasedStore s b bid).bookings ↔ r ∈ s.bookings ∧ r.id ≠ b.id := by
    intro r
    simp only [releasedStore, List.mem_filter, decide_eq_true_eq, ← hbid, Nat.cast_inj]
  refine ⟨?_, ?_, ?_, ?_, ?_⟩
  · intro o n st hn
    obtain ⟨st0, hst0, hst⟩ := mem_inventory_releasedStore.1 hn
    by_cases hc : o = b.owner ∧ collMem n (seatList b.seats)
    · rw [if_pos hc] at hst
      rw [hst]
      constructor
      · intro h; cases h
      · rintro ⟨r, hr, ho, hnr⟩
        obtain ⟨hr1, hr2⟩ := (hrow r).1 hr
        exfalso
        apply hr2
        refine i3 r hr1 b hbs (by rw [ho, hc.1]) n hnr hc.2 ⟨st0, ?_⟩
        rw [ho]; exact hst0
    · rw [if_neg hc] at hst
      rw [hst, i1 o n st0 hst0]
      constructor
      · rintro ⟨r, hr, ho, hnr⟩
        refine ⟨r, (hrow r).2 ⟨hr, ?_⟩, ho, hnr⟩
        intro hid
        have : r = b := eq_of_id_eq i2.1 hr hbs hid
        subst this
        exact hc ⟨ho.symm, hnr⟩
      · rintro ⟨r, hr, ho, hnr⟩
        exact ⟨r, ((hrow r).1 hr).1, ho, hnr⟩
  · constructor
    · simp only [releasedStore]
      exact (i2.1.sublist ((List.filter_sublist _).map _))
    · intro r hr
      have : (releasedStore s b bid).nextBookingId = s.nextBookingId := by
        simp [releasedStore, setSeatStatus_nextBookingId]
      rw [this]
      exact i2.2 r ((hrow r).1 hr).1
  · intro b1 hb1 b2 hb2 ho n hn1 hn2 hex
    have hex' : ∃ st, (n, st) ∈ s.inventory b1.owner := by
      obtain ⟨st, hst⟩ := hex
      obtain ⟨st0, hst0, -⟩ := mem_inventory_releasedStore.1 hst
      exact ⟨st0, hst0⟩
    exact i3 b1 ((hrow b1).1 hb1).1 b2 ((hrow b2).1 hb2).1 ho n hn1 hn2 hex'
  · intro sh hsh
    rw [hshows] at hsh
    rw [hnext]
    exact i4 sh hsh
  · intro r hr sh ho
    rw [hshows]
    exact i5 r ((hrow r).1 hr).1 sh ho

/-- Every call of `createBooking` keeps the invariant. -/
theorem bookingInvariant_createBooking [Collation] (now : Nat) (f : Faults) (s : Store)
    (req : BookingRequest) (hi : s.bookingInvariant) :
    (createBooking now f s req).2.bookingInvariant := by
  by_cases hv : req.valid
  · obtain ⟨u, m, str, p, hu, hm, hs, hp, hu', hm', hs', hl⟩ := valid_fields hv
    rcases createBooking_cases now f s hu hm hs hp hu' hm' hs' hl with h | h | h | h
    · exact bookingInvariant_of_sameTables h.2.1 hi
    · rw [h.1]; exact hi
    · rw [h.1]; exact hi
    · rw [h.1]; exact bookingInvariant_committedStore hi h.2.2.2.1 h.2.2.2.2
  · obtain ⟨e, he⟩ := createBooking_of_not_valid hv
    rw [he now f s]; exact hi

/-- Every call of `deleteBooking` keeps the invariant. -/
theorem bookingInvariant_deleteBooking [Collation] (f : Faults) (s : Store) (bookingId : Option Int)
    (hi : s.bookingInvariant) : (deleteBooking f s bookingId).2.bookingInvariant := by
  rcases bookingId with _ | bid
  · exact hi
  · rcases deleteBooking_cases f s bid with h | h | h
    · rw [h.1]; exact hi
    · exact bookingInvariant_of_sameTables h.2.1 hi
    · obtain ⟨b, hb, hr⟩ := h
      rw [hr]; exact bookingInvariant_releasedStore hi hb

theorem bookingInvariant_of_reachable [Collation] {s0 s : Store} (h0 : s0.bookingInvariant)
    (hr : BookingReachable s0 s) : s.bookingInvariant := by
  induction hr with
  | start => exact h0
  | create now f req _ ih => exact bookingInvariant_createBooking now f _ req ih
  | delete f bookingId _ ih => exact bookingInvariant_deleteBooking f _ bookingId ih
  | generate f movieId rows _ hno ih =>
    exact bookingInvariant_generateSeats f _ movieId rows ih hno
  | addShow f movieId req _ ih => exact bookingInvariant_createShow f _ movieId req ih

theorem bookingInvariant_of_clean [Collation] {s0 : Store} (hl : s0.bookings = [])
    (hs : ∀ r ∈ s0.seats, r.status = SeatStatus.available)
    (hss : ∀ r ∈ s0.show_seats, r.status = SeatStatus.available) (hsh : s0.showIdsFresh) :
    s0.bookingInvariant := by
  refine ⟨?_, ?_, ?_, hsh, ?_⟩
  · intro o n st hn
    have : st = SeatStatus.available := by
      rcases o with m | sh
      · obtain ⟨r, hr, -, -, hst⟩ := mem_inventory_movie.1 hn
        rw [← hst]; exact hs r hr
      · obtain ⟨r, hr, -, -, hst⟩ := mem_inventory_show.1 hn
        rw [← hst]; exact hss r hr
    rw [this, hl]
    simp
  · simp [Store.bookingIdsFresh, hl]
  · intro b1 hb1
    rw [hl] at hb1
    cases hb1
  · intro b hb
    rw [hl] at hb
    cases hb

/-! ## Lemmas on the parsing of the seat list -/

theorem splitComma_ne_nil (cs : List Char) : splitComma cs ≠ [] := by
  cases cs with
  | nil => simp [splitComma]
  | cons c cs =>
    unfold splitComma
    split_ifs
    · simp
    · split <;> simp

/-- Joining the pieces of `split(',')` with commas gives back the input. -/
theorem intercalate_splitComma (cs : List Char) : [','].intercalate (splitComma cs) = cs := by
  induction cs with
  | nil => simp [splitComma, List.intercalate]
  | cons c cs ih =>
    unfold splitComma
    by_cases hc : c = ','
    · rw [if_pos hc]
      cases h : splitComma cs with
      | nil => exact absurd h (splitComma_ne_nil cs)
      | cons p ps =>
        rw [h] at ih
        rw [hc, ← ih]
        simp [List.intercalate]
    · rw [if_neg hc]
      cases h : splitComma cs with
      | nil => exact absurd h (splitComma_ne_nil cs)
      | cons p ps =>
        rw [h] at ih
        simp only
        rw [← ih]
        cases ps <;> simp [List.intercalate]

/-- No piece of `split(',')` holds a comma. -/
theorem not_comma_mem_splitComma (cs : List Char) : ∀ p ∈ splitComma cs, ',' ∉ p := by
  induction cs with
  | nil => simp [splitComma]
  | cons c cs ih =>
    unfold splitComma
    by_cases hc : c = ','
    · rw [if_pos hc]
      intro p hp
      rcases List.mem_cons.1 hp with rfl | hp
      · simp
      · exact ih p hp
    · rw [if_neg hc]
      cases h : splitComma cs with
      | nil => exact absurd h (splitComma_ne_nil cs)
      | cons q qs =>
        rw [h] at ih
        intro p hp
        simp only at hp
        rcases List.mem_cons.1 hp with rfl | hp
        · intro hmem
          rcases List.mem_cons.1 hmem with h1 | h1
          · exact hc h1.symm
          · exact ih q (List.mem_cons_self _ _) h1
        · exact ih p (List.mem_cons_of_mem _ hp)

/-- A character is in a piece of `split(',')` exactly when it is in the input and is not a
comma. -/
theorem mem_splitComma_iff (cs : List Char) (c : Char) :
    (∃ p ∈ splitComma cs, c ∈ p) ↔ c ∈ cs ∧ c ≠ ',' := by
  induction cs with
  | nil => simp [splitComma]
  | cons d cs ih =>
    unfold splitComma
    by_cases hd : d = ','
    · rw [if_pos hd]
      simp only [List.mem_cons, exists_eq_or_imp, List.not_mem_nil, false_or]
      rw [ih, hd]
      constructor
      · rintro ⟨h1, h2⟩
        exact ⟨Or.inr h1, h2⟩
      · rintro ⟨h1 | h1, h2⟩
        · exact absurd h1 h2
        · exact ⟨h1, h2⟩
    · rw [if_neg hd]
      cases h : splitComma cs with
      | nil => exact absurd h (splitComma_ne_nil cs)
      | cons q qs =>
        rw [h] at ih
        simp only [List.mem_cons, exists_eq_or_imp] at ih ⊢
        constructor
        · rintro ((h1 | h1) | h1)
          · exact ⟨Or.inl h1, by rw [h1]; exact hd⟩
          · exact ⟨Or.inr (ih.1 (Or.inl h1)).1, (ih.1 (Or.inl h1)).2⟩
          · exact ⟨Or.inr (ih.1 (Or.inr h1)).1, (ih.1 (Or.inr h1)).2⟩
        · rintro ⟨h1 | h1, h2⟩
          · exact Or.inl (Or.inl h1)
          · rcases ih.2 ⟨h1, h2⟩ with h3 | h3
            · exact Or.inl (Or.inr h3)
            · exact Or.inr h3

theorem rdropWhile_append_rtakeWhile (p : Char → Bool) (l : List Char) :
    l.rdropWhile p ++ l.rtakeWhile p = l := by
  rw [List.rdropWhile, List.rtakeWhile, ← List.reverse_append, List.takeWhile_append_dropWhile,
    List.reverse_reverse]

/-- The trimmed piece is the piece without a whitespace prefix and a whitespace suffix. -/
theorem jsTrim_decompose (p : List Char) :
    ∃ pre post, p = pre ++ jsTrim p ++ post ∧ (∀ c ∈ pre, isJsWhitespace c = true) ∧
      ∀ c ∈ post, isJsWhitespace c = true := by
  refine ⟨p.takeWhile isJsWhitespace, (p.dropWhile isJsWhitespace).rtakeWhile isJsWhitespace,
    ?_, fun c hc => List.mem_takeWhile_imp hc, fun c hc => List.mem_rtakeWhile_imp hc⟩
  have h1 : jsTrim p = (p.dropWhile isJsWhitespace).rdropWhile isJsWhitespace := rfl
  rw [h1, List.append_assoc, rdropWhile_append_rtakeWhile, List.takeWhile_append_dropWhile]

theorem jsTrim_eq_nil_iff (p : List Char) :
    jsTrim p = [] ↔ ∀ c ∈ p, isJsWhitespace c = true := by
  have h1 : jsTrim p = (p.dropWhile isJsWhitespace).rdropWhile isJsWhitespace := rfl
  rw [h1, List.rdropWhile_eq_nil_iff]
  constructor
  · intro h c hc
    by_contra hn
    have hne : p.dropWhile isJsWhitespace ≠ [] := by
      rw [Ne, List.dropWhile_eq_nil_iff]
      exact fun hall => hn (hall c hc)
    have := List.head_dropWhile_not isJsWhitespace p hne
    rw [h _ (List.head_mem hne)] at this
    exact absurd this (by simp)
  · intro h c hc
    exact h c ((List.dropWhile_sublist _).subset hc)

/-- The trimmed piece neither starts nor ends with whitespace. -/
theorem jsTrim_ends (p : List Char) :
    (∀ c, (jsTrim p).head? = some c → isJsWhitespace c = false) ∧
    (∀ c, (jsTrim p).getLast? = some c → isJsWhitespace c = false) := by
  have h1 : jsTrim p = (p.dropWhile isJsWhitespace).rdropWhile isJsWhitespace := rfl
  constructor
  · intro c hc
    have hne : jsTrim p ≠ [] := by
      intro h; rw [h] at hc; simp at hc
    have hne2 : p.dropWhile isJsWhitespace ≠ [] := by
      intro h; apply hne; rw [h1, h]; simp
    have hpre : jsTrim p <+: p.dropWhile isJsWhitespace := by
      rw [h1]; exact List.rdropWhile_prefix _ _
    obtain ⟨t, ht⟩ := hpre
    have hh : (p.dropWhile isJsWhitespace).head? = some c := by
      rw [← ht]
      cases hj : jsTrim p with
      | nil => exact absurd hj hne
      | cons a l => rw [hj] at hc; simpa using hc
    have := List.head?_dropWhile_not isJsWhitespace p
    rw [hh] at this
    simpa using this
  · intro c hc
    have hne : (p.dropWhile isJsWhitespace).rdropWhile isJsWhitespace ≠ [] := by
      intro h; rw [h1, h] at hc; simp at hc
    have := List.rdropWhile_last_not isJsWhitespace (p.dropWhile isJsWhitespace) hne
    rw [h1, List.getLast?_eq_getLast _ hne] at hc
    simp only [Option.some.injEq] at hc
    rw [hc] at this
    simpa using this

theorem seatList_eq (input : String) :
    seatList input =
      ((splitComma input.data).filter (fun p => !(p.all isJsWhitespace))).map
        (fun p => String.mk (jsTrim p)) := by
  unfold seatList
  rw [List.filter_map, List.map_map]
  congr 1
  apply List.filter_congr
  intro p _
  simp only [Function.comp]
  by_cases h : jsTrim p = []
  · have := (jsTrim_eq_nil_iff p).1 h
    have h4 : p.all isJsWhitespace = true := List.all_eq_true.2 this
    simp [h, h4]
  · have h2 : ¬ ∀ c ∈ p, isJsWhitespace c = true := fun hh => h ((jsTrim_eq_nil_iff p).2 hh)
    have h3 : (jsTrim p).isEmpty = false := by
      cases hj : jsTrim p with
      | nil => exact absurd hj h
      | cons a l => rfl
    rw [h3]
    simp only [Bool.not_false, List.all_eq_true, Bool.not_eq_eq_eq_not, Bool.not_true]
    simpa using h2

theorem filter_id_eq_nil {rows : List BookingRow} {bid : Int}
    (h : ∀ b ∈ rows, (b.id : Int) ≠ bid) :
    rows.filter (fun b => (b.id : Int) = bid) = [] := by
  rw [List.filter_eq_nil_iff]
  intro b hb
  simpa using h b hb

theorem head_filter_id_of_mem {rows : List BookingRow} {b : BookingRow}
    (hn : (rows.map (fun r => r.id)).Nodup) (hb : b ∈ rows) :
    (rows.filter (fun r => (r.id : Int) = (b.id : Int))).head? = some b := by
  induction rows with
  | nil => simp at hb
  | cons a t ih =>
    simp only [List.map_cons, List.nodup_cons, List.mem_map, not_exists, not_and] at hn
    rcases List.mem_cons.1 hb with rfl | hb'
    · simp [List.filter_cons]
    · have hne : a.id ≠ b.id := fun h => hn.1 b hb' h.symm
      have hne' : ¬ ((a.id : Int) = (b.id : Int)) := by exact_mod_cast hne
      simp only [List.filter_cons, hne', decide_False, Bool.false_eq_true, if_false]
      exact ih hn.2 hb'

theorem filter_id_ne_eq_filter_ne {rows : List BookingRow} {b : BookingRow}
    (hn : (rows.map (fun r => r.id)).Nodup) (hb : b ∈ rows) :
    rows.filter (fun r => ¬ ((r.id : Int) = (b.id : Int))) =
      rows.filter (fun r => decide (r ≠ b)) := by
  apply List.filter_congr
  intro r hr
  have : (r.id : Int) = (b.id : Int) ↔ r = b := by
    constructor
    · intro h
      exact eq_of_id_eq hn hr hb (by exact_mod_cast h)
    · intro h; rw [h]
  simp [this]

/-! ## Lemmas on decimal numerals and row labels -/

theorem toDigitsCore_eq (fuel : Nat) : ∀ (n : Nat) (ds : List Char), n < fuel →
    Nat.toDigitsCore 10 fuel n ds =
      (if n = 0 then ['0'] else (Nat.digits 10 n).reverse.map Nat.digitChar) ++ ds := by
  induction fuel with
  | zero => intro n ds h; omega
  | succ fuel ih =>
    intro n ds h
    unfold Nat.toDigitsCore
    by_cases h0 : n / 10 = 0
    · have hlt : n < 10 := by omega
      simp only [h0, if_true]
      by_cases hn : n = 0
      · subst hn; simp [Nat.digitChar]
      · have : Nat.digits 10 n = [n] := Nat.digits_of_lt 10 n hn hlt
        simp [hn, this, Nat.mod_eq_of_lt hlt]
    · have hn : n ≠ 0 := by omega
      have hlt : n / 10 < fuel := by omega
      simp only [h0, if_false]
      rw [ih (n / 10) _ hlt]
      have hd : Nat.digits 10 n = (n % 10) :: Nat.digits 10 (n / 10) := by
        conv_lhs => rw [Nat.digits_def' (by norm_num : 1 < 10) (Nat.pos_of_ne_zero hn)]
      simp [h0, hn, hd]

/-- The characters of the decimal numeral of `n`. -/
theorem repr_data (n : Nat) :
    (toString n).data =
      if n = 0 then ['0'] else (Nat.digits 10 n).reverse.map Nat.digitChar := by
  show (Nat.repr n).data = _
  unfold Nat.repr Nat.toDigits
  rw [toDigitsCore_eq (n + 1) n [] (Nat.lt_succ_self n)]
  simp [List.asString]

theorem digitChar_isDigit (d : Nat) (h : d < 10) : (Nat.digitChar d).isDigit = true := by
  interval_cases d <;> decide

theorem digitChar_inj (a b : Nat) (ha : a < 10) (hb : b < 10)
    (h : Nat.digitChar a = Nat.digitChar b) : a = b := by
  interval_cases a <;> interval_cases b <;> first | rfl | (exact absurd h (by decide))

/-- A decimal numeral is a non-empty string of digits. -/
theorem repr_digits (n : Nat) :
    (toString n).data ≠ [] ∧ ∀ c ∈ (toString n).data, c.isDigit = true := by
  rw [repr_data]
  by_cases hn : n = 0
  · simp [hn]
  · simp only [hn, if_false]
    constructor
    · simp [Nat.digits_ne_nil_iff_ne_zero, hn]
    · intro c hc
      simp only [List.mem_map, List.mem_reverse] at hc
      obtain ⟨d, hd, rfl⟩ := hc
      exact digitChar_isDigit d (Nat.digits_lt_base (by norm_num) hd)

/-- Two numbers with the same decimal numeral are equal. -/
theorem repr_inj {n m : Nat} (h : toString n = toString m) : n = m := by
  have h' : (toString n).data = (toString m).data := by rw [h]
  rw [repr_data, repr_data] at h'
  have hmap : ∀ {a b : List Nat}, (∀ d ∈ a, d < 10) → (∀ d ∈ b, d < 10) →
      a.map Nat.digitChar = b.map Nat.digitChar → a = b := by
    intro a
    induction a with
    | nil => intro b _ _ hab; cases b <;> simp_all
    | cons x xs ih =>
      intro b ha hb hab
      cases b with
      | nil => simp at hab
      | cons y ys =>
        simp only [List.map_cons, List.cons.injEq] at hab
        have hxy := digitChar_inj x y (ha x (List.mem_cons_self _ _))
          (hb y (List.mem_cons_self _ _)) hab.1
        rw [hxy, ih (fun d hd => ha d (List.mem_cons_of_mem _ hd))
          (fun d hd => hb d (List.mem_cons_of_mem _ hd)) hab.2]
  have hz : ∀ k : Nat, k ≠ 0 → (Nat.digits 10 k).reverse.map Nat.digitChar ≠ ['0'] := by
    intro k hk hkk
    have h1 : (Nat.digits 10 k).reverse.map Nat.digitChar = [0].map Nat.digitChar := by
      rw [hkk]; rfl
    have h2 := hmap (fun d hd => Nat.digits_lt_base (by norm_num) (List.mem_reverse.1 hd))
      (by simp) h1
    have h3 : Nat.digits 10 k = [0] := by
      have := congrArg List.reverse h2
      simpa using this
    have h4 := Nat.getLast_digit_ne_zero 10 hk
    simp [h3] at h4
  by_cases hn : n = 0 <;> by_cases hm : m = 0
  · rw [hn, hm]
  · simp only [hn, hm, if_true, if_false] at h'
    exact absurd h'.symm (hz m hm)
  · simp only [hn, hm, if_true, if_false] at h'
    exact absurd h' (hz n hn)
  · simp only [hn, hm, if_false] at h'
    have h2 := hmap (fun d hd => Nat.digits_lt_base (by norm_num) (List.mem_reverse.1 hd))
      (fun d hd => Nat.digits_lt_base (by norm_num) (List.mem_reverse.1 hd)) h'
    have h3 : Nat.digits 10 n = Nat.digits 10 m := by
      have := congrArg List.reverse h2
      simpa using this
    exact Nat.digits_inj_iff.1 h3

theorem toNat_ofNat_of_lt (n : Nat) (h : n < 0xD800) : (Char.ofNat n).toNat = n := by
  have hv : n.isValidChar := Or.inl h
  rw [Char.ofNat, dif_pos hv]
  simp [Char.ofNatAux, Char.toNat, UInt32.toNat]

theorem keepNew_congr [Collation] {seen seen' : List String}
    (h : ∀ x, collMem x seen ↔ collMem x seen') (l : List String) :
    keepNew seen l = keepNew seen' l := by
  induction l generalizing seen seen' with
  | nil => rfl
  | cons n ns ih =>
    unfold keepNew
    by_cases hn : collMem n seen
    · rw [if_pos hn, if_pos ((h n).1 hn)]
      exact ih h
    · rw [if_neg hn, if_neg (fun h' => hn ((h n).2 h'))]
      congr 1
      apply ih
      intro x
      simp only [collMem_cons, h x]

theorem mem_keepNew [Collation] {seen l : List String} {x : String} (hx : x ∈ keepNew seen l) :
    x ∈ l ∧ ¬ collMem x seen := by
  induction l generalizing seen with
  | nil => simp [keepNew] at hx
  | cons n ns ih =>
    unfold keepNew at hx
    by_cases hn : collMem n seen
    · rw [if_pos hn] at hx
      exact ⟨List.mem_cons_of_mem _ (ih hx).1, (ih hx).2⟩
    · rw [if_neg hn] at hx
      rcases List.mem_cons.1 hx with rfl | hx
      · exact ⟨List.mem_cons_self _ _, hn⟩
      · have := ih hx
        exact ⟨List.mem_cons_of_mem _ this.1, fun h => this.2 (collMem_cons.2 (Or.inr h))⟩

/-- The numbers kept are pairwise different for the store. -/
theorem keepNew_keys_nodup [Collation] (seen l : List String) :
    ((keepNew seen l).map Collation.key).Nodup := by
  induction l generalizing seen with
  | nil => simp [keepNew]
  | cons n ns ih =>
    unfold keepNew
    by_cases hn : collMem n seen
    · rw [if_pos hn]; exact ih seen
    · rw [if_neg hn, List.map_cons, List.nodup_cons]
      refine ⟨?_, ih _⟩
      intro h
      obtain ⟨x, hx, hk⟩ := List.mem_map.1 h
      exact (mem_keepNew hx).2 (collMem_cons.2 (Or.inl hk))

theorem keepNew_nodup [Collation] (seen l : List String) : (keepNew seen l).Nodup :=
  List.Nodup.of_map _ (keepNew_keys_nodup seen l)

theorem mem_keepNew_of_mem [Collation] {seen l : List String} {x : String} (hx : x ∈ l) :
    collMem x seen ∨ collMem x (keepNew seen l) := by
  induction l generalizing seen with
  | nil => simp at hx
  | cons n ns ih =>
    unfold keepNew
    by_cases hn : collMem n seen
    · rw [if_pos hn]
      rcases List.mem_cons.1 hx with rfl | hx
      · exact Or.inl hn
      · exact ih hx
    · rw [if_neg hn]
      rcases List.mem_cons.1 hx with rfl | hx
      · exact Or.inr (collMem_cons.2 (Or.inl rfl))
      · rcases @ih (n :: seen) hx with h | h
        · rcases collMem_cons.1 h with h | h
          · exact Or.inr (collMem_cons.2 (Or.inl h))
          · exact Or.inl h
        · exact Or.inr (collMem_cons.2 (Or.inr h))

theorem keepNew_eq_self [Collation] {seen l : List String} (hl : (l.map Collation.key).Nodup)
    (hs : ∀ x ∈ l, ¬ collMem x seen) : keepNew seen l = l := by
  induction l generalizing seen with
  | nil => rfl
  | cons n ns ih =>
    unfold keepNew
    rw [List.map_cons, List.nodup_cons] at hl
    rw [if_neg (hs n (List.mem_cons_self _ _))]
    congr 1
    apply ih hl.2
    intro x hx hmem
    rcases collMem_cons.1 hmem with h | hmem
    · exact hl.1 (List.mem_map.2 ⟨x, hx, h⟩)
    · exact hs x (List.mem_cons_of_mem _ hx) hmem

theorem keepNew_eq_nil [Collation] {seen l : List String} (hs : ∀ x ∈ l, collMem x seen) :
    keepNew seen l = [] := by
  induction l with
  | nil => rfl
  | cons n ns ih =>
    unfold keepNew
    rw [if_pos (hs n (List.mem_cons_self _ _))]
    exact ih (fun x hx => hs x (List.mem_cons_of_mem _ hx))

theorem mem_seatNumbers {s : Store} {m : Nat} {n : String} :
    n ∈ s.seatNumbers m ↔ ∃ r ∈ s.seats, r.movie_id = m ∧ r.seat_number = n := by
  simp only [Store.seatNumbers, List.mem_map, List.mem_filter, decide_eq_true_eq]
  constructor
  · rintro ⟨r, ⟨h1, h2⟩, h3⟩; exact ⟨r, h1, h2, h3⟩
  · rintro ⟨r, h1, h2, h3⟩; exact ⟨r, ⟨h1, h2⟩, h3⟩

theorem mem_showSeatNumbers {s : Store} {sh : Nat} {n : String} :
    n ∈ s.showSeatNumbers sh ↔ ∃ r ∈ s.show_seats, r.show_id = sh ∧ r.seat_number = n := by
  simp only [Store.showSeatNumbers, List.mem_map, List.mem_filter, decide_eq_true_eq]
  constructor
  · rintro ⟨r, ⟨h1, h2⟩, h3⟩; exact ⟨r, h1, h2, h3⟩
  · rintro ⟨r, h1, h2, h3⟩; exact ⟨r, ⟨h1, h2⟩, h3⟩

theorem collMem_seatNumbers [Collation] {s : Store} {m : Nat} {n : String} :
    collMem n (s.seatNumbers m) ↔ ∃ r ∈ s.seats, r.movie_id = m ∧ collEq r.seat_number n := by
  rw [collMem_iff]
  constructor
  · rintro ⟨x, hx, h⟩
    obtain ⟨r, hr, hm, rfl⟩ := mem_seatNumbers.1 hx
    exact ⟨r, hr, hm, Eq.symm h⟩
  · rintro ⟨r, hr, hm, h⟩
    exact ⟨r.seat_number, mem_seatNumbers.2 ⟨r, hr, hm, rfl⟩, Eq.symm h⟩

theorem collMem_showSeatNumbers [Collation] {s : Store} {sh : Nat} {n : String} :
    collMem n (s.showSeatNumbers sh) ↔
      ∃ r ∈ s.show_seats, r.show_id = sh ∧ collEq r.seat_number n := by
  rw [collMem_iff]
  constructor
  · rintro ⟨x, hx, h⟩
    obtain ⟨r, hr, hm, rfl⟩ := mem_showSeatNumbers.1 hx
    exact ⟨r, hr, hm, Eq.symm h⟩
  · rintro ⟨r, hr, hm, h⟩
    exact ⟨r.seat_number, mem_showSeatNumbers.2 ⟨r, hr, hm, rfl⟩, Eq.symm h⟩

/-- The statement `INSERT IGNORE INTO seats` for an existing movie appends one available
seat for each proposed number the movie did not have, at its first occurrence. -/
theorem insertIgnoreSeats_exact [Collation] (movieId : Nat) (l : List String) (s : Store)
    (hm : movieId ∈ s.movies.map (fun m => m.id)) :
    ∃ added : List SeatRow,
      (insertIgnoreSeats s movieId l).seats = s.seats ++ added ∧
      added.map (fun r => r.seat_number) = keepNew (s.seatNumbers movieId) l ∧
      (∀ r ∈ added, r.movie_id = movieId ∧ r.status = SeatStatus.available) := by
  induction l generalizing s with
  | nil => exact ⟨[], by simp [insertIgnoreSeats, keepNew]⟩
  | cons n ns ih =>
    unfold insertIgnoreSeats keepNew
    by_cases hex : ∃ r ∈ s.seats, r.movie_id = movieId ∧ collEq r.seat_number n
    · have hc : ¬ (movieId ∈ s.movies.map (fun m => m.id) ∧
          ¬ ∃ r ∈ s.seats, r.movie_id = movieId ∧ collEq r.seat_number n) := fun h => h.2 hex
      rw [if_neg hc, if_pos (collMem_seatNumbers.2 hex)]
      exact ih s hm
    · have hc : movieId ∈ s.movies.map (fun m => m.id) ∧
          ¬ ∃ r ∈ s.seats, r.movie_id = movieId ∧ collEq r.seat_number n := ⟨hm, hex⟩
      rw [if_pos hc, if_neg (fun h => hex (collMem_seatNumbers.1 h))]
      obtain ⟨added, h1, h2, h3⟩ := ih
        { s with
          seats := s.seats ++ [{ seat_id := s.nextSeatId, movie_id := movieId, seat_number := n }]
          nextSeatId := s.nextSeatId + 1 } hm
      refine ⟨{ seat_id := s.nextSeatId, movie_id := movieId, seat_number := n } :: added,
        ?_, ?_, ?_⟩
      · rw [h1]; simp
      · rw [List.map_cons, h2]
        congr 1
        apply keepNew_congr
        intro x
        rw [collMem_cons, collMem_seatNumbers, collMem_seatNumbers]
        simp only [List.mem_append, List.mem_singleton]
        constructor
        · rintro ⟨r, hr | rfl, h1, h2⟩
          · exact Or.inr ⟨r, hr, h1, h2⟩
          · exact Or.inl (Eq.symm h2)
        · rintro (h | ⟨r, hr, h1, h2⟩)
          · exact ⟨_, Or.inr rfl, rfl, Eq.symm h⟩
          · exact ⟨r, Or.inl hr, h1, h2⟩
      · intro r hr
        rcases List.mem_cons.1 hr with rfl | hr
        · exact ⟨rfl, rfl⟩
        · exact h3 r hr

/-- The statement `INSERT IGNORE INTO show_seats` for an existing show appends one available
seat for each proposed number the show did not have, at its first occurrence. -/
theorem insertIgnoreShowSeats_exact [Collation] (showId : Nat) (l : List String) (s : Store)
    (hm : showId ∈ s.shows.map (fun sh => sh.id)) :
    ∃ added : List ShowSeatRow,
      (insertIgnoreShowSeats s showId l).show_seats = s.show_seats ++ added ∧
      added.map (fun r => r.seat_number) = keepNew (s.showSeatNumbers showId) l ∧
      (∀ r ∈ added, r.show_id = showId ∧ r.status = SeatStatus.available) := by
  induction l generalizing s with
  | nil => exact ⟨[], by simp [insertIgnoreShowSeats, keepNew]⟩
  | cons n ns ih =>
    unfold insertIgnoreShowSeats keepNew
    by_cases hex : ∃ r ∈ s.show_seats, r.show_id = showId ∧ collEq r.seat_number n
    · have hc : ¬ (showId ∈ s.shows.map (fun sh => sh.id) ∧
          ¬ ∃ r ∈ s.show_seats, r.show_id = showId ∧ collEq r.seat_number n) := fun h => h.2 hex
      rw [if_neg hc, if_pos (collMem_showSeatNumbers.2 hex)]
      exact ih s hm
    · have hc : showId ∈ s.shows.map (fun sh => sh.id) ∧
          ¬ ∃ r ∈ s.show_seats, r.show_id = showId ∧ collEq r.seat_number n := ⟨hm, hex⟩
      rw [if_pos hc, if_neg (fun h => hex (collMem_showSeatNumbers.1 h))]
      obtain ⟨added, h1, h2, h3⟩ := ih
        { s with
          show_seats := s.show_seats ++
            [{ id := s.nextShowSeatId, show_id := showId, seat_number := n }]
          nextShowSeatId := s.nextShowSeatId + 1 } hm
      refine ⟨{ id := s.nextShowSeatId, show_id := showId, seat_number := n } :: added,
        ?_, ?_, ?_⟩
      · rw [h1]; simp
      · rw [List.map_cons, h2]
        congr 1
        apply keepNew_congr
        intro x
        rw [collMem_cons, collMem_showSeatNumbers, collMem_showSeatNumbers]
        simp only [List.mem_append, List.mem_singleton]
        constructor
        · rintro ⟨r, hr | rfl, h1, h2⟩
          · exact Or.inr ⟨r, hr, h1, h2⟩
          · exact Or.inl (Eq.symm h2)
        · rintro (h | ⟨r, hr, h1, h2⟩)
          · exact ⟨_, Or.inr rfl, rfl, Eq.symm h⟩
          · exact ⟨r, Or.inl hr, h1, h2⟩
      · intro r hr
        rcases List.mem_cons.1 hr with rfl | hr
        · exact ⟨rfl, rfl⟩
        · exact h3 r hr

theorem pushRow_eq_gridLabels {startChar endChar : String} {a b : Nat} (perRow : Nat)
    (ha : charCodeAt0 startChar = some a) (hb : charCodeAt0 endChar = some b) :
    pushRow startChar endChar perRow = gridLabels a (b + 1 - a) perRow := by
  simp [pushRow, ha, hb, gridLabels]

theorem showSeatLabels_eq_gridLabels (rows cols : Int) :
    showSeatLabels rows cols = gridLabels 65 rows.toNat cols.toNat := rfl

theorem gridLabels_eq_map (first k count : Nat) :
    gridLabels first k count =
      (List.range k ×ˢ List.range count).map
        (fun p => fromCharCode (first + p.1) ++ toString (p.2 + 1)) := by
  simp only [gridLabels, SProd.sprod, List.product, List.map_flatMap, List.map_map]
  rfl

theorem length_gridLabels (first k count : Nat) :
    (gridLabels first k count).length = k * count := by
  rw [gridLabels_eq_map, List.length_map, List.length_product, List.length_range,
    List.length_range]

theorem fromCharCode_data (x : Nat) (h : x < 0xD800) :
    (fromCharCode x).data = [Char.ofNat x] := by
  have : x % 0x10000 = x := Nat.mod_eq_of_lt (by omega)
  simp [fromCharCode, this]

theorem label_inj {x y n m : Nat} (hx : x < 0xD800) (hy : y < 0xD800)
    (h : fromCharCode x ++ toString n = fromCharCode y ++ toString m) : x = y ∧ n = m := by
  have h' : (fromCharCode x ++ toString n).data = (fromCharCode y ++ toString m).data := by
    rw [h]
  rw [String.data_append, String.data_append, fromCharCode_data x hx, fromCharCode_data y hy]
    at h'
  simp only [List.singleton_append, List.cons.injEq] at h'
  constructor
  · have := congrArg Char.toNat h'.1
    rwa [toNat_ofNat_of_lt x hx, toNat_ofNat_of_lt y hy] at this
  · apply repr_inj
    exact String.ext h'.2

theorem mem_gridLabels {first k count : Nat} {x : String} :
    x ∈ gridLabels first k count ↔
      ∃ i j, i < k ∧ j < count ∧ x = fromCharCode (first + i) ++ toString (j + 1) := by
  simp only [gridLabels, List.mem_flatMap, List.mem_range, List.mem_map]
  constructor
  · rintro ⟨i, hi, j, hj, rfl⟩; exact ⟨i, j, hi, hj, rfl⟩
  · rintro ⟨i, j, hi, hj, rfl⟩; exact ⟨i, hi, j, hj, rfl⟩

/-- The labels of a grid whose code units stay below the surrogate range are pairwise
distinct. -/
theorem nodup_gridLabels {first k count : Nat} (h : first + k ≤ 0xD800) :
    (gridLabels first k count).Nodup := by
  rw [gridLabels_eq_map]
  apply List.Nodup.map_on
  · rintro ⟨i, j⟩ hp ⟨i', j'⟩ hp' heq
    have hp1 := List.mem_product.1 hp
    have hp2 := List.mem_product.1 hp'
    simp only [List.mem_range] at hp1 hp2
    have := label_inj (by omega) (by omega) heq
    simp only [Prod.mk.injEq]
    omega
  · exact List.Nodup.product (List.nodup_range k) (List.nodup_range count)

theorem toUpper_of_lt {c : Char} (h : c.toNat < 97) : c.toUpper = c := by
  unfold Char.toUpper
  have h' : ¬ (c.toNat ≥ 97 ∧ c.toNat ≤ 122) := by omega
  simp only [h', if_false]

theorem toNat_lt_of_isDigit {c : Char} (h : c.isDigit = true) : c.toNat < 97 := by
  simp only [Char.isDigit, Bool.and_eq_true, decide_eq_true_eq] at h
  have h2 : c.val.toNat ≤ (57 : UInt32).toNat := h.2
  have h3 : (57 : UInt32).toNat = 57 := rfl
  have h4 : c.toNat = c.val.toNat := rfl
  omega

/-- The weights that `asciiWeights` gives a label whose first character is below the small
letters: the code of the character, then the codes of the digits. -/
theorem asciiWeights_label {x n : Nat} (hx : x < 97) :
    asciiWeights (fromCharCode x ++ toString n) =
      x :: (toString n).data.map (fun c => c.toNat) := by
  unfold asciiWeights
  rw [String.data_append, fromCharCode_data x (by omega), List.singleton_append, List.map_cons,
    toUpper_of_lt (by rw [toNat_ofNat_of_lt x (by omega)]; exact hx),
    toNat_ofNat_of_lt x (by omega)]
  congr 1
  apply List.map_congr_left
  intro c hc
  rw [toUpper_of_lt (toNat_lt_of_isDigit ((repr_digits n).2 c hc))]

/-- The collation `asciiCi` tells the labels of a grid of at most 32 rows apart: the row
letters stay below the small letters. -/
theorem asciiWeights_gridLabels_nodup (k count : Nat) (hk : k ≤ 32) :
    ((gridLabels 65 k count).map asciiWeights).Nodup := by
  rw [gridLabels_eq_map, List.map_map]
  apply List.Nodup.map_on
  · rintro ⟨i, j⟩ hp ⟨i', j'⟩ hp' heq
    have hp1 := List.mem_product.1 hp
    have hp2 := List.mem_product.1 hp'
    simp only [List.mem_range] at hp1 hp2
    simp only [Function.comp] at heq
    rw [asciiWeights_label (by omega), asciiWeights_label (by omega)] at heq
    simp only [List.cons.injEq] at heq
    have hinj : Function.Injective (fun c : Char => c.toNat) :=
      fun a b h => Char.ext (UInt32.ext h)
    have hd := List.map_injective_iff.2 hinj heq.2
    have hj : j + 1 = j' + 1 := repr_inj (String.ext hd)
    simp only [Prod.mk.injEq]
    omega
  · exact List.Nodup.product (List.nodup_range k) (List.nodup_range count)

theorem insertIgnoreSeats_of_no_movie [Collation] (movieId : Nat) (l : List String) (s : Store)
    (hm : movieId ∉ s.movies.map (fun m => m.id)) : insertIgnoreSeats s movieId l = s := by
  induction l with
  | nil => rfl
  | cons n ns ih =>
    unfold insertIgnoreSeats
    rw [if_neg (fun h => hm h.1)]
    exact ih

/-- The rows that `generateDefaultSeats` adds are available seats of the movie with a proposed
number. -/
theorem generateDefaultSeats_added [Collation] {f : Faults} {s s' : Store} {movieId : Nat}
    {config : Option (List RowSpec)} (h : generateDefaultSeats f s movieId config = some s') :
    ∃ added : List SeatRow, s'.seats = s.seats ++ added ∧
      ∀ r ∈ added, r.movie_id = movieId ∧ r.status = SeatStatus.available ∧
        r.seat_number ∈ seatsToInsert config := by
  unfold generateDefaultSeats at h
  by_cases h1 : (seatsToInsert config).length = 0
  · simp only [h1, if_true, Option.some.injEq] at h
    exact ⟨[], by rw [← h]; simp, by simp⟩
  by_cases h2 : f Stmt.seatInsert = true
  · simp [h1, h2] at h
  simp only [h1, h2, if_false, Bool.false_eq_true, Option.some.injEq] at h
  by_cases hm : movieId ∈ s.movies.map (fun m => m.id)
  · obtain ⟨added, g1, g2, g3⟩ := insertIgnoreSeats_exact movieId (seatsToInsert config) s hm
    refine ⟨added, by rw [← h, g1], ?_⟩
    intro r hr
    refine ⟨(g3 r hr).1, (g3 r hr).2, ?_⟩
    have : r.seat_number ∈ added.map (fun r => r.seat_number) := List.mem_map_of_mem _ hr
    rw [g2] at this
    exact (mem_keepNew this).1
  · rw [insertIgnoreSeats_of_no_movie movieId _ s hm] at h
    exact ⟨[], by rw [← h]; simp, by simp⟩

/-- With the insert answered, `generateDefaultSeats` on an existing movie returns a store: the
seats it had, then one available seat of the movie for each proposed number that the store
takes for no number of the movie, at its first occurrence. -/
theorem generateDefaultSeats_exact [Collation] (f : Faults) (s : Store) (movieId : Nat)
    (config : Option (List RowSpec)) (hf : f Stmt.seatInsert = false)
    (hm : movieId ∈ s.movies.map (fun m => m.id)) :
    ∃ (s' : Store) (added : List SeatRow), generateDefaultSeats f s movieId config = some s' ∧
      s'.seats = s.seats ++ added ∧
      added.map (fun r => r.seat_number) =
        keepNew (s.seatNumbers movieId) (seatsToInsert config) ∧
      ∀ r ∈ added, r.movie_id = movieId ∧ r.status = SeatStatus.available := by
  unfold generateDefaultSeats
  by_cases h1 : (seatsToInsert config).length = 0
  · have h0 : seatsToInsert config = [] := List.length_eq_zero.1 h1
    refine ⟨s, [], by simp [h1], by simp, ?_, by simp⟩
    rw [h0]
    rfl
  · obtain ⟨added, g1, g2, g3⟩ := insertIgnoreSeats_exact movieId (seatsToInsert config) s hm
    exact ⟨_, added, by simp [h1, hf], g1, g2, g3⟩

theorem charCodeAt0_singleton (a : Char) :
    charCodeAt0 (String.singleton a) =
      some (if a.toNat < 0x10000 then a.toNat else 0xD800 + (a.toNat - 0x10000) / 0x400) := rfl

theorem singleton_eq_fromCharCode (c : Char) (h : c.toNat < 0xD800) :
    String.singleton c = fromCharCode c.toNat := by
  apply String.ext
  rw [fromCharCode_data c.toNat h, Char.ofNat_toNat]
  rfl

theorem insertIgnoreSeats_frame [Collation] (movieId : Nat) (l : List String) (s : Store) :
    (insertIgnoreSeats s movieId l).movies = s.movies ∧
    (insertIgnoreSeats s movieId l).screens = s.screens ∧
    (insertIgnoreSeats s movieId l).users = s.users := by
  induction l generalizing s with
  | nil => exact ⟨rfl, rfl, rfl⟩
  | cons n ns ih =>
    unfold insertIgnoreSeats
    split_ifs with hc
    · exact ih _
    · exact ih s

theorem insertIgnoreShowSeats_frame [Collation] (showId : Nat) (l : List String) (s : Store) :
    (insertIgnoreShowSeats s showId l).movies = s.movies ∧
    (insertIgnoreShowSeats s showId l).screens = s.screens ∧
    (insertIgnoreShowSeats s showId l).users = s.users := by
  induction l generalizing s with
  | nil => exact ⟨rfl, rfl, rfl⟩
  | cons n ns ih =>
    unfold insertIgnoreShowSeats
    split_ifs with hc
    · exact ih _
    · exact ih s

theorem insertIgnoreShowSeats_of_no_show [Collation] (showId : Nat) (l : List String) (s : Store)
    (hm : showId ∉ s.shows.map (fun sh => sh.id)) : insertIgnoreShowSeats s showId l = s := by
  induction l with
  | nil => rfl
  | cons n ns ih =>
    unfold insertIgnoreShowSeats
    rw [if_neg (fun h => hm h.1)]
    exact ih

theorem seatNumbers_append {s t : Store} {m : Nat} {added : List SeatRow}
    (h : t.seats = s.seats ++ added) (ha : ∀ r ∈ added, r.movie_id = m) :
    t.seatNumbers m = s.seatNumbers m ++ added.map (fun r => r.seat_number) := by
  unfold Store.seatNumbers
  rw [h, List.filter_append, List.map_append]
  congr 2
  exact List.filter_eq_self.2 (fun r hr => by simp [ha r hr])

theorem seatNumbers_append_other {s t : Store} {m m' : Nat} {added : List SeatRow}
    (h : t.seats = s.seats ++ added) (ha : ∀ r ∈ added, r.movie_id = m) (hne : m' ≠ m) :
    t.seatNumbers m' = s.seatNumbers m' := by
  unfold Store.seatNumbers
  rw [h, List.filter_append]
  have : added.filter (fun r => decide (r.movie_id = m')) = [] :=
    List.filter_eq_nil_iff.2 (fun r hr => by simp [ha r hr, Ne.symm hne])
  rw [this, List.append_nil]

theorem showSeatNumbers_append {s t : Store} {sh : Nat} {added : List ShowSeatRow}
    (h : t.show_seats = s.show_seats ++ added) (ha : ∀ r ∈ added, r.show_id = sh) :
    t.showSeatNumbers sh = s.showSeatNumbers sh ++ added.map (fun r => r.seat_number) := by
  unfold Store.showSeatNumbers
  rw [h, List.filter_append, List.map_append]
  congr 2
  exact List.filter_eq_self.2 (fun r hr => by simp [ha r hr])

theorem showSeatNumbers_append_other {s t : Store} {sh sh' : Nat} {added : List ShowSeatRow}
    (h : t.show_seats = s.show_seats ++ added) (ha : ∀ r ∈ added, r.show_id = sh)
    (hne : sh' ≠ sh) : t.showSeatNumbers sh' = s.showSeatNumbers sh' := by
  unfold Store.showSeatNumbers
  rw [h, List.filter_append]
  have : added.filter (fun r => decide (r.show_id = sh')) = [] :=
    List.filter_eq_nil_iff.2 (fun r hr => by simp [ha r hr, Ne.symm hne])
  rw [this, List.append_nil]

theorem nodup_append_keepNew [Collation] {seen : List String} (l : List String) (h : seen.Nodup) :
    (seen ++ keepNew seen l).Nodup :=
  List.Nodup.append h (keepNew_nodup seen l)
    (fun _ hx hk => (mem_keepNew hk).2 (collMem_of_mem hx))

/-- What `INSERT IGNORE INTO seats` does to the table: the rows it had, then one available
seat of the movie for each proposed number the movie did not have (none when the movie does
not exist). -/
theorem insertIgnoreSeats_rows [Collation] (movieId : Nat) (l : List String) (s : Store) :
    ∃ added : List SeatRow,
      (insertIgnoreSeats s movieId l).seats = s.seats ++ added ∧
      (added.map (fun r => r.seat_number) = keepNew (s.seatNumbers movieId) l ∨ added = []) ∧
      (movieId ∈ s.movies.map (fun m => m.id) →
        added.map (fun r => r.seat_number) = keepNew (s.seatNumbers movieId) l) ∧
      (∀ r ∈ added, r.movie_id = movieId ∧ r.status = SeatStatus.available) := by
  by_cases hm : movieId ∈ s.movies.map (fun m => m.id)
  · obtain ⟨added, g1, g2, g3⟩ := insertIgnoreSeats_exact movieId l s hm
    exact ⟨added, g1, Or.inl g2, fun _ => g2, g3⟩
  · rw [insertIgnoreSeats_of_no_movie movieId l s hm]
    exact ⟨[], by simp, Or.inr rfl, fun h => absurd h hm, by simp⟩

/-- The same for `INSERT IGNORE INTO show_seats`. -/
theorem insertIgnoreShowSeats_rows [Collation] (showId : Nat) (l : List String) (s : Store) :
    ∃ added : List ShowSeatRow,
      (insertIgnoreShowSeats s showId l).show_seats = s.show_seats ++ added ∧
      (added.map (fun r => r.seat_number) = keepNew (s.showSeatNumbers showId) l ∨
        added = []) ∧
      (showId ∈ s.shows.map (fun sh => sh.id) →
        added.map (fun r => r.seat_number) = keepNew (s.showSeatNumbers showId) l) ∧
      (∀ r ∈ added, r.show_id = showId ∧ r.status = SeatStatus.available) := by
  by_cases hm : showId ∈ s.shows.map (fun sh => sh.id)
  · obtain ⟨added, g1, g2, g3⟩ := insertIgnoreShowSeats_exact showId l s hm
    exact ⟨added, g1, Or.inl g2, fun _ => g2, g3⟩
  · rw [insertIgnoreShowSeats_of_no_show showId l s hm]
    exact ⟨[], by simp, Or.inr rfl, fun h => absurd h hm, by simp⟩

/-- The insert of numbers the movie already has changes nothing in the table. -/
theorem insertIgnoreSeats_seats_of_present [Collation] (movieId : Nat) (l : List String) (s : Store)
    (h : ∀ x ∈ l, collMem x (s.seatNumbers movieId)) :
    (insertIgnoreSeats s movieId l).seats = s.seats := by
  obtain ⟨added, g1, g2, -, -⟩ := insertIgnoreSeats_rows movieId l s
  rw [keepNew_eq_nil h] at g2
  have : added = [] := by
    rcases g2 with g2 | g2
    · exact List.map_eq_nil_iff.1 g2
    · exact g2
  rw [g1, this, List.append_nil]

theorem insertIgnoreShowSeats_seats_of_present [Collation] (showId : Nat) (l : List String) (s : Store)
    (h : ∀ x ∈ l, collMem x (s.showSeatNumbers showId)) :
    (insertIgnoreShowSeats s showId l).show_seats = s.show_seats := by
  obtain ⟨added, g1, g2, -, -⟩ := insertIgnoreShowSeats_rows showId l s
  rw [keepNew_eq_nil h] at g2
  have : added = [] := by
    rcases g2 with g2 | g2
    · exact List.map_eq_nil_iff.1 g2
    · exact g2
  rw [g1, this, List.append_nil]

/-- The cases of `generateDefaultSeats`. -/
theorem generateDefaultSeats_cases [Collation] (f : Faults) (s : Store) (movieId : Nat)
    (config : Option (List RowSpec)) :
    (seatsToInsert config = [] ∧ generateDefaultSeats f s movieId config = some s) ∨
    (seatsToInsert config ≠ [] ∧ f Stmt.seatInsert = true ∧
      generateDefaultSeats f s movieId config = none) ∨
    (seatsToInsert config ≠ [] ∧ f Stmt.seatInsert = false ∧
      generateDefaultSeats f s movieId config =
        some (insertIgnoreSeats s movieId (seatsToInsert config))) := by
  unfold generateDefaultSeats
  by_cases h1 : seatsToInsert config = []
  · left; simp [h1]
  · have h1' : (seatsToInsert config).length ≠ 0 := fun h => h1 (List.length_eq_zero.1 h)
    by_cases h2 : f Stmt.seatInsert = true
    · right; left; simp [h1, h1', h2]
    · right; right
      simp only [Bool.not_eq_true] at h2
      simp [h1, h1', h2]

/-- The cases of `generateSeatsForShow` when it resolves. -/
theorem generateSeatsForShow_cases [Collation] {f : Faults} {s t : Store} {showId : Nat}
    (h : generateSeatsForShow f s showId = some t) :
    ∃ showRow screen, showRow ∈ s.shows ∧ showRow.id = showId ∧
      (s.shows.filter (fun sh => sh.id = showId)).head? = some showRow ∧
      (s.screens.filter (fun sc => sc.id = showRow.screen_id)).head? = some screen ∧
      t = insertIgnoreShowSeats s showId (showSeatLabels screen.row_count screen.col_count) := by
  unfold generateSeatsForShow at h
  by_cases h1 : f Stmt.showSelect = true
  · simp [h1] at h
  cases hsh : (s.shows.filter (fun sh => sh.id = showId)).head? with
  | none => simp [hsh] at h
  | some showRow =>
    have hmem := List.mem_of_mem_head? hsh
    rw [List.mem_filter] at hmem
    by_cases h2 : f Stmt.screenSelect = true
    · simp [h2, hsh] at h
    cases hsc : (s.screens.filter (fun sc => sc.id = showRow.screen_id)).head? with
    | none => simp [hsh, hsc] at h
    | some screen =>
      refine ⟨showRow, screen, hmem.1, by simpa using hmem.2, rfl, hsc, ?_⟩
      by_cases h3 : showSeatLabels screen.row_count screen.col_count = []
      · simp [h1, h2, hsh, hsc, h3] at h
        rw [h3, ← h]
        rfl
      · by_cases h4 : f Stmt.showSeatInsert = true
        · simp [h1, h2, hsh, hsc, h3, h4] at h
        · simp [h1, h2, hsh, hsc, h3, h4] at h
          exact h.symm

/-- Seat generation keeps the seat numbers of the movie pairwise distinct. -/
theorem generateSeats_nodup [Collation] (f : Faults) (s : Store) (movieId : Nat)
    (specs : Option (List RowSpec)) (h : (s.seatNumbers movieId).Nodup) :
    ((generateSeats f s movieId specs).2.seatNumbers movieId).Nodup := by
  unfold generateSeats
  rcases generateDefaultSeats_cases f s movieId specs with h1 | h1 | h1
  · rw [h1.2]; exact h
  · rw [h1.2.2]; exact h
  · rw [h1.2.2]
    obtain ⟨added, g1, g2, -, g4⟩ := insertIgnoreSeats_rows movieId (seatsToInsert specs) s
    rw [seatNumbers_append g1 (fun r hr => (g4 r hr).1)]
    rcases g2 with g2 | g2
    · rw [g2]; exact nodup_append_keepNew _ h
    · rw [g2]; simpa using h

/-- After a successful seat generation every proposed number of an existing movie is a seat
of the movie, and a second generation with the same specs adds no row. -/
theorem generateSeats_again [Collation] (f1 f2 : Faults) (s : Store) (movieId : Nat)
    (specs : Option (List RowSpec))
    (h : (generateSeats f1 s movieId specs).1 = Response.success) :
    (generateSeats f2 (generateSeats f1 s movieId specs).2 movieId specs).2.seats =
      (generateSeats f1 s movieId specs).2.seats := by
  have key : ∀ t : Store, (∀ x ∈ seatsToInsert specs,
      movieId ∈ t.movies.map (fun m => m.id) → collMem x (t.seatNumbers movieId)) →
      (generateSeats f2 t movieId specs).2.seats = t.seats := by
    intro t ht
    unfold generateSeats
    rcases generateDefaultSeats_cases f2 t movieId specs with h1 | h1 | h1
    · rw [h1.2]
    · rw [h1.2.2]
    · rw [h1.2.2]
      by_cases hm : movieId ∈ t.movies.map (fun m => m.id)
      · exact insertIgnoreSeats_seats_of_present movieId _ t (fun x hx => ht x hx hm)
      · rw [insertIgnoreSeats_of_no_movie movieId _ t hm]
  apply key
  intro x hx
  unfold generateSeats at h ⊢
  rcases generateDefaultSeats_cases f1 s movieId specs with h1 | h1 | h1
  · rw [h1.1] at hx; cases hx
  · rw [h1.2.2] at h; cases h
  · rw [h1.2.2]
    intro hm
    rw [(insertIgnoreSeats_frame movieId _ s).1] at hm
    obtain ⟨added, g1, -, g3, g4⟩ := insertIgnoreSeats_rows movieId (seatsToInsert specs) s
    rw [seatNumbers_append g1 (fun r hr => (g4 r hr).1), g3 hm, collMem_append]
    exact mem_keepNew_of_mem hx

/-- The helper `generateSeatsForShow` keeps the seat numbers of the show pairwise distinct. -/
theorem generateSeatsForShow_nodup [Collation] {f : Faults} {s t : Store} {showId : Nat}
    (ht : generateSeatsForShow f s showId = some t) (h : (s.showSeatNumbers showId).Nodup) :
    (t.showSeatNumbers showId).Nodup := by
  obtain ⟨showRow, screen, -, -, -, -, rfl⟩ := generateSeatsForShow_cases ht
  obtain ⟨added, g1, g2, -, g4⟩ :=
    insertIgnoreShowSeats_rows showId (showSeatLabels screen.row_count screen.col_count) s
  rw [showSeatNumbers_append g1 (fun r hr => (g4 r hr).1)]
  rcases g2 with g2 | g2
  · rw [g2]; exact nodup_append_keepNew _ h
  · rw [g2]; simpa using h

/-- A second run of `generateSeatsForShow` adds no row. -/
theorem generateSeatsForShow_again [Collation] {f1 f2 : Faults} {s t u : Store} {showId : Nat}
    (ht : generateSeatsForShow f1 s showId = some t)
    (hu : generateSeatsForShow f2 t showId = some u) : u.show_seats = t.show_seats := by
  obtain ⟨showRow, screen, hmem, hid, h1, h2, rfl⟩ := generateSeatsForShow_cases ht
  obtain ⟨showRow', screen', -, -, h1', h2', rfl⟩ := generateSeatsForShow_cases hu
  have hshows := (insertIgnoreShowSeats_spec showId
    (showSeatLabels screen.row_count screen.col_count) s).choose_spec.2.2.2.2.2.1
  have hscreens := (insertIgnoreShowSeats_frame showId
    (showSeatLabels screen.row_count screen.col_count) s).2.1
  rw [hshows, h1] at h1'
  cases h1'
  rw [hscreens, h2] at h2'
  cases h2'
  apply insertIgnoreShowSeats_seats_of_present
  intro x hx
  have hm : showId ∈ s.shows.map (fun sh => sh.id) := List.mem_map.2 ⟨showRow, hmem, hid⟩
  obtain ⟨added, g1, -, g3, g4⟩ :=
    insertIgnoreShowSeats_rows showId (showSeatLabels screen.row_count screen.col_count) s
  rw [showSeatNumbers_append g1 (fun r hr => (g4 r hr).1), g3 hm, collMem_append]
  exact mem_keepNew_of_mem hx

theorem head?_filter_of_unique {α : Type} (l : List α) (p : α → Bool) (a : α) (ha : a ∈ l)
    (hp : p a = true) (hu : ∀ b ∈ l, p b = true → b = a) : (l.filter p).head? = some a := by
  induction l with
  | nil => cases ha
  | cons x xs ih =>
    by_cases hx : p x = true
    · rw [List.filter_cons_of_pos hx, List.head?_cons, hu x (List.mem_cons_self _ _) hx]
    · rw [List.filter_cons_of_neg hx]
      rcases List.mem_cons.1 ha with rfl | ha'
      · exact absurd hp hx
      · exact ih ha' (fun b hb => hu b (List.mem_cons_of_mem _ hb))

/-- The screen row found by id, when the ids of the screens are pairwise distinct. -/
theorem screen_lookup {s : Store} {screen : ScreenRow}
    (huniq : (s.screens.map (fun sc => sc.id)).Nodup) (hsc : screen ∈ s.screens) :
    (s.screens.filter (fun sc => sc.id = screen.id)).head? = some screen := by
  apply head?_filter_of_unique _ _ _ hsc (by simp)
  intro b hb hpb
  exact List.inj_on_of_nodup_map huniq hb hsc (by simpa using hpb)

theorem withShow_lookup {s : Store} (hfresh : s.showIdsFresh) (m sc : Nat) (d t : String)
    (fmt : Option String) :
    ((withShow s m sc d t fmt).shows.filter (fun sh => sh.id = s.nextShowId)).head? =
      some { id := s.nextShowId, movie_id := m, screen_id := sc, show_date := d,
             show_time := t, format := fmt.getD "2D" } := by
  apply head?_filter_of_unique
  · simp [withShow]
  · simp
  · intro b hb hpb
    simp only [withShow, List.mem_append, List.mem_singleton] at hb
    rcases hb with hb | hb
    · have := hfresh b hb
      simp only [decide_eq_true_eq] at hpb
      omega
    · exact hb

/-- A call of `createShow` that answers with a show id: the id is the counter, the show row
is appended, and the seats are inserted from the rows and columns of the screen found by the
request's screen id. -/
theorem createShow_created [Collation] {f : Faults} {s s' : Store} {movieId : Option Nat}
    {req : ShowRequest} {id : Nat} (hfresh : s.showIdsFresh)
    (h : createShow f s movieId req = (Response.createdShow id, s')) :
    ∃ m sc d t screen, movieId = some m ∧ req.screen_id = some sc ∧ req.show_date = some d ∧
      req.show_time = some t ∧ id = s.nextShowId ∧
      (s.screens.filter (fun r => r.id = sc)).head? = some screen ∧
      s' = insertIgnoreShowSeats (withShow s m sc d t req.format) s.nextShowId
        (showSeatLabels screen.row_count screen.col_count) := by
  rcases req with ⟨screen, date, time, format⟩
  rcases screen with _ | screen_id
  · simp [createShow, truthyNat] at h
  rcases date with _ | show_date
  · simp [createShow, truthyStr] at h
  rcases time with _ | show_time
  · simp [createShow, truthyStr] at h
  by_cases h0 : (!truthyNat (some screen_id) || !truthyStr (some show_date) ||
      !truthyStr (some show_time)) = true
  · simp only [createShow, h0, if_true] at h; cases h
  by_cases h1 : f Stmt.getConnection = true
  · simp only [createShow, h0, h1, if_true] at h; simp at h
  by_cases h2 : f Stmt.showInsert = true
  · simp only [createShow, h0, h1, h2, if_true] at h; simp at h
  rcases movieId with _ | movie_id
  · simp only [createShow, h0, h1, h2] at h; simp at h
  by_cases h3 : showExists s movie_id screen_id show_date show_time = true
  · simp only [createShow, h0, h1, h2, h3, if_true] at h; simp at h
  by_cases h4 : (!showForeignKeysOk s movie_id screen_id) = true
  · simp only [createShow, h0, h1, h2, h3, h4, if_true] at h; simp at h
  simp only [createShow, h0, h1, h2, h3, h4] at h
  simp only [Bool.false_eq_true, if_false] at h
  split at h
  · rename_i s2 hs2
    simp only [Prod.mk.injEq, Response.createdShow.injEq] at h
    obtain ⟨showRow, scr, -, -, g1, g2, g3⟩ := generateSeatsForShow_cases hs2
    have hl := withShow_lookup hfresh movie_id screen_id show_date show_time format
    unfold withShow at hl
    rw [hl] at g1
    cases g1
    exact ⟨movie_id, screen_id, show_date, show_time, scr, rfl, rfl, rfl, rfl, h.1.symm, g2,
      by rw [← h.2, g3]; rfl⟩
  · simp at h

/-- The seat numbers of the new show after a call of `createShow` that answers with a show
id, when no row of `show_seats` refers to a show that does not exist. -/
theorem createShow_seatNumbers [Collation] {f : Faults} {s s' : Store} {movieId : Option Nat}
    {req : ShowRequest} {id : Nat} {screen : ScreenRow} (hfresh : s.showIdsFresh)
    (hfk : ∀ r ∈ s.show_seats, r.show_id ∈ s.shows.map (fun sh => sh.id))
    (huniq : (s.screens.map (fun sc => sc.id)).Nodup) (hsc : screen ∈ s.screens)
    (hreq : req.screen_id = some screen.id)
    (h : createShow f s movieId req = (Response.createdShow id, s')) :
    id = s.nextShowId ∧
    s'.showSeatNumbers id = keepNew [] (showSeatLabels screen.row_count screen.col_count) ∧
    (∀ r ∈ s'.show_seats, r.show_id = id → r.status = SeatStatus.available) ∧
    (∃ added, s'.show_seats = s.show_seats ++ added ∧ ∀ r ∈ added, r.show_id = id) := by
  obtain ⟨m, sc, d, t, screen', -, h2, -, -, h5, h6, h7⟩ := createShow_created hfresh h
  rw [hreq] at h2
  cases h2
  rw [screen_lookup huniq hsc] at h6
  cases h6
  have hm : s.nextShowId ∈ (withShow s m screen.id d t req.format).shows.map (fun sh => sh.id) := by
    simp [withShow]
  obtain ⟨added, g1, g2, g3⟩ := insertIgnoreShowSeats_exact s.nextShowId
    (showSeatLabels screen.row_count screen.col_count) (withShow s m screen.id d t req.format) hm
  have hold : ∀ r ∈ s.show_seats, r.show_id ≠ s.nextShowId := by
    intro r hr he
    obtain ⟨sh, hsh, hid⟩ := List.mem_map.1 (hfk r hr)
    have := hfresh sh hsh
    omega
  have hnone : (withShow s m screen.id d t req.format).showSeatNumbers s.nextShowId = [] := by
    unfold Store.showSeatNumbers
    have : (withShow s m screen.id d t req.format).show_seats = s.show_seats := rfl
    rw [this, List.filter_eq_nil_iff.2 (fun r hr => by simpa using hold r hr)]
    rfl
  rw [hnone] at g2
  subst h5 h7
  refine ⟨rfl, ?_, ?_, ⟨added, g1, fun r hr => (g3 r hr).1⟩⟩
  · rw [showSeatNumbers_append g1 (fun r hr => (g3 r hr).1), hnone, List.nil_append, g2]
  · intro r hr hid
    rw [g1, List.mem_append] at hr
    rcases hr with hr | hr
    · exact absurd hid (hold r hr)
    · exact (g3 r hr).2

theorem singleton_ofNat_eq_fromCharCode (n : Nat) (h : n < 0xD800) :
    String.singleton (Char.ofNat n) = fromCharCode n := by
  apply String.ext
  rw [fromCharCode_data n h]
  rfl

theorem mem_showSeatLabels {rows cols : Int} {x : String} (h : 65 + rows.toNat ≤ 0xD800) :
    x ∈ showSeatLabels rows cols ↔
      ∃ r c : Nat, (r : Int) < rows ∧ 1 ≤ c ∧ (c : Int) ≤ cols ∧
        x = String.singleton (Char.ofNat (65 + r)) ++ toString c := by
  rw [showSeatLabels_eq_gridLabels, mem_gridLabels]
  constructor
  · rintro ⟨i, j, hi, hj, rfl⟩
    exact ⟨i, j + 1, by omega, by omega, by omega,
      by rw [singleton_ofNat_eq_fromCharCode _ (by omega)]⟩
  · rintro ⟨r, c, hr, hc1, hc2, rfl⟩
    refine ⟨r, c - 1, by omega, by omega, ?_⟩
    have : c - 1 + 1 = c := by omega
    rw [this, singleton_ofNat_eq_fromCharCode _ (by omega)]

theorem isUpper_ofNat_letter (r : Nat) (h : r < 26) : (Char.ofNat (65 + r)).isUpper = true := by
  interval_cases r <;> rfl

theorem isUpper_of_isDigit {c : Char} (h : c.isDigit = true) : c.isUpper = false := by
  simp only [Char.isDigit, Char.isUpper, Bool.and_eq_true, decide_eq_true_eq] at h ⊢
  simp only [Bool.and_eq_false_iff, decide_eq_false_iff_not]
  left
  intro h1
  have h2 := h.2
  have := Nat.le_trans (show (65 : UInt32).toNat ≤ c.val.toNat from h1)
    (show c.val.toNat ≤ (57 : UInt32).toNat from h2)
  revert this
  decide

/-- A row letter from A to Z followed by a decimal numeral has the form letters, digits. -/
theorem lettersThenDigits_label (r n : Nat) (h : r < 26) :
    lettersThenDigits (fromCharCode (65 + r) ++ toString n) = true := by
  obtain ⟨hne, hall⟩ := repr_digits n
  have hdata : (fromCharCode (65 + r) ++ toString n).data =
      Char.ofNat (65 + r) :: (toString n).data := by
    rw [String.data_append, fromCharCode_data _ (by omega)]
    rfl
  obtain ⟨d, ds, hds⟩ := List.exists_cons_of_ne_nil hne
  have hd : d.isUpper = false :=
    isUpper_of_isDigit (hall d (by rw [hds]; exact List.mem_cons_self _ _))
  unfold lettersThenDigits
  simp only [hdata, hds, List.takeWhile_cons, List.dropWhile_cons, isUpper_ofNat_letter r h,
    hd, if_true]
  simp only [Bool.false_eq_true, if_false, List.isEmpty_cons, Bool.not_false, Bool.true_and]
  rw [← hds]
  exact List.all_eq_true.2 hall

/-- A call of `createShow` that answers Conflict leaves the store as it was. -/
theorem createShow_conflict_store [Collation] (f : Faults) (s : Store) (movieId : Option Nat)
    (req : ShowRequest) (h : (createShow f s movieId req).1 = Response.conflictShow) :
    (createShow f s movieId req).2 = s := by
  rcases req with ⟨screen, date, time, format⟩
  rcases screen with _ | screen_id
  · simp [createShow, truthyNat]
  rcases date with _ | show_date
  · simp [createShow, truthyStr]
  rcases time with _ | show_time
  · simp [createShow, truthyStr]
  by_cases h0 : (!truthyNat (some screen_id) || !truthyStr (some show_date) ||
      !truthyStr (some show_time)) = true
  · simp only [createShow, h0, if_true]
  by_cases h1 : f Stmt.getConnection = true
  · simp only [createShow, h0, h1, if_true]; simp
  by_cases h2 : f Stmt.showInsert = true
  · simp only [createShow, h0, h1, h2, if_true]; simp
  rcases movieId with _ | movie_id
  · simp only [createShow, h0, h1, h2]; simp
  by_cases h3 : showExists s movie_id screen_id show_date show_time = true
  · simp only [createShow, h0, h1, h2, h3, if_true]; simp
  by_cases h4 : (!showForeignKeysOk s movie_id screen_id) = true
  · simp only [createShow, h0, h1, h2, h3, h4, if_true]; simp
  exfalso
  simp only [createShow, h0, h1, h2, h3, h4] at h
  simp only [Bool.false_eq_true, if_false] at h
  split at h
  · cases h
  · cases h

theorem lexLe_total (x y : List Char) : lexLe x y = true ∨ lexLe y x = true := by
  induction x generalizing y with
  | nil => left; rfl
  | cons a as ih =>
    cases y with
    | nil => right; rfl
    | cons b bs =>
      simp only [lexLe, Bool.or_eq_true, Bool.and_eq_true, decide_eq_true_eq]
      rcases Nat.lt_trichotomy a.toNat b.toNat with h | h | h
      · exact Or.inl (Or.inl h)
      · have hab : a = b := Char.ext (UInt32.ext h)
        rcases ih bs with h' | h'
        · exact Or.inl (Or.inr ⟨hab, h'⟩)
        · exact Or.inr (Or.inr ⟨hab.symm, h'⟩)
      · exact Or.inr (Or.inl h)

theorem lexLe_trans {x y z : List Char} (h1 : lexLe x y = true) (h2 : lexLe y z = true) :
    lexLe x z = true := by
  induction x generalizing y z with
  | nil => rfl
  | cons a as ih =>
    cases y with
    | nil => simp [lexLe] at h1
    | cons b bs =>
      cases z with
      | nil => simp [lexLe] at h2
      | cons c cs =>
        simp only [lexLe, Bool.or_eq_true, Bool.and_eq_true, decide_eq_true_eq] at h1 h2 ⊢
        rcases h1 with h1 | ⟨rfl, h1⟩
        · rcases h2 with h2 | ⟨rfl, h2⟩
          · exact Or.inl (Nat.lt_trans h1 h2)
          · exact Or.inl h1
        · rcases h2 with h2 | ⟨rfl, h2⟩
          · exact Or.inl h2
          · exact Or.inr ⟨rfl, ih h1 h2⟩

theorem weightLe_total (x y : List Nat) : weightLe x y = true ∨ weightLe y x = true := by
  induction x generalizing y with
  | nil => left; rfl
  | cons a as ih =>
    cases y with
    | nil => right; rfl
    | cons b bs =>
      simp only [weightLe, Bool.or_eq_true, Bool.and_eq_true, decide_eq_true_eq]
      rcases Nat.lt_trichotomy a b with h | h | h
      · exact Or.inl (Or.inl h)
      · rcases ih bs with h' | h'
        · exact Or.inl (Or.inr ⟨h, h'⟩)
        · exact Or.inr (Or.inr ⟨h.symm, h'⟩)
      · exact Or.inr (Or.inl h)

theorem weightLe_trans {x y z : List Nat} (h1 : weightLe x y = true)
    (h2 : weightLe y z = true) : weightLe x z = true := by
  induction x generalizing y z with
  | nil => rfl
  | cons a as ih =>
    cases y with
    | nil => simp [weightLe] at h1
    | cons b bs =>
      cases z with
      | nil => simp [weightLe] at h2
      | cons c cs =>
        simp only [weightLe, Bool.or_eq_true, Bool.and_eq_true, decide_eq_true_eq] at h1 h2 ⊢
        rcases h1 with h1 | ⟨rfl, h1⟩
        · rcases h2 with h2 | ⟨rfl, h2⟩
          · exact Or.inl (Nat.lt_trans h1 h2)
          · exact Or.inl h1
        · rcases h2 with h2 | ⟨rfl, h2⟩
          · exact Or.inl h2
          · exact Or.inr ⟨rfl, ih h1 h2⟩

theorem seatNumberLeTotal [Collation] :
    IsTotal SeatRow (fun a b =>
      weightLe (Collation.key a.seat_number) (Collation.key b.seat_number) = true) :=
  ⟨fun a b => weightLe_total _ _⟩

theorem seatNumberLeTrans [Collation] :
    IsTrans SeatRow (fun a b =>
      weightLe (Collation.key a.seat_number) (Collation.key b.seat_number) = true) :=
  ⟨fun _ _ _ h1 h2 => weightLe_trans h1 h2⟩

theorem showSeatNumberLeTotal [Collation] :
    IsTotal ShowSeatRow (fun a b =>
      weightLe (Collation.key a.seat_number) (Collation.key b.seat_number) = true) :=
  ⟨fun a b => weightLe_total _ _⟩

theorem showSeatNumberLeTrans [Collation] :
    IsTrans ShowSeatRow (fun a b =>
      weightLe (Collation.key a.seat_number) (Collation.key b.seat_number) = true) :=
  ⟨fun _ _ _ h1 h2 => weightLe_trans h1 h2⟩

theorem doUpdate_response [Collation] (f : Faults) (movieId total : Nat) (l : List SeatPatch) (i : Nat)
    (s : Store) :
    (doUpdate f movieId total l i s).1 = Response.updated total ∨
    (doUpdate f movieId total l i s).1 = Response.failure "Failed to update seats" := by
  induction l generalizing i s with
  | nil => exact Or.inl rfl
  | cons u us ih =>
    unfold doUpdate
    split_ifs
    · exact Or.inr rfl
    · exact ih _ _

theorem doNext_response [Collation] (f : Faults) (showId total : Nat) (l : List SeatPatch) (i : Nat)
    (s : Store) :
    (doNext f showId total l i s).1 = Response.updated total ∨
    (doNext f showId total l i s).1 = Response.failure "Failed to update seats" := by
  induction l generalizing i s with
  | nil => exact Or.inl rfl
  | cons u us ih =>
    unfold doNext
    split_ifs
    · exact Or.inr rfl
    · exact ih _ _

theorem doUpdate_noFaults [Collation] (movieId total : Nat) (l : List SeatPatch) (i : Nat) (s : Store) :
    (doUpdate noFaults movieId total l i s).1 = Response.updated total := by
  induction l generalizing i s with
  | nil => rfl
  | cons u us ih =>
    unfold doUpdate
    simp only [noFaults, Bool.false_eq_true, if_false]
    exact ih _ _

theorem doNext_noFaults [Collation] (showId total : Nat) (l : List SeatPatch) (i : Nat) (s : Store) :
    (doNext noFaults showId total l i s).1 = Response.updated total := by
  induction l generalizing i s with
  | nil => rfl
  | cons u us ih =>
    unfold doNext
    simp only [noFaults, Bool.false_eq_true, if_false]
    exact ih _ _

/-- Rows with pairwise distinct numbers that cover a list of pairwise distinct numbers are as
many as the numbers. -/
theorem length_named {α : Type} (rows : List α) (num : α → String) (names : List String)
    (hrows : (rows.map num).Nodup) (hnames : names.Nodup)
    (hcover : ∀ n ∈ names, n ∈ rows.map num) :
    (rows.filter (fun r => decide (num r ∈ names))).length = names.length := by
  have h1 : ((rows.filter (fun r => decide (num r ∈ names))).map num).Nodup :=
    (List.filter_sublist rows).map num |>.nodup hrows
  have h2 : ((rows.filter (fun r => decide (num r ∈ names))).map num).Perm names := by
    rw [List.perm_ext_iff_of_nodup h1 hnames]
    intro n
    constructor
    · intro hn
      obtain ⟨r, hr, rfl⟩ := List.mem_map.1 hn
      simpa using (List.mem_filter.1 hr).2
    · intro hn
      obtain ⟨r, hr, rfl⟩ := List.mem_map.1 (hcover n hn)
      exact List.mem_map.2 ⟨r, List.mem_filter.2 ⟨hr, by simpa using hn⟩, rfl⟩
  rw [← h2.length_eq, List.length_map]

theorem seatsNamed_eq (s : Store) (movieId : Nat) (l : List SeatPatch) :
    s.seatsNamed movieId l =
      (s.seats.filter (fun r => r.movie_id = movieId)).filter
        (fun r => decide (r.seat_number ∈ l.map (fun u => u.seat_number))) := by
  unfold Store.seatsNamed
  rw [List.filter_filter]
  congr 1
  funext r
  simp only [Bool.decide_and]
  exact Bool.and_comm _ _

theorem showSeatsNamed_eq (s : Store) (showId : Nat) (l : List SeatPatch) :
    s.showSeatsNamed showId l =
      (s.show_seats.filter (fun r => r.show_id = showId)).filter
        (fun r => decide (r.seat_number ∈ l.map (fun u => u.seat_number))) := by
  unfold Store.showSeatsNamed
  rw [List.filter_filter]
  congr 1
  funext r
  simp only [Bool.decide_and]
  exact Bool.and_comm _ _

theorem splitComma_of_no_comma (a : List Char) (h : ',' ∉ a) : splitComma a = [a] := by
  induction a with
  | nil => rfl
  | cons c cs ih =>
    unfold splitComma
    rw [if_neg (fun hc => h (by rw [hc]; exact List.mem_cons_self _ _))]
    rw [ih (fun hc => h (List.mem_cons_of_mem _ hc))]

theorem splitComma_append_comma (a rest : List Char) (h : ',' ∉ a) :
    splitComma (a ++ ',' :: rest) = a :: splitComma rest := by
  induction a with
  | nil =>
    rw [List.nil_append]
    conv_lhs => unfold splitComma
    rw [if_pos rfl]
  | cons c cs ih =>
    rw [List.cons_append]
    conv_lhs => unfold splitComma
    rw [if_neg (fun hc => h (by rw [hc]; exact List.mem_cons_self _ _))]
    rw [ih (fun hc => h (List.mem_cons_of_mem _ hc))]

theorem dropWhile_of_head {p : Char → Bool} {x : List Char}
    (h : ∀ c, x.head? = some c → p c = false) : x.dropWhile p = x := by
  cases x with
  | nil => rfl
  | cons c cs =>
    rw [List.dropWhile_cons, if_neg]
    rw [h c rfl]
    exact Bool.false_ne_true

/-- A string without whitespace at its ends is its own trimmed string, also after a prefix
of whitespace. -/
theorem jsTrim_clean (pre x : List Char) (hpre : ∀ c ∈ pre, isJsWhitespace c = true)
    (hh : ∀ c, x.head? = some c → isJsWhitespace c = false)
    (hl : ∀ c, x.getLast? = some c → isJsWhitespace c = false) : jsTrim (pre ++ x) = x := by
  have h1 : (pre ++ x).dropWhile isJsWhitespace = x := by
    induction pre with
    | nil => exact dropWhile_of_head hh
    | cons c cs ih =>
      rw [List.cons_append, List.dropWhile_cons, if_pos (hpre c (List.mem_cons_self _ _))]
      exact ih (fun d hd => hpre d (List.mem_cons_of_mem _ hd))
  unfold jsTrim
  rw [h1, dropWhile_of_head, List.reverse_reverse]
  intro c hc
  rw [List.head?_reverse] at hc
  exact hl c hc

theorem seatList_mk (cs : List Char) :
    seatList (String.mk cs) =
      ((((splitComma cs).map jsTrim).filter (fun p => !p.isEmpty)).map String.mk) := rfl

theorem joinSeats_data (x y : String) (rest : List String) :
    (joinSeats (x :: y :: rest)).data =
      x.data ++ ',' :: ([' '] ++ (joinSeats (y :: rest)).data) := by
  show (x ++ ", " ++ joinSeats (y :: rest)).data = _
  rw [String.data_append, String.data_append]
  simp

/-- The parsing of a joined list after a prefix of whitespace. -/
theorem seatList_joinSeats_aux (ids : List String) (x : String) (pre : List Char)
    (hpre : ∀ c ∈ pre, isJsWhitespace c = true ∧ c ≠ ',')
    (h : ∀ x' ∈ x :: ids, x' ≠ "" ∧ ',' ∉ x'.data ∧
      (∀ c, x'.data.head? = some c → isJsWhitespace c = false) ∧
      (∀ c, x'.data.getLast? = some c → isJsWhitespace c = false)) :
    seatList (String.mk (pre ++ (joinSeats (x :: ids)).data)) = x :: ids := by
  induction ids generalizing x pre with
  | nil =>
    obtain ⟨hne, hc, hh, hl⟩ := h x (List.mem_cons_self _ _)
    have hnc : ',' ∉ pre ++ x.data := by
      intro hm
      rcases List.mem_append.1 hm with hm | hm
      · exact (hpre _ hm).2 rfl
      · exact hc hm
    have hx : x.data ≠ [] := fun he => hne (String.ext he)
    rw [seatList_mk]
    show List.map String.mk (List.filter (fun p => !p.isEmpty)
      (List.map jsTrim (splitComma (pre ++ x.data)))) = [x]
    rw [splitComma_of_no_comma _ hnc]
    simp only [List.map_cons, List.map_nil,
      jsTrim_clean pre x.data (fun c hc' => (hpre c hc').1) hh hl]
    cases hd : x.data with
    | nil => exact absurd hd hx
    | cons c cs =>
      simp only [List.filter_cons, List.isEmpty_cons, Bool.not_false, if_true, List.filter_nil,
        List.map_cons, List.map_nil]
      rw [← hd]
  | cons y rest ih =>
    obtain ⟨hne, hc, hh, hl⟩ := h x (List.mem_cons_self _ _)
    have hnc : ',' ∉ pre ++ x.data := by
      intro hm
      rcases List.mem_append.1 hm with hm | hm
      · exact (hpre _ hm).2 rfl
      · exact hc hm
    have hx : x.data ≠ [] := fun he => hne (String.ext he)
    have ih' := ih y [' '] (by
      intro c hc'
      rw [List.mem_singleton] at hc'
      subst hc'
      exact ⟨by decide, by decide⟩) (fun x' hx' => h x' (List.mem_cons_of_mem _ hx'))
    rw [seatList_mk] at ih' ⊢
    rw [joinSeats_data, ← List.append_assoc, splitComma_append_comma _ _ hnc]
    simp only [List.map_cons, jsTrim_clean pre x.data (fun c hc' => (hpre c hc').1) hh hl]
    cases hd : x.data with
    | nil => exact absurd hd hx
    | cons c cs =>
      simp only [List.filter_cons, List.isEmpty_cons, Bool.not_false, if_true, List.map_cons]
      rw [← hd, ih']

theorem reachable_runCalls [Collation] (s0 : Store) (calls : List BookingCall) {s : Store}
    (h : BookingReachable s0 s) : BookingReachable s0 (runCalls s calls) := by
  induction calls generalizing s with
  | nil => exact h
  | cons c rest ih =>
    cases c with
    | create now f req => exact ih (BookingReachable.create now f req h)
    | delete f bookingId => exact ih (BookingReachable.delete f bookingId h)

theorem splitColon_of_no_colon (a : List Char) (h : ':' ∉ a) : splitColon a = [a] := by
  induction a with
  | nil => rfl
  | cons c cs ih =>
    unfold splitColon
    rw [if_neg (fun hc => h (by rw [hc]; exact List.mem_cons_self _ _))]
    rw [ih (fun hc => h (List.mem_cons_of_mem _ hc))]

theorem splitColon_append_colon (a rest : List Char) (h : ':' ∉ a) :
    splitColon (a ++ ':' :: rest) = a :: splitColon rest := by
  induction a with
  | nil =>
    rw [List.nil_append]
    conv_lhs => unfold splitColon
    rw [if_pos rfl]
  | cons c cs ih =>
    rw [List.cons_append]
    conv_lhs => unfold splitColon
    rw [if_neg (fun hc => h (by rw [hc]; exact List.mem_cons_self _ _))]
    rw [ih (fun hc => h (List.mem_cons_of_mem _ hc))]

theorem splitColon_ne_nil (cs : List Char) : splitColon cs ≠ [] := by
  cases cs with
  | nil => simp [splitColon]
  | cons c cs =>
    unfold splitColon
    split_ifs
    · simp
    · split <;> simp

theorem displayHour_of_hour (h : Nat) (hr : h ≤ 23) :
    displayHour (some (h : Int)) = toString (if h % 12 = 0 then 12 else h % 12) := by
  interval_cases h <;> rfl

theorem ampm_of_hour (h : Nat) :
    ampm (some (h : Int)) = if h < 12 then "AM" else "PM" := by
  show (if (h : Int) ≥ 12 then "PM" else "AM") = _
  by_cases hh : h < 12
  · have h1 : ¬ ((h : Int) ≥ 12) := by omega
    rw [if_pos hh, if_neg h1]
  · have h1 : (h : Int) ≥ 12 := by omega
    rw [if_neg hh, if_pos h1]

/-- The time string with the hour field `H`, the minutes field `M` and a rest that is empty
or starts with a colon. -/
theorem formatTime_fields (H M : String) (rest : List Char) (hH : ':' ∉ H.data)
    (hM : ':' ∉ M.data) (hrest : rest = [] ∨ ∃ r, rest = ':' :: r) :
    formatTime (some (String.mk (H.data ++ ':' :: M.data ++ rest))) =
      displayHour (parseInt10 H.data) ++ ":" ++ (if M = "" then "00" else M) ++ " " ++
        ampm (parseInt10 H.data) := by
  have hne : truthyStr (some (String.mk (H.data ++ ':' :: M.data ++ rest))) = true := by
    rw [truthyStr_some]
    intro he
    have := congrArg String.data he
    simp at this
  have hparts : ∃ ps, splitColon (H.data ++ ':' :: M.data ++ rest) = H.data :: M.data :: ps := by
    rw [List.append_assoc, List.cons_append, splitColon_append_colon _ _ hH]
    rcases hrest with h | ⟨r, h⟩
    · subst h
      rw [List.append_nil, splitColon_of_no_colon _ hM]
      exact ⟨[], rfl⟩
    · subst h
      rw [splitColon_append_colon _ _ hM]
      exact ⟨splitColon r, rfl⟩
  obtain ⟨ps, hps⟩ := hparts
  unfold formatTime
  simp only [hne, Bool.not_true, Bool.false_eq_true, if_false, hps, List.headD_cons,
    List.get?_cons_succ, List.get?_cons_zero]
  by_cases hMe : M = ""
  · rw [if_pos hMe]
    subst hMe
    rfl
  · have hMd : M.data ≠ [] := fun he => hMe (String.ext he)
    rw [if_neg hMe]
    cases hd : M.data with
    | nil => exact absurd hd hMd
    | cons c cs =>
      simp only [List.isEmpty_cons, Bool.false_eq_true, if_false]
      rw [← hd]

theorem lexLe_antisymm {x y : List Char} (h1 : lexLe x y = true) (h2 : lexLe y x = true) :
    x = y := by
  induction x generalizing y with
  | nil =>
    cases y with
    | nil => rfl
    | cons b bs => simp [lexLe] at h2
  | cons a as ih =>
    cases y with
    | nil => simp [lexLe] at h1
    | cons b bs =>
      simp only [lexLe, Bool.or_eq_true, Bool.and_eq_true, decide_eq_true_eq] at h1 h2
      rcases h1 with h1 | ⟨rfl, h1⟩
      · rcases h2 with h2 | ⟨rfl, h2⟩
        · omega
        · omega
      · rcases h2 with h2 | ⟨-, h2⟩
        · omega
        · rw [ih h1 h2]

theorem compareSeats_le_iff (a b : String) : compareSeats a b ≤ 0 ↔ rowThenNumberLe a b := by
  unfold compareSeats rowThenNumberLe
  by_cases he : (splitSeat a).1 = (splitSeat b).1
  · rw [if_pos he]
    constructor
    · intro h
      exact Or.inr ⟨he, by omega⟩
    · rintro (⟨hne, -⟩ | ⟨-, h⟩)
      · exact absurd he hne
      · omega
  · rw [if_neg he]
    constructor
    · intro h
      left
      refine ⟨he, ?_⟩
      by_cases hb : lexLe (splitSeat b).1.data (splitSeat a).1.data = false
      · rcases lexLe_total (splitSeat a).1.data (splitSeat b).1.data with h' | h'
        · exact h'
        · rw [hb] at h'; cases h'
      · rw [if_neg hb] at h
        omega
    · rintro (⟨-, h⟩ | ⟨heq, -⟩)
      · have hb : lexLe (splitSeat b).1.data (splitSeat a).1.data = false := by
          cases hc : lexLe (splitSeat b).1.data (splitSeat a).1.data with
          | false => rfl
          | true => exact absurd (String.ext (lexLe_antisymm h hc)) he
        rw [if_pos hb]
        omega
      · exact absurd heq he

theorem rowThenNumberLe_total (a b : String) : rowThenNumberLe a b ∨ rowThenNumberLe b a := by
  unfold rowThenNumberLe
  by_cases he : (splitSeat a).1 = (splitSeat b).1
  · rcases Nat.le_total (splitSeat a).2 (splitSeat b).2 with h | h
    · exact Or.inl (Or.inr ⟨he, h⟩)
    · exact Or.inr (Or.inr ⟨he.symm, h⟩)
  · rcases lexLe_total (splitSeat a).1.data (splitSeat b).1.data with h | h
    · exact Or.inl (Or.inl ⟨he, h⟩)
    · exact Or.inr (Or.inl ⟨fun h' => he h'.symm, h⟩)

theorem rowThenNumberLe_trans {a b c : String} (h1 : rowThenNumberLe a b)
    (h2 : rowThenNumberLe b c) : rowThenNumberLe a c := by
  unfold rowThenNumberLe at h1 h2 ⊢
  rcases h1 with ⟨hne1, hl1⟩ | ⟨he1, hn1⟩
  · rcases h2 with ⟨hne2, hl2⟩ | ⟨he2, hn2⟩
    · left
      refine ⟨?_, lexLe_trans hl1 hl2⟩
      intro he
      rw [← he] at hl2
      exact hne1 (String.ext (lexLe_antisymm hl1 hl2))
    · left
      rw [← he2]
      exact ⟨hne1, hl1⟩
  · rcases h2 with ⟨hne2, hl2⟩ | ⟨he2, hn2⟩
    · left
      rw [he1]
      exact ⟨hne2, hl2⟩
    · right
      exact ⟨he1.trans he2, Nat.le_trans hn1 hn2⟩

theorem compareSeatsTotal :
    IsTotal SeatRow (fun a b => compareSeats a.seat_number b.seat_number ≤ 0) :=
  ⟨fun a b => by
    rw [compareSeats_le_iff, compareSeats_le_iff]
    exact rowThenNumberLe_total _ _⟩

theorem compareSeatsTrans :
    IsTrans SeatRow (fun a b => compareSeats a.seat_number b.seat_number ≤ 0) :=
  ⟨fun a b c h1 h2 => by
    rw [compareSeats_le_iff] at h1 h2 ⊢
    exact rowThenNumberLe_trans h1 h2⟩

theorem isLower_of_isDigit {c : Char} (h : c.isDigit = true) : c.isLower = false := by
  simp only [Char.isDigit, Char.isLower, Bool.and_eq_true, decide_eq_true_eq] at h ⊢
  simp only [Bool.and_eq_false_iff, decide_eq_false_iff_not]
  left
  intro h1
  have h2 := h.2
  have := Nat.le_trans (show (97 : UInt32).toNat ≤ c.val.toNat from h1)
    (show c.val.toNat ≤ (57 : UInt32).toNat from h2)
  revert this
  decide

theorem isAsciiLetter_of_isDigit {c : Char} (h : c.isDigit = true) :
    isAsciiLetter c = false := by
  unfold isAsciiLetter
  rw [isUpper_of_isDigit h, isLower_of_isDigit h]
  rfl

theorem takeWhile_append_of_head {p : Char → Bool} (l₁ l₂ : List Char)
    (h1 : ∀ c ∈ l₁, p c = true) (h2 : ∀ c, l₂.head? = some c → p c = false) :
    (l₁ ++ l₂).takeWhile p = l₁ ∧ (l₁ ++ l₂).dropWhile p = l₂ := by
  induction l₁ with
  | nil =>
    cases l₂ with
    | nil => exact ⟨rfl, rfl⟩
    | cons c cs =>
      have := h2 c rfl
      simp [List.takeWhile_cons, List.dropWhile_cons, this]
  | cons c cs ih =>
    have hc := h1 c (List.mem_cons_self _ _)
    obtain ⟨i1, i2⟩ := ih (fun d hd => h1 d (List.mem_cons_of_mem _ hd))
    rw [List.cons_append, List.takeWhile_cons, List.dropWhile_cons, if_pos hc, if_pos hc, i1, i2]
    exact ⟨rfl, rfl⟩

/-- On a run of letters followed by a run of digits, `splitSeat` gives the upper-cased
letters and the number the digits write. -/
theorem splitSeat_letters_digits (ls ds : List Char) (hls : ls ≠ []) (hds : ds ≠ [])
    (hl : ∀ c ∈ ls, isAsciiLetter c = true) (hd : ∀ c ∈ ds, c.isDigit = true) :
    splitSeat (String.mk (ls ++ ds)) = (String.mk (ls.map Char.toUpper), digitsValue ds) := by
  obtain ⟨d, ds', rfl⟩ := List.exists_cons_of_ne_nil hds
  obtain ⟨l, ls', rfl⟩ := List.exists_cons_of_ne_nil hls
  have hhead : ∀ c, (d :: ds').head? = some c → isAsciiLetter c = false := by
    intro c hc
    simp only [List.head?_cons, Option.some.injEq] at hc
    subst hc
    exact isAsciiLetter_of_isDigit (hd _ (List.mem_cons_self _ _))
  obtain ⟨t1, t2⟩ := takeWhile_append_of_head (l :: ls') (d :: ds') hl hhead
  have t3 : (d :: ds').takeWhile Char.isDigit = d :: ds' :=
    List.takeWhile_eq_self_iff.2 hd
  have hm : matchSeatAt (l :: ls' ++ d :: ds') = some (l :: ls', d :: ds') := by
    unfold matchSeatAt
    simp only [t1, t2, t3, List.isEmpty_cons, Bool.or_self, Bool.false_eq_true, if_false]
  unfold splitSeat
  show (match matchSeat (l :: (ls' ++ d :: ds')) with
    | some (letters, digits) => (String.mk (letters.map Char.toUpper), digitsValue digits)
    | none => ("A", 0)) = _
  unfold matchSeat
  rw [← List.cons_append, hm]

theorem droppedBits_of_lt {n : Nat} (h : n < 2 ^ 53) (fuel : Nat) : droppedBits fuel n = 0 := by
  cases fuel with
  | zero => rfl
  | succ k =>
    unfold droppedBits
    rw [if_pos h]

/-- Below 2^53 a natural number is a double. -/
theorem roundToDouble_of_lt {n : Nat} (h : n < 2 ^ 53) : roundToDouble n = n := by
  unfold roundToDouble
  rw [droppedBits_of_lt h]
  simp [Nat.mod_one]

theorem escapeChar_ne_nil (c : Char) : escapeChar c ≠ [] := by
  unfold escapeChar
  split_ifs <;> simp

theorem escapeChar_cases (c : Char) :
    (escapeChar c ∈ entities ∧ (c = '&' ∨ c = '<' ∨ c = '>' ∨ c = quoteChar ∨ c = aposChar)) ∨
    (escapeChar c = [c] ∧ c ≠ '&' ∧ c ≠ '<' ∧ c ≠ '>' ∧ c ≠ quoteChar ∧ c ≠ aposChar) := by
  unfold escapeChar
  by_cases h1 : c = '&'
  · left; rw [if_pos h1]; exact ⟨by decide, Or.inl h1⟩
  by_cases h2 : c = '<'
  · left; rw [if_neg h1, if_pos h2]; exact ⟨by decide, Or.inr (Or.inl h2)⟩
  by_cases h3 : c = '>'
  · left; rw [if_neg h1, if_neg h2, if_pos h3]; exact ⟨by decide, Or.inr (Or.inr (Or.inl h3))⟩
  by_cases h4 : c = quoteChar
  · left; rw [if_neg h1, if_neg h2, if_neg h3, if_pos h4]
    exact ⟨by decide, Or.inr (Or.inr (Or.inr (Or.inl h4)))⟩
  by_cases h5 : c = aposChar
  · left; rw [if_neg h1, if_neg h2, if_neg h3, if_neg h4, if_pos h5]
    exact ⟨by decide, Or.inr (Or.inr (Or.inr (Or.inr h5)))⟩
  · right; rw [if_neg h1, if_neg h2, if_neg h3, if_neg h4, if_neg h5]
    exact ⟨rfl, h1, h2, h3, h4, h5⟩

/-- An entity has none of the four characters and an ampersand only at its head. -/
theorem entity_chars {e : List Char} (he : e ∈ entities) :
    (∀ c ∈ e, c ≠ '<' ∧ c ≠ '>' ∧ c ≠ quoteChar ∧ c ≠ aposChar) ∧
    e.head? = some '&' ∧ '&' ∉ e.tail := by
  simp only [entities, List.mem_cons, List.mem_singleton, List.not_mem_nil, or_false] at he
  rcases he with rfl | rfl | rfl | rfl | rfl <;> decide

theorem unescapeFuel_entity {e : List Char} (he : e ∈ entities) (c : Char)
    (hc : escapeChar c = e) (fuel : Nat) (rest : List Char) :
    unescapeFuel (fuel + 1) (e ++ rest) = c :: unescapeFuel fuel rest := by
  have hcases := escapeChar_cases c
  simp only [entities, List.mem_cons, List.mem_singleton, List.not_mem_nil, or_false] at he
  rcases hcases with ⟨-, h⟩ | ⟨h, -⟩
  · rcases h with rfl | rfl | rfl | rfl | rfl
    all_goals
      subst hc
      simp [escapeChar, unescapeFuel, stripEntity, List.isPrefixOf, quoteChar, aposChar]
  · rw [h] at hc
    subst hc
    exfalso
    rcases he with he | he | he | he | he <;> simp at he

theorem unescapeFuel_nil (fuel : Nat) : unescapeFuel fuel [] = [] := by
  cases fuel <;> rfl

/-- With enough fuel, the entities written for a list of characters are read back as the
list. -/
theorem unescapeFuel_escape (cs : List Char) (fuel : Nat)
    (h : (cs.flatMap escapeChar).length ≤ fuel) :
    unescapeFuel fuel (cs.flatMap escapeChar) = cs := by
  induction cs generalizing fuel with
  | nil => exact unescapeFuel_nil fuel
  | cons c cs ih =>
    rw [List.flatMap_cons] at h ⊢
    have hpos : 0 < (escapeChar c).length := List.length_pos.2 (escapeChar_ne_nil c)
    rw [List.length_append] at h
    obtain ⟨m, rfl⟩ : ∃ m, fuel = m + 1 := ⟨fuel - 1, by omega⟩
    rcases escapeChar_cases c with ⟨he, -⟩ | ⟨he, hne, -⟩
    · rw [unescapeFuel_entity he c rfl m, ih m (by omega)]
    · rw [he]
      show unescapeFuel (m + 1) (c :: cs.flatMap escapeChar) = c :: cs
      unfold unescapeFuel
      rw [if_neg hne, ih m (by omega)]

theorem escape_no_special (cs : List Char) :
    ∀ x ∈ cs.flatMap escapeChar, x ≠ '<' ∧ x ≠ '>' ∧ x ≠ quoteChar ∧ x ≠ aposChar := by
  intro x hx
  obtain ⟨c, -, hxc⟩ := List.mem_flatMap.1 hx
  rcases escapeChar_cases c with ⟨he, -⟩ | ⟨he, -, h2, h3, h4, h5⟩
  · exact (entity_chars he).1 x hxc
  · rw [he, List.mem_singleton] at hxc
    subst hxc
    exact ⟨h2, h3, h4, h5⟩

theorem escape_ampersand (cs : List Char) (pre post : List Char)
    (h : cs.flatMap escapeChar = pre ++ '&' :: post) :
    ∃ e ∈ entities, e <+: '&' :: post := by
  induction cs generalizing pre with
  | nil =>
    have := congrArg List.length h
    simp at this
    omega
  | cons c cs ih =>
    rw [List.flatMap_cons, List.append_eq_append_iff] at h
    rcases h with ⟨a', -, h2⟩ | ⟨c', h1, h2⟩
    · exact ih a' h2
    · cases c' with
      | nil => exact ih [] (by rw [List.nil_append] at h2 ⊢; exact h2.symm)
      | cons x c'' =>
        rw [List.cons_append, List.cons.injEq] at h2
        obtain ⟨hx, hpost⟩ := h2
        subst hx
        rcases escapeChar_cases c with ⟨he, -⟩ | ⟨he, hne, -⟩
        · obtain ⟨-, -, htail⟩ := entity_chars he
          have hpre : pre = [] := by
            cases pre with
            | nil => rfl
            | cons p pre' =>
              exfalso
              apply htail
              rw [h1]
              simp
          subst hpre
          rw [List.nil_append] at h1
          refine ⟨escapeChar c, he, ?_⟩
          rw [h1, hpost]
          exact ⟨cs.flatMap escapeChar, rfl⟩
        · exfalso
          rw [he] at h1
          cases pre with
          | nil =>
            rw [List.nil_append, List.cons.injEq] at h1
            exact hne h1.1
          | cons p pre' =>
            have := congrArg List.length h1
            simp at this

/-! ## The claims -/

/-- C1 (as the claim states it, refuted): seat A2 of movie 1 is booked and a request names
the seat a2.  The store compares seat numbers by their weights, which are those of A2, so the
call answers Conflict with the list [A2]; no seat number of the parsed list [a2] has status
booked in the inventory of the movie, and A2 is no requested seat number. -/
theorem C1_counterexample :
    demoRequestLower.valid ∧ ¬ demoStore.blocked demoRequestLower.name ∧
    demoRequestLower.parsedSeats = ["a2"] ∧
    (createBooking 7 noFaults demoStore demoRequestLower).1 = Response.conflict ["A2"] ∧
    (¬ ∃ n ∈ demoRequestLower.parsedSeats,
      (n, SeatStatus.booked) ∈ demoStore.inventory demoRequestLower.owner) ∧
    "A2" ∉ demoRequestLower.parsedSeats := by
  refine ⟨by unfold BookingRequest.valid; decide, by unfold Store.blocked; decide, by decide,
    by decide, by decide, by decide⟩

/-- C1 (amended): for a request that passes validation and the blocked check, with the store
answering without faults, `createBooking` answers Conflict if and only if a booked seat of the
target owner's inventory has a number that the store takes for a seat number of the parsed
list, and the list returned with the Conflict holds exactly the numbers of these booked
seats, as the inventory spells them. -/
theorem C1_conflict_iff_booked_seat_requested [Collation] (now : Nat) (s : Store) (req : BookingRequest)
    (hv : req.valid) (hb : ¬ s.blocked req.name) :
    ((∃ seats, (createBooking now noFaults s req).1 = Response.conflict seats) ↔
      ∃ n, collMem n req.parsedSeats ∧ (n, SeatStatus.booked) ∈ s.inventory req.owner) ∧
    ∀ seats, (createBooking now noFaults s req).1 = Response.conflict seats →
      ∀ n, n ∈ seats ↔
        collMem n req.parsedSeats ∧ (n, SeatStatus.booked) ∈ s.inventory req.owner := by
  obtain ⟨u, m, str, p, hu, hm, hs, hp, hu', hm', hs', hl⟩ := valid_fields hv
  have hname : req.name = u := by simp [BookingRequest.name, hu]
  have hown : req.owner = targetOwner m req.show_id := by simp [BookingRequest.owner, hm]
  have hps : req.parsedSeats = seatList str := by simp [BookingRequest.parsedSeats, hs]
  rw [hname] at hb
  rw [hown, hps]
  have hnb : (selectBlocked s u).head? ≠ some true := fun h => hb (selectBlocked_head h)
  have key : ∀ n, n ∈ selectBooked s m req.show_id (seatList str) ↔
      collMem n (seatList str) ∧
        (n, SeatStatus.booked) ∈ s.inventory (targetOwner m req.show_id) :=
    fun n => mem_selectBooked
  have hex : (∃ n, collMem n (seatList str) ∧
      (n, SeatStatus.booked) ∈ s.inventory (targetOwner m req.show_id)) ↔
      selectBooked s m req.show_id (seatList str) ≠ [] := by
    rw [Ne, List.eq_nil_iff_forall_not_mem, not_forall]
    constructor
    · rintro ⟨n, hn, hi⟩
      exact ⟨n, not_not.2 ((key n).2 ⟨hn, hi⟩)⟩
    · rintro ⟨n, hn⟩
      exact ⟨n, ((key n).1 (not_not.1 hn)).1, ((key n).1 (not_not.1 hn)).2⟩
  rcases createBooking_cases now noFaults s hu hm hs hp hu' hm' hs' hl with h | h | h | h
  · obtain ⟨⟨e, he⟩, -, -, h | h⟩ := h
    · simp [noFaults] at h
    · constructor
      · rw [hex, he]
        simp [h.1]
      · intro seats hseats
        rw [he] at hseats
        simp at hseats
  · exact absurd h.2.2 hnb
  · obtain ⟨hr, -, -, hne⟩ := h
    constructor
    · rw [hex, hr]
      simp [hne]
    · intro seats hseats
      rw [hr] at hseats
      simp only [Response.conflict.injEq] at hseats
      subst hseats
      exact key
  · obtain ⟨hr, -, -, hnil, -⟩ := h
    constructor
    · rw [hex, hr]
      simp [hnil]
    · intro seats hseats
      rw [hr] at hseats
      simp at hseats

/-- C1 (amended) at a concrete input: seats A1 and A2 of movie 1 are requested and A2 is
booked. -/
theorem C1_witness :
    demoRequest.valid ∧ ¬ demoStore.blocked demoRequest.name ∧
    (createBooking 7 noFaults demoStore demoRequest).1 = Response.conflict ["A2"] ∧
    ((∃ seats, (createBooking 7 noFaults demoStore demoRequest).1 = Response.conflict seats) ↔
      ∃ n, collMem n demoRequest.parsedSeats ∧
        (n, SeatStatus.booked) ∈ demoStore.inventory demoRequest.owner) ∧
    ∀ seats, (createBooking 7 noFaults demoStore demoRequest).1 = Response.conflict seats →
      ∀ n, n ∈ seats ↔ collMem n demoRequest.parsedSeats ∧
        (n, SeatStatus.booked) ∈ demoStore.inventory demoRequest.owner :=
  ⟨by unfold BookingRequest.valid; decide, by unfold Store.blocked; decide, by decide,
    C1_conflict_iff_booked_seat_requested 7 demoStore demoRequest
      (by unfold BookingRequest.valid; decide) (by unfold Store.blocked; decide)⟩

/-- C2: whenever `createBooking` does not answer with a booking id (InvalidInput, Forbidden,
Conflict, or a store failure at any statement), every seat row of every owner, every ledger
row and every user row is the same after the call as before it. -/
theorem C2_failure_changes_nothing [Collation] (now : Nat) (f : Faults) (s : Store) (req : BookingRequest)
    (h : ∀ id, (createBooking now f s req).1 ≠ Response.created id) :
    (createBooking now f s req).2.seats = s.seats ∧
    (createBooking now f s req).2.show_seats = s.show_seats ∧
    (createBooking now f s req).2.bookings = s.bookings ∧
    (createBooking now f s req).2.users = s.users := by
  by_cases hv : req.valid
  · obtain ⟨u, m, str, p, hu, hm, hs, hp, hu', hm', hs', hl⟩ := valid_fields hv
    rcases createBooking_cases now f s hu hm hs hp hu' hm' hs' hl with h' | h' | h' | h'
    · obtain ⟨-, ⟨-, -, h1, h2, h3, h4, -, -, -⟩, -⟩ := h'
      exact ⟨h1, h2, h3, h4⟩
    · rw [h'.1]; exact ⟨rfl, rfl, rfl, rfl⟩
    · rw [h'.1]; exact ⟨rfl, rfl, rfl, rfl⟩
    · exact absurd (by rw [h'.1]) (h s.nextBookingId)
  · obtain ⟨e, he⟩ := createBooking_of_not_valid hv
    rw [he now f s]; exact ⟨rfl, rfl, rfl, rfl⟩

/-- C2 at a concrete input: the commit fails after the ledger insert and the seat update. -/
theorem C2_witness :
    (createBooking 7 commitFails demoStore demoRequestFree).1 =
      Response.failure "Failed to create booking" ∧
    (createBooking 7 commitFails demoStore demoRequestFree).2.seats = demoStore.seats ∧
    (createBooking 7 commitFails demoStore demoRequestFree).2.show_seats = demoStore.show_seats ∧
    (createBooking 7 commitFails demoStore demoRequestFree).2.bookings = demoStore.bookings ∧
    (createBooking 7 commitFails demoStore demoRequestFree).2.users = demoStore.users :=
  have h : (createBooking 7 commitFails demoStore demoRequestFree).1 =
      Response.failure "Failed to create booking" := by decide
  ⟨h, C2_failure_changes_nothing 7 commitFails demoStore demoRequestFree
    (fun id hid => by rw [h] at hid; exact Response.noConfusion hid)⟩

/-- C3: if `createBooking` succeeds on a store with fresh booking ids, then `deleteBooking`
with the returned id succeeds when the store answers, and after any successful such delete
every seat row of every owner and the ledger are the same as before the create. -/
theorem C3_create_then_delete_restores [Collation] (now : Nat) (f f' : Faults) (s s1 : Store)
    (req : BookingRequest) (id : Nat) (hfresh : s.bookingIdsFresh)
    (hc : createBooking now f s req = (Response.created id, s1)) :
    (deleteBooking noFaults s1 (some (id : Int))).1 = Response.success ∧
    ((deleteBooking f' s1 (some (id : Int))).1 = Response.success →
      (deleteBooking f' s1 (some (id : Int))).2.seats = s.seats ∧
      (deleteBooking f' s1 (some (id : Int))).2.show_seats = s.show_seats ∧
      (deleteBooking f' s1 (some (id : Int))).2.bookings = s.bookings) := by
  obtain ⟨u, m, str, p, hu, hm, hs, hp, hl, hnb, hid, hs1⟩ := createBooking_created hc
  have hne : ∀ b ∈ s.bookings, b.id ≠ (newRow s req u m str p).id := by
    intro b hb
    have := hfresh.2 b hb
    simp only [newRow]
    omega
  have hidr : (id : Int) = ((newRow s req u m str p).id : Int) := by rw [hid]; rfl
  obtain ⟨hf1, hf2⟩ := filter_id_append_fresh hne
  have hhead : (s1.bookings.filter (fun b => (b.id : Int) = (id : Int))).head? =
      some (newRow s req u m str p) := by
    rw [hs1, committedStore_bookings, hidr, hf1]; rfl
  have hreleased : ∀ g : Faults, (deleteBooking g s1 (some (id : Int))).1 = Response.success →
      deleteBooking g s1 (some (id : Int)) =
        (Response.success, releasedStore s1 (newRow s req u m str p) (id : Int)) := by
    intro g hg
    rcases deleteBooking_cases g s1 (id : Int) with h | h | h
    · rw [h.1] at hg; simp at hg
    · obtain ⟨⟨e, he⟩, -⟩ := h
      rw [he] at hg; simp at hg
    · obtain ⟨b, hb, hr⟩ := h
      rw [hhead] at hb
      simp only [Option.some.injEq] at hb
      rw [hr, hb]
  constructor
  · rcases deleteBooking_cases noFaults s1 (id : Int) with h | h | h
    · rw [hhead] at h; simp at h
    · obtain ⟨-, -, st, hst⟩ := h
      simp [noFaults] at hst
    · obtain ⟨b, -, hr⟩ := h
      rw [hr]
  · intro hg
    rw [hreleased f' hg]
    have havail : ∀ (n : String) (st : SeatStatus), collMem n (seatList str) →
        (n, st) ∈ s.inventory (targetOwner m req.show_id) → st = SeatStatus.available :=
      fun n st hn hi => selectBooked_eq_nil hnb hn hi
    refine ⟨?_, ?_, ?_⟩
    · simp only [releasedStore, setSeatStatus_seats, newRow, targetOwner_orNull]
      rw [hs1, committedStore_seats]
      apply release_after_book_seats
      intro r hr ho hn
      rcases hto : targetOwner m req.show_id with m' | sh
      · rw [hto] at ho havail
        injection ho with ho
        exact havail _ _ hn (mem_inventory_movie.2 ⟨r, hr, ho, rfl, rfl⟩)
      · rw [hto] at ho; cases ho
    · simp only [releasedStore, setSeatStatus_show_seats, newRow, targetOwner_orNull]
      rw [hs1, committedStore_show_seats]
      apply release_after_book_show_seats
      intro r hr ho hn
      rcases hto : targetOwner m req.show_id with m' | sh
      · rw [hto] at ho; cases ho
      · rw [hto] at ho havail
        injection ho with ho
        exact havail _ _ hn (mem_inventory_show.2 ⟨r, hr, ho, rfl, rfl⟩)
    · simp only [releasedStore]
      rw [hs1, committedStore_bookings, hidr, hf2]

/-- C3 at a concrete input: seats A1 and A2 of show 1 are booked, then the booking is
deleted. -/
theorem C3_witness :
    demoStore.bookingIdsFresh ∧
    createBooking 7 noFaults demoStore demoRequestShow =
      (Response.created 1, (createBooking 7 noFaults demoStore demoRequestShow).2) ∧
    (deleteBooking noFaults (createBooking 7 noFaults demoStore demoRequestShow).2
      (some ((1 : Nat) : Int))).1 = Response.success ∧
    ((deleteBooking noFaults (createBooking 7 noFaults demoStore demoRequestShow).2
        (some ((1 : Nat) : Int))).1 = Response.success →
      (deleteBooking noFaults (createBooking 7 noFaults demoStore demoRequestShow).2
        (some ((1 : Nat) : Int))).2.seats = demoStore.seats ∧
      (deleteBooking noFaults (createBooking 7 noFaults demoStore demoRequestShow).2
        (some ((1 : Nat) : Int))).2.show_seats = demoStore.show_seats ∧
      (deleteBooking noFaults (createBooking 7 noFaults demoStore demoRequestShow).2
        (some ((1 : Nat) : Int))).2.bookings = demoStore.bookings) :=
  have hf : demoStore.bookingIdsFresh := by unfold Store.bookingIdsFresh; decide
  have h : createBooking 7 noFaults demoStore demoRequestShow =
      (Response.created 1, (createBooking 7 noFaults demoStore demoRequestShow).2) := by decide
  ⟨hf, h, C3_create_then_delete_restores 7 noFaults noFaults demoStore _ demoRequestShow 1 hf h⟩

/-- C5 (as the claim states it, refuted): after seat generation and a bulk status update
seat A1 of movie 1 is booked with an empty ledger; after a booking and a reset, and after a
booking followed by seat generation, seat A1 is available although a ledger row of movie 1
lists it, whether the numbers are compared character by character or as the store compares
them.  And after a booking of the seat under the number a1, which the store takes for A1,
seat A1 is booked and no ledger row lists the number A1. -/
theorem C5_counterexample :
    ¬ afterPatch.bookedIffListed ∧ ¬ afterReset.bookedIffListed ∧
    ¬ afterLateGeneration.bookedIffListed ∧ ¬ afterLowerBooking.bookedIffListed ∧
    ¬ afterPatch.bookedIffInLedger ∧ ¬ afterReset.bookedIffInLedger ∧
    ¬ afterLateGeneration.bookedIffInLedger := by
  refine ⟨?_, ?_, ?_, ?_, ?_, ?_, ?_⟩
  · intro h
    have h1 := (h (Owner.movie 1) "A1" SeatStatus.booked (by decide)).1 rfl
    revert h1
    decide
  · intro h
    have h1 := (h (Owner.movie 1) "A1" SeatStatus.available (by decide)).2 (by decide)
    cases h1
  · intro h
    have h1 := (h (Owner.movie 1) "A1" SeatStatus.available (by decide)).2 (by decide)
    cases h1
  · intro h
    have h1 := (h (Owner.movie 1) "A1" SeatStatus.booked (by decide)).1 rfl
    revert h1
    decide
  · intro h
    have h1 := (h (Owner.movie 1) "A1" SeatStatus.booked (by decide)).1 rfl
    revert h1
    decide
  · intro h
    have h1 := (h (Owner.movie 1) "A1" SeatStatus.available (by decide)).2 (by decide)
    cases h1
  · intro h
    have h1 := (h (Owner.movie 1) "A1" SeatStatus.available (by decide)).2 (by decide)
    cases h1

/-- C5 (amended): in every state reached from a state with an empty ledger, every seat
available and show ids below their counter (the empty system is one) by any sequence of
`createBooking` calls, `deleteBooking` calls, show creations and seat generations for a movie
that has no ledger row, under any faults, a seat of an owner has status booked if and only if
the store takes its seat number for a number of the parsed seat list of at least one ledger
row of that owner. -/
theorem C5_booked_iff_in_ledger_under_booking_calls [Collation] (s0 s : Store) (hl : s0.bookings = [])
    (hs : ∀ r ∈ s0.seats, r.status = SeatStatus.available)
    (hss : ∀ r ∈ s0.show_seats, r.status = SeatStatus.available) (hsh : s0.showIdsFresh)
    (hr : BookingReachable s0 s) : s.bookedIffInLedger :=
  (bookingInvariant_of_reachable (bookingInvariant_of_clean hl hs hss hsh) hr).1

/-- C5 (amended) at a concrete input: from the system with movie 1 and screen 1 and nothing
else, show 1 is created and its seats A1 and A2 are booked, seat A1 of movie 1 is generated
and booked, and the booking of the show is deleted. -/
theorem C5_witness :
    catalogStore.bookings = [] ∧
    (∀ r ∈ catalogStore.seats, r.status = SeatStatus.available) ∧
    (∀ r ∈ catalogStore.show_seats, r.status = SeatStatus.available) ∧
    catalogStore.showIdsFresh ∧
    BookingReachable catalogStore showBookedMovieBooked ∧
    showBookedMovieBooked.bookedIffInLedger :=
  have hsh : catalogStore.showIdsFresh := by unfold Store.showIdsFresh; decide
  have hr : BookingReachable catalogStore showBookedMovieBooked :=
    BookingReachable.delete noFaults (some 1)
      (BookingReachable.create 8 noFaults demoRequestA1
        (BookingReachable.generate noFaults 1 (some rowA1)
          (BookingReachable.create 7 noFaults demoRequestShow
            (BookingReachable.addShow noFaults (some 1) demoShowRequest
              BookingReachable.start))
          (by decide)))
  ⟨rfl, by decide, by decide, hsh, hr,
    C5_booked_iff_in_ledger_under_booking_calls catalogStore showBookedMovieBooked rfl
      (by decide) (by decide) hsh hr⟩

/-- C6 (as the claim states it, refuted): a booking of a seat number that the owner does not
have succeeds, and the number is recorded in the new ledger row. -/
theorem C6_counterexample :
    (createBooking 7 noFaults demoStore demoRequestGhost).1 = Response.created 1 ∧
    ∃ row ∈ (createBooking 7 noFaults demoStore demoRequestGhost).2.bookings,
      row.id = 1 ∧ "Z9" ∈ seatList row.seats ∧
      ("Z9", SeatStatus.available) ∉ demoStore.inventory row.owner := by
  decide

/-- C6 (amended): for every successful `createBooking`, the new ledger row is in the ledger
and no seat number of its recorded list was booked for the target owner before the call:
every seat of the owner's inventory with such a number had status available. -/
theorem C6_recorded_seats_not_booked [Collation] (now : Nat) (f : Faults) (s s' : Store)
    (req : BookingRequest) (id : Nat)
    (h : createBooking now f s req = (Response.created id, s')) :
    ∃ row ∈ s'.bookings, row.id = id ∧ row.owner = req.owner ∧
      ∀ n ∈ seatList row.seats, ∀ st, (n, st) ∈ s.inventory row.owner →
        st = SeatStatus.available := by
  obtain ⟨u, m, str, p, hu, hm, hs, hp, hl, hnb, hid, hs'⟩ := createBooking_created h
  refine ⟨newRow s req u m str p, ?_, ?_, ?_, ?_⟩
  · rw [hs', committedStore_bookings]; simp
  · rw [hid]; rfl
  · simp [BookingRow.owner, newRow, BookingRequest.owner, hm, targetOwner_orNull]
  · intro n hn st hi
    simp only [BookingRow.owner, newRow, targetOwner_orNull] at hn hi
    exact selectBooked_eq_nil hnb (collMem_of_mem hn) hi

/-- C6 (amended) at a concrete input: seats A1 and A3 of movie 1 are free and get booked. -/
theorem C6_witness :
    createBooking 7 noFaults demoStore demoRequestFree =
      (Response.created 1, (createBooking 7 noFaults demoStore demoRequestFree).2) ∧
    ∃ row ∈ (createBooking 7 noFaults demoStore demoRequestFree).2.bookings,
      row.id = 1 ∧ row.owner = demoRequestFree.owner ∧
      ∀ n ∈ seatList row.seats, ∀ st, (n, st) ∈ demoStore.inventory row.owner →
        st = SeatStatus.available :=
  have h : createBooking 7 noFaults demoStore demoRequestFree =
      (Response.created 1, (createBooking 7 noFaults demoStore demoRequestFree).2) := by decide
  ⟨h, C6_recorded_seats_not_booked 7 noFaults demoStore _ demoRequestFree 1 h⟩

/-- C7 (as the claim states it, refuted): seat A1 of movie 1 is available and a request names
the seat a1.  The call succeeds with the parsed list [a1], and seat A1, whose number is not in
the list, is booked after the call. -/
theorem C7_counterexample :
    (createBooking 7 noFaults demoStore demoRequestLowerA1).1 = Response.created 1 ∧
    demoRequestLowerA1.parsedSeats = ["a1"] ∧ demoRequestLowerA1.owner = Owner.movie 1 ∧
    "A1" ∉ demoRequestLowerA1.parsedSeats ∧
    demoStore.statusOf (Owner.movie 1) "A1" = [SeatStatus.available] ∧
    (createBooking 7 noFaults demoStore demoRequestLowerA1).2.statusOf (Owner.movie 1) "A1" =
      [SeatStatus.booked] := by
  decide

/-- C7 (amended): after a successful `createBooking` for owner O with parsed seat list L, the
seat rows are the same rows as before, in both seat tables; a seat of O whose number the store
takes for a number of L has status booked, and every other seat (of O, of another owner, of
the movie when a show id was given) has the status it had before the call. -/
theorem C7_exactly_named_seats_booked [Collation] (now : Nat) (f : Faults) (s s' : Store)
    (req : BookingRequest) (id : Nat)
    (h : createBooking now f s req = (Response.created id, s')) :
    List.Forall₂ (fun r r' : SeatRow =>
        r'.seat_id = r.seat_id ∧ r'.movie_id = r.movie_id ∧ r'.seat_number = r.seat_number ∧
        r'.status = if Owner.movie r.movie_id = req.owner ∧ collMem r.seat_number req.parsedSeats
          then SeatStatus.booked else r.status) s.seats s'.seats ∧
    List.Forall₂ (fun r r' : ShowSeatRow =>
        r'.id = r.id ∧ r'.show_id = r.show_id ∧ r'.seat_number = r.seat_number ∧
        r'.status = if Owner.show r.show_id = req.owner ∧ collMem r.seat_number req.parsedSeats
          then SeatStatus.booked else r.status) s.show_seats s'.show_seats := by
  obtain ⟨u, m, str, p, hu, hm, hs, hp, hl, hnb, hid, hs'⟩ := createBooking_created h
  have hown : req.owner = targetOwner m req.show_id := by simp [BookingRequest.owner, hm]
  have hps : req.parsedSeats = seatList str := by simp [BookingRequest.parsedSeats, hs]
  rw [hs', committedStore_seats, committedStore_show_seats, hown, hps]
  constructor
  · rw [List.forall₂_map_right_iff, List.forall₂_same]
    intro r _
    split_ifs <;> simp
  · rw [List.forall₂_map_right_iff, List.forall₂_same]
    intro r _
    split_ifs <;> simp

/-- C7 (amended) at a concrete input: seats A1 and A2 of show 1 get booked, the movie's seats
stay. -/
theorem C7_witness :
    createBooking 7 noFaults demoStore demoRequestShow =
      (Response.created 1, (createBooking 7 noFaults demoStore demoRequestShow).2) ∧
    (createBooking 7 noFaults demoStore demoRequestShow).2.seats = demoStore.seats ∧
    (createBooking 7 noFaults demoStore demoRequestShow).2.show_seats =
      [{ id := 1, show_id := 1, seat_number := "A1", status := SeatStatus.booked },
       { id := 2, show_id := 1, seat_number := "A2", status := SeatStatus.booked }] ∧
    List.Forall₂ (fun r r' : SeatRow =>
        r'.seat_id = r.seat_id ∧ r'.movie_id = r.movie_id ∧ r'.seat_number = r.seat_number ∧
        r'.status = if Owner.movie r.movie_id = demoRequestShow.owner ∧
            collMem r.seat_number demoRequestShow.parsedSeats
          then SeatStatus.booked else r.status)
      demoStore.seats (createBooking 7 noFaults demoStore demoRequestShow).2.seats ∧
    List.Forall₂ (fun r r' : ShowSeatRow =>
        r'.id = r.id ∧ r'.show_id = r.show_id ∧ r'.seat_number = r.seat_number ∧
        r'.status = if Owner.show r.show_id = demoRequestShow.owner ∧
            collMem r.seat_number demoRequestShow.parsedSeats
          then SeatStatus.booked else r.status)
      demoStore.show_seats (createBooking 7 noFaults demoStore demoRequestShow).2.show_seats :=
  have h : createBooking 7 noFaults demoStore demoRequestShow =
      (Response.created 1, (createBooking 7 noFaults demoStore demoRequestShow).2) := by decide
  ⟨h, by decide, by decide,
    C7_exactly_named_seats_booked 7 noFaults demoStore _ demoRequestShow 1 h⟩

/-- C8: a successful `createBooking` appends exactly one row to the ledger and leaves the
existing rows as they are; the new row holds the username, the movie id, the show id (null
when none was given, 0 counting as none), the seats string and the total price of the
request, its id is the id returned to the caller, and, ids being fresh, it is the only row
with that id. -/
theorem C8_one_ledger_row_added [Collation] (now : Nat) (f : Faults) (s s' : Store)
    (req : BookingRequest) (id : Nat)
    (h : createBooking now f s req = (Response.created id, s')) :
    ∃ row, s'.bookings = s.bookings ++ [row] ∧ row.id = id ∧
      some row.username = req.username ∧ some row.movie_id = req.movie_id ∧
      row.show_id = orNullNat req.show_id ∧ some row.seats = req.seats ∧
      some row.total_price = req.total_price ∧
      (s.bookingIdsFresh → ∀ b ∈ s.bookings, b.id ≠ id) := by
  obtain ⟨u, m, str, p, hu, hm, hs, hp, hl, hnb, hid, hs'⟩ := createBooking_created h
  refine ⟨newRow s req u m str p, ?_, ?_, ?_, ?_, ?_, ?_, ?_, ?_⟩
  · rw [hs', committedStore_bookings]
  · rw [hid]; rfl
  · rw [hu]; rfl
  · rw [hm]; rfl
  · rfl
  · rw [hs]; rfl
  · rw [hp]; rfl
  · intro hfresh b hb heq
    have := hfresh.2 b hb
    omega

/-- C8 at a concrete input: the booking of seats A1 and A2 of show 1. -/
theorem C8_witness :
    createBooking 7 noFaults demoStore demoRequestShow =
      (Response.created 1, (createBooking 7 noFaults demoStore demoRequestShow).2) ∧
    ∃ row, (createBooking 7 noFaults demoStore demoRequestShow).2.bookings =
        demoStore.bookings ++ [row] ∧ row.id = 1 ∧
      some row.username = demoRequestShow.username ∧
      some row.movie_id = demoRequestShow.movie_id ∧
      row.show_id = orNullNat demoRequestShow.show_id ∧ some row.seats = demoRequestShow.seats ∧
      some row.total_price = demoRequestShow.total_price ∧
      (demoStore.bookingIdsFresh → ∀ b ∈ demoStore.bookings, b.id ≠ 1) :=
  have h : createBooking 7 noFaults demoStore demoRequestShow =
      (Response.created 1, (createBooking 7 noFaults demoStore demoRequestShow).2) := by decide
  ⟨h, C8_one_ledger_row_added 7 noFaults demoStore _ demoRequestShow 1 h⟩

/-- C9 (as the claim states it, refuted): the user directory holds the blocked user eve and
no row with exactly the username EVE.  The store compares usernames by their weights, which
are the same for both, so a valid request of the user EVE is answered Forbidden. -/
theorem C9_counterexample :
    demoRequestUpperName.valid ∧ demoRequestUpperName.name = "EVE" ∧
    (∀ u ∈ demoStore.users, u.username ≠ "EVE") ∧
    (¬ ∃ u ∈ demoStore.users, u.username = demoRequestUpperName.name ∧ u.is_blocked = true) ∧
    (createBooking 7 noFaults demoStore demoRequestUpperName).1 = Response.forbidden := by
  refine ⟨by unfold BookingRequest.valid; decide, by decide, by decide, by decide, by decide⟩

/-- C9 (amended): for a valid request, with usernames unique for the store and the blocked
lookup answered, `createBooking` answers Forbidden if and only if the user directory holds a
row whose username the store takes for the request's username and whose blocked flag is set; a
Forbidden answer leaves the whole store unchanged, and a username that the store takes for no
username of the directory is never answered Forbidden. -/
theorem C9_forbidden_iff_blocked [Collation] (now : Nat) (f : Faults) (s : Store)
    (req : BookingRequest)
    (hv : req.valid) (hn : s.usersUnique) (hf : f Stmt.blockedLookup = false) :
    ((createBooking now f s req).1 = Response.forbidden ↔
      ∃ u ∈ s.users, collEq u.username req.name ∧ u.is_blocked = true) ∧
    ((createBooking now f s req).1 = Response.forbidden → (createBooking now f s req).2 = s) ∧
    ((∀ u ∈ s.users, ¬ collEq u.username req.name) →
      (createBooking now f s req).1 ≠ Response.forbidden) := by
  obtain ⟨u, m, str, p, hu, hm, hs, hp, hu', hm', hs', hl⟩ := valid_fields hv
  have hname : req.name = u := by simp [BookingRequest.name, hu]
  rw [hname]
  have hiff : (createBooking now f s req).1 = Response.forbidden ↔
      (selectBlocked s u).head? = some true := by
    rcases createBooking_cases now f s hu hm hs hp hu' hm' hs' hl with h | h | h | h
    · obtain ⟨⟨e, he⟩, -, h | h, -⟩ := h
      · rw [hf] at h; exact absurd h (by simp)
      · rw [he]; simp [h]
    · rw [h.1]; simp [h.2.2]
    · rw [h.1]; simp [h.2.2.1]
    · rw [h.1]; simp [h.2.2.1]
  have hsame : (createBooking now f s req).1 = Response.forbidden →
      (createBooking now f s req).2 = s := by
    intro hfb
    rcases createBooking_cases now f s hu hm hs hp hu' hm' hs' hl with h | h | h | h
    · obtain ⟨⟨e, he⟩, -⟩ := h
      rw [he] at hfb; exact absurd hfb (by simp)
    · rw [h.1]
    · rw [h.1]
    · rw [h.1] at hfb; exact absurd hfb (by simp)
  refine ⟨?_, hsame, ?_⟩
  · rw [hiff]
    exact ⟨selectBlocked_head, selectBlocked_of_blocked hn⟩
  · intro habs hfb
    obtain ⟨r, hr, hru, -⟩ := selectBlocked_head (hiff.1 hfb)
    exact habs r hr hru

/-- C9 (amended) at a concrete input: the blocked user eve asks for a free seat, under the
names eve and EVE. -/
theorem C9_witness :
    demoRequestBlocked.valid ∧ demoStore.usersUnique ∧ noFaults Stmt.blockedLookup = false ∧
    (createBooking 7 noFaults demoStore demoRequestBlocked).1 = Response.forbidden ∧
    ((createBooking 7 noFaults demoStore demoRequestBlocked).1 = Response.forbidden ↔
      ∃ u ∈ demoStore.users, collEq u.username demoRequestBlocked.name ∧ u.is_blocked = true) ∧
    ((createBooking 7 noFaults demoStore demoRequestBlocked).1 = Response.forbidden →
      (createBooking 7 noFaults demoStore demoRequestBlocked).2 = demoStore) ∧
    ((∀ u ∈ demoStore.users, ¬ collEq u.username demoRequestBlocked.name) →
      (createBooking 7 noFaults demoStore demoRequestBlocked).1 ≠ Response.forbidden) ∧
    ((createBooking 7 noFaults demoStore demoRequestUpperName).1 = Response.forbidden ↔
      ∃ u ∈ demoStore.users, collEq u.username demoRequestUpperName.name ∧
        u.is_blocked = true) :=
  have h := C9_forbidden_iff_blocked 7 noFaults demoStore demoRequestBlocked
    (by unfold BookingRequest.valid; decide) (by unfold Store.usersUnique; decide) rfl
  ⟨by unfold BookingRequest.valid; decide, by unfold Store.usersUnique; decide, rfl, by decide,
    h.1, h.2.1, h.2.2,
    (C9_forbidden_iff_blocked 7 noFaults demoStore demoRequestUpperName
      (by unfold BookingRequest.valid; decide) (by unfold Store.usersUnique; decide) rfl).1⟩

/-- C10 (as the claim states it, refuted): two requests with all four fields present and a
non-empty parsed seat list, one with an empty username and one with the movie id 0, are
answered InvalidInput. -/
theorem C10_counterexample :
    (demoRequestEmptyName.username.isSome = true ∧ demoRequestEmptyName.movie_id.isSome = true ∧
      demoRequestEmptyName.seats.isSome = true ∧
      demoRequestEmptyName.total_price.isSome = true ∧
      demoRequestEmptyName.parsedSeats ≠ [] ∧
      (createBooking 7 noFaults demoStore demoRequestEmptyName).1 =
        Response.invalidInput "Missing required fields") ∧
    (demoRequestMovieZero.username.isSome = true ∧ demoRequestMovieZero.movie_id.isSome = true ∧
      demoRequestMovieZero.seats.isSome = true ∧
      demoRequestMovieZero.total_price.isSome = true ∧
      demoRequestMovieZero.parsedSeats ≠ [] ∧
      (createBooking 7 noFaults demoStore demoRequestMovieZero).1 =
        Response.invalidInput "Missing required fields") := by
  decide

/-- C10 (amended): a request without a username or with an empty one, without a movie id or
with the movie id 0, without a seats value or with an empty one, without a total price, or
whose seats string parses to the empty list, is answered InvalidInput, with one answer for
every store and every fault plan and the store left as it is; a request with a non-empty
username, a non-zero movie id, a total price (0 included) and a non-empty parsed seat list is
never answered InvalidInput. -/
theorem C10_invalid_input_iff [Collation] (req : BookingRequest) :
    ((truthyStr req.username = false ∨ truthyNat req.movie_id = false ∨
        truthyStr req.seats = false ∨ req.total_price = none ∨ req.parsedSeats = []) →
      ∃ e, ∀ (now : Nat) (f : Faults) (s : Store),
        createBooking now f s req = (Response.invalidInput e, s)) ∧
    (¬ (truthyStr req.username = false ∨ truthyNat req.movie_id = false ∨
        truthyStr req.seats = false ∨ req.total_price = none ∨ req.parsedSeats = []) →
      ∀ (now : Nat) (f : Faults) (s : Store) (e : String),
        (createBooking now f s req).1 ≠ Response.invalidInput e) := by
  have hiff : (truthyStr req.username = false ∨ truthyNat req.movie_id = false ∨
      truthyStr req.seats = false ∨ req.total_price = none ∨ req.parsedSeats = []) ↔
      ¬ req.valid := by
    unfold BookingRequest.valid BookingRequest.parsedSeats
    cases truthyStr req.username <;> cases truthyNat req.movie_id <;>
      cases truthyStr req.seats <;> cases req.total_price <;> simp
  rw [hiff, not_not]
  constructor
  · exact createBooking_of_not_valid
  · intro hv now f s e
    obtain ⟨u, m, str, p, hu, hm, hs, hp, hu', hm', hs', hl⟩ := valid_fields hv
    rcases createBooking_cases now f s hu hm hs hp hu' hm' hs' hl with h | h | h | h
    · obtain ⟨⟨e', he⟩, -⟩ := h
      rw [he]; simp
    · rw [h.1]; simp
    · rw [h.1]; simp
    · rw [h.1]; simp

/-- C10 (amended) at concrete inputs: a seats string of commas and blanks, and a request
with a total price of 0. -/
theorem C10_witness :
    (∃ e, ∀ (now : Nat) (f : Faults) (s : Store),
      createBooking now f s demoRequestNoSeats = (Response.invalidInput e, s)) ∧
    (∀ (now : Nat) (f : Faults) (s : Store) (e : String),
      (createBooking now f s demoRequestPriceZero).1 ≠ Response.invalidInput e) :=
  ⟨(C10_invalid_input_iff demoRequestNoSeats).1 (by decide),
    (C10_invalid_input_iff demoRequestPriceZero).2 (by decide)⟩

/-- C11: for every input string, every element of the parsed seat list is non-empty, holds no
comma and neither starts nor ends with whitespace; the elements are, in order, the
comma-separated pieces of the input that are not all whitespace, each without its leading
and trailing whitespace; and the list is empty exactly when the input consists only of
commas and whitespace. -/
theorem C11_seatList_trimmed_nonempty_in_order (input : String) :
    (∀ x ∈ seatList input, x ≠ "" ∧ ',' ∉ x.data ∧
      (∀ c, x.data.head? = some c → isJsWhitespace c = false) ∧
      (∀ c, x.data.getLast? = some c → isJsWhitespace c = false)) ∧
    (∃ pieces : List (List Char),
      [','].intercalate pieces = input.data ∧ (∀ p ∈ pieces, ',' ∉ p) ∧
      List.Forall₂
        (fun x p => ∃ pre post, p = pre ++ x.data ++ post ∧
          (∀ c ∈ pre, isJsWhitespace c = true) ∧ (∀ c ∈ post, isJsWhitespace c = true))
        (seatList input) (pieces.filter (fun p => !(p.all isJsWhitespace)))) ∧
    (seatList input = [] ↔ ∀ c ∈ input.data, c = ',' ∨ isJsWhitespace c = true) := by
  refine ⟨?_, ?_, ?_⟩
  · intro x hx
    rw [seatList_eq, List.mem_map] at hx
    obtain ⟨p, hp, rfl⟩ := hx
    rw [List.mem_filter] at hp
    obtain ⟨hp1, hp2⟩ := hp
    have hne : jsTrim p ≠ [] := by
      intro h
      have := (jsTrim_eq_nil_iff p).1 h
      simp only [Bool.not_eq_eq_eq_not, Bool.not_true, List.all_eq_false] at hp2
      obtain ⟨c, hc, hcw⟩ := hp2
      exact hcw (this c hc)
    refine ⟨?_, ?_, (jsTrim_ends p).1, (jsTrim_ends p).2⟩
    · intro h
      apply hne
      have : (String.mk (jsTrim p)).data = "".data := by rw [h]
      simpa using this
    · intro hc
      obtain ⟨pre, post, hdec, -, -⟩ := jsTrim_decompose p
      apply not_comma_mem_splitComma input.data p hp1
      rw [hdec]
      simp only [List.mem_append]
      exact Or.inl (Or.inr hc)
  · refine ⟨splitComma input.data, intercalate_splitComma _, not_comma_mem_splitComma _, ?_⟩
    rw [seatList_eq, List.forall₂_map_left_iff, List.forall₂_same]
    intro p _
    exact jsTrim_decompose p
  · rw [seatList_eq, List.map_eq_nil_iff, List.filter_eq_nil_iff]
    constructor
    · intro h c hc
      by_cases hcomma : c = ','
      · exact Or.inl hcomma
      · right
        obtain ⟨p, hp, hcp⟩ := (mem_splitComma_iff input.data c).2 ⟨hc, hcomma⟩
        have := h p hp
        simp only [Bool.not_eq_eq_eq_not, Bool.not_true, Bool.not_eq_false,
          List.all_eq_true] at this
        exact this c hcp
    · intro h p hp
      simp only [Bool.not_eq_eq_eq_not, Bool.not_true, Bool.not_eq_false, List.all_eq_true]
      intro c hc
      rcases h c ((mem_splitComma_iff input.data c).1 ⟨p, hp, hc⟩).1 with h1 | h1
      · exact absurd h1 ((mem_splitComma_iff input.data c).1 ⟨p, hp, hc⟩).2
      · exact h1

/-- C12: for a booking id that is not the id of a ledger row, `deleteBooking` answers
NotFound when the store answers the connection, the start of the transaction and the select of
the booking, it never answers success, and under every fault plan every seat row and every
ledger row is left as it was. -/
theorem C12_delete_unknown_id_not_found [Collation] (f : Faults) (s : Store) (bid : Int)
    (h : ∀ b ∈ s.bookings, (b.id : Int) ≠ bid) :
    (f Stmt.getConnection = false → f Stmt.beginTransaction = false →
      f Stmt.bookingSelect = false → deleteBooking f s (some bid) = (Response.notFound, s)) ∧
    (deleteBooking f s (some bid)).1 ≠ Response.success ∧
    (deleteBooking f s (some bid)).2.seats = s.seats ∧
    (deleteBooking f s (some bid)).2.show_seats = s.show_seats ∧
    (deleteBooking f s (some bid)).2.bookings = s.bookings := by
  have hnil := filter_id_eq_nil h
  rcases deleteBooking_cases f s bid with h1 | h1 | h1
  · rw [h1.1]
    exact ⟨fun _ _ _ => rfl, by simp, rfl, rfl, rfl⟩
  · obtain ⟨⟨e, he⟩, ⟨-, -, h2, h3, h4, -⟩, st, hst⟩ := h1
    refine ⟨?_, by rw [he]; simp, h2, h3, h4⟩
    intro g1 g2 g3
    unfold deleteBooking
    simp only [g1, g2, g3, hnil]
    rfl
  · obtain ⟨b, hb, -⟩ := h1
    rw [hnil] at hb
    simp at hb

/-- C12 at a concrete input: booking 7 does not exist. -/
theorem C12_witness :
    (∀ b ∈ ledgerStore.bookings, (b.id : Int) ≠ 7) ∧
    (noFaults Stmt.getConnection = false → noFaults Stmt.beginTransaction = false →
      noFaults Stmt.bookingSelect = false →
      deleteBooking noFaults ledgerStore (some 7) = (Response.notFound, ledgerStore)) ∧
    (deleteBooking noFaults ledgerStore (some 7)).1 ≠ Response.success ∧
    (deleteBooking noFaults ledgerStore (some 7)).2.seats = ledgerStore.seats ∧
    (deleteBooking noFaults ledgerStore (some 7)).2.show_seats = ledgerStore.show_seats ∧
    (deleteBooking noFaults ledgerStore (some 7)).2.bookings = ledgerStore.bookings :=
  ⟨by decide, C12_delete_unknown_id_not_found noFaults ledgerStore 7 (by decide)⟩

/-- C13 (as the claim states it, refuted): ledger row 1 of movie 1 lists the seat a1, and
seat A1 of the movie, whose number is not in the parsed list [a1], is booked.  The delete of
the row succeeds and sets seat A1 to available. -/
theorem C13_counterexample :
    afterLowerBooking.bookings.map (fun b => (b.id, b.seats, b.owner)) =
      [(1, "a1", Owner.movie 1)] ∧
    seatList "a1" = ["a1"] ∧ "A1" ∉ seatList "a1" ∧
    afterLowerBooking.statusOf (Owner.movie 1) "A1" = [SeatStatus.booked] ∧
    (deleteBooking noFaults afterLowerBooking (some 1)).1 = Response.success ∧
    (deleteBooking noFaults afterLowerBooking (some 1)).2.statusOf (Owner.movie 1) "A1" =
      [SeatStatus.available] := by
  decide

/-- C13 (amended): on a store with fresh booking ids, the delete of an existing booking
succeeds when the store answers, and every successful delete of it removes that ledger row
and no other, leaves the same seat rows in both seat tables, sets to available the seats of
the row's owner (the show when the row has a show id, otherwise the movie) whose number the
store takes for a number of the row's parsed seat list, and leaves the status of every other
seat as it was. -/
theorem C13_delete_releases_exactly_named_seats [Collation] (f : Faults) (s s' : Store)
    (b : BookingRow)
    (hfresh : s.bookingIdsFresh) (hb : b ∈ s.bookings) :
    (deleteBooking noFaults s (some (b.id : Int))).1 = Response.success ∧
    (deleteBooking f s (some (b.id : Int)) = (Response.success, s') →
      s'.bookings = s.bookings.filter (fun r => decide (r ≠ b)) ∧
      List.Forall₂ (fun r r' : SeatRow =>
          r'.seat_id = r.seat_id ∧ r'.movie_id = r.movie_id ∧ r'.seat_number = r.seat_number ∧
          r'.status = if Owner.movie r.movie_id = b.owner ∧ collMem r.seat_number (seatList b.seats)
            then SeatStatus.available else r.status) s.seats s'.seats ∧
      List.Forall₂ (fun r r' : ShowSeatRow =>
          r'.id = r.id ∧ r'.show_id = r.show_id ∧ r'.seat_number = r.seat_number ∧
          r'.status = if Owner.show r.show_id = b.owner ∧ collMem r.seat_number (seatList b.seats)
            then SeatStatus.available else r.status) s.show_seats s'.show_seats) := by
  have hhead := head_filter_id_of_mem hfresh.1 hb
  constructor
  · rcases deleteBooking_cases noFaults s (b.id : Int) with h | h | h
    · rw [hhead] at h; simp at h
    · obtain ⟨-, -, st, hst⟩ := h
      simp [noFaults] at hst
    · obtain ⟨b', -, hr⟩ := h
      rw [hr]
  · intro hdel
    rcases deleteBooking_cases f s (b.id : Int) with h | h | h
    · rw [hdel] at h; simp at h
    · obtain ⟨⟨e, he⟩, -⟩ := h
      rw [hdel] at he; simp at he
    · obtain ⟨b', hb', hr⟩ := h
      rw [hhead] at hb'
      simp only [Option.some.injEq] at hb'
      subst hb'
      rw [hdel] at hr
      simp only [Prod.mk.injEq, true_and] at hr
      subst hr
      refine ⟨?_, ?_, ?_⟩
      · simp only [releasedStore]
        exact filter_id_ne_eq_filter_ne hfresh.1 hb
      · have : (releasedStore s b (b.id : Int)).seats =
            (setSeatStatus s b.movie_id b.show_id SeatStatus.available (seatList b.seats)).seats :=
          rfl
        rw [this, setSeatStatus_seats, List.forall₂_map_right_iff, List.forall₂_same]
        intro r _
        simp only [BookingRow.owner]
        split_ifs <;> simp
      · have : (releasedStore s b (b.id : Int)).show_seats =
            (setSeatStatus s b.movie_id b.show_id SeatStatus.available
              (seatList b.seats)).show_seats := rfl
        rw [this, setSeatStatus_show_seats, List.forall₂_map_right_iff, List.forall₂_same]
        intro r _
        simp only [BookingRow.owner]
        split_ifs <;> simp

/-- C13 (amended) at a concrete input: the booking of seats A1 and A2 of show 1 is deleted. -/
theorem C13_witness :
    ledgerStore.bookingIdsFresh ∧ ledgerRow2 ∈ ledgerStore.bookings ∧
    (deleteBooking noFaults ledgerStore (some (ledgerRow2.id : Int))).1 = Response.success ∧
    (deleteBooking noFaults ledgerStore (some (ledgerRow2.id : Int)) =
        (Response.success, (deleteBooking noFaults ledgerStore (some 2)).2) →
      (deleteBooking noFaults ledgerStore (some 2)).2.bookings =
        ledgerStore.bookings.filter (fun r => decide (r ≠ ledgerRow2)) ∧
      List.Forall₂ (fun r r' : SeatRow =>
          r'.seat_id = r.seat_id ∧ r'.movie_id = r.movie_id ∧ r'.seat_number = r.seat_number ∧
          r'.status = if Owner.movie r.movie_id = ledgerRow2.owner ∧
              collMem r.seat_number (seatList ledgerRow2.seats)
            then SeatStatus.available else r.status)
        ledgerStore.seats (deleteBooking noFaults ledgerStore (some 2)).2.seats ∧
      List.Forall₂ (fun r r' : ShowSeatRow =>
          r'.id = r.id ∧ r'.show_id = r.show_id ∧ r'.seat_number = r.seat_number ∧
          r'.status = if Owner.show r.show_id = ledgerRow2.owner ∧
              collMem r.seat_number (seatList ledgerRow2.seats)
            then SeatStatus.available else r.status)
        ledgerStore.show_seats (deleteBooking noFaults ledgerStore (some 2)).2.show_seats) :=
  ⟨by unfold Store.bookingIdsFresh; decide, by decide,
    C13_delete_releases_exactly_named_seats noFaults ledgerStore _ ledgerRow2
      (by unfold Store.bookingIdsFresh; decide) (by decide)⟩

/-- C14: for a row spec with the single characters `a` and `b` as labels (`b` below the
surrogate range, as every letter is), `generateDefaultSeats` proposes exactly the labels made of
a character from `a` to `b` followed by the decimal numeral of a number from 1 to `count`, each
once, and nothing when `a` is after `b` or `count` is 0; for a list of row specs it proposes
the labels of each spec in turn; with no config the labels are A1..G12, 84 in all; every
row it adds is an available seat of the movie with a proposed label; and with the insert
answered, on an existing movie, it returns and adds exactly one available seat of the movie
for each proposed label that the store takes for no seat number of the movie, at its first
occurrence, so all the proposed labels, in order, when the store tells them apart and takes
none for a seat number the movie has. -/
theorem C14_generateDefaultSeats_proposes_grid [Collation] (a b : Char) (count : Nat)
    (hb : b.toNat < 0xD800) :
    (∀ x, x ∈ pushRow (String.singleton a) (String.singleton b) count ↔
      ∃ c : Char, a.toNat ≤ c.toNat ∧ c.toNat ≤ b.toNat ∧
        ∃ n, 1 ≤ n ∧ n ≤ count ∧ x = String.singleton c ++ toString n) ∧
    (pushRow (String.singleton a) (String.singleton b) count).Nodup ∧
    (pushRow (String.singleton a) (String.singleton b) count).length =
      (b.toNat + 1 - a.toNat) * count ∧
    (b.toNat < a.toNat ∨ count = 0 →
      pushRow (String.singleton a) (String.singleton b) count = []) ∧
    (∀ specs : List RowSpec, seatsToInsert (some specs) =
      specs.flatMap (fun r => pushRow r.labelFrom r.labelTo r.count)) ∧
    seatsToInsert none =
      ["A1", "A2", "A3", "A4", "A5", "A6", "A7", "A8", "A9", "A10", "A11", "A12", "B1", "B2",
       "B3", "B4", "B5", "B6", "B7", "B8", "B9", "B10", "B11", "B12", "C1", "C2", "C3", "C4",
       "C5", "C6", "C7", "C8", "C9", "C10", "C11", "C12", "D1", "D2", "D3", "D4", "D5", "D6",
       "D7", "D8", "D9", "D10", "D11", "D12", "E1", "E2", "E3", "E4", "E5", "E6", "E7", "E8",
       "E9", "E10", "E11", "E12", "F1", "F2", "F3", "F4", "F5", "F6", "F7", "F8", "F9", "F10",
       "F11", "F12", "G1", "G2", "G3", "G4", "G5", "G6", "G7", "G8", "G9", "G10", "G11", "G12"] ∧
    (seatsToInsert none).length = 84 ∧
    (∀ (f : Faults) (s s' : Store) (movieId : Nat) (config : Option (List RowSpec)),
      generateDefaultSeats f s movieId config = some s' →
      ∃ added : List SeatRow, s'.seats = s.seats ++ added ∧
        ∀ r ∈ added, r.movie_id = movieId ∧ r.status = SeatStatus.available ∧
          r.seat_number ∈ seatsToInsert config) ∧
    (∀ (f : Faults) (s : Store) (movieId : Nat) (config : Option (List RowSpec)),
      f Stmt.seatInsert = false → movieId ∈ s.movies.map (fun m => m.id) →
      ∃ (s' : Store) (added : List SeatRow),
        generateDefaultSeats f s movieId config = some s' ∧ s'.seats = s.seats ++ added ∧
        added.map (fun r => r.seat_number) =
          keepNew (s.seatNumbers movieId) (seatsToInsert config) ∧
        (∀ r ∈ added, r.movie_id = movieId ∧ r.status = SeatStatus.available) ∧
        (((seatsToInsert config).map Collation.key).Nodup →
          (∀ x ∈ seatsToInsert config, ¬ collMem x (s.seatNumbers movieId)) →
          added.map (fun r => r.seat_number) = seatsToInsert config)) := by
  have hbc : charCodeAt0 (String.singleton b) = some b.toNat := by
    rw [charCodeAt0_singleton, if_pos (by omega)]
  obtain ⟨A, hA, hA1, hA2⟩ : ∃ A, charCodeAt0 (String.singleton a) = some A ∧
      (a.toNat ≤ b.toNat → A = a.toNat) ∧ (b.toNat < a.toNat → b.toNat < A) := by
    by_cases ha : a.toNat < 0x10000
    · exact ⟨a.toNat, by rw [charCodeAt0_singleton, if_pos ha], fun _ => rfl, fun h => h⟩
    · refine ⟨0xD800 + (a.toNat - 0x10000) / 0x400, by rw [charCodeAt0_singleton, if_neg ha],
        fun h => by omega, fun _ => by omega⟩
  have hpush := pushRow_eq_gridLabels count hA hbc
  have hlen : b.toNat + 1 - A = b.toNat + 1 - a.toNat := by
    by_cases h : a.toNat ≤ b.toNat
    · rw [hA1 h]
    · have := hA2 (by omega)
      omega
  refine ⟨?_, ?_, ?_, ?_, fun _ => rfl, by decide, by decide,
    fun f s s' movieId config h => generateDefaultSeats_added h, ?_⟩
  rotate_right
  · intro f s movieId config hf hm
    obtain ⟨s', added, g0, g1, g2, g3⟩ := generateDefaultSeats_exact f s movieId config hf hm
    exact ⟨s', added, g0, g1, g2, g3, fun hnd hnew => by rw [g2, keepNew_eq_self hnd hnew]⟩
  · intro x
    rw [hpush, mem_gridLabels]
    constructor
    · rintro ⟨i, j, hi, hj, rfl⟩
      have hab : a.toNat ≤ b.toNat := by
        by_contra hcon
        have := hA2 (by omega)
        omega
      have hAa := hA1 hab
      refine ⟨Char.ofNat (A + i), ?_, ?_, j + 1, by omega, by omega, ?_⟩
      · rw [toNat_ofNat_of_lt _ (by omega)]; omega
      · rw [toNat_ofNat_of_lt _ (by omega)]; omega
      · rw [singleton_eq_fromCharCode _ (by rw [toNat_ofNat_of_lt _ (by omega)]; omega),
          toNat_ofNat_of_lt _ (by omega)]
    · rintro ⟨c, hc1, hc2, n, hn1, hn2, rfl⟩
      have hAa := hA1 (le_trans hc1 hc2)
      refine ⟨c.toNat - A, n - 1, by omega, by omega, ?_⟩
      rw [singleton_eq_fromCharCode c (by omega)]
      have h1 : A + (c.toNat - A) = c.toNat := by omega
      have h2 : n - 1 + 1 = n := by omega
      rw [h1, h2]
  · rw [hpush]
    by_cases h : a.toNat ≤ b.toNat
    · apply nodup_gridLabels
      have := hA1 h
      omega
    · have := hA2 (by omega)
      have hk : b.toNat + 1 - A = 0 := by omega
      rw [hk]
      exact List.nodup_nil
  · rw [hpush, length_gridLabels, hlen]
  · intro h
    have hz : (pushRow (String.singleton a) (String.singleton b) count).length = 0 := by
      rw [hpush, length_gridLabels, hlen]
      rcases h with h | h
      · have : b.toNat + 1 - a.toNat = 0 := by omega
        rw [this, Nat.zero_mul]
      · rw [h, Nat.mul_zero]
    exact List.length_eq_zero.1 hz

/-- C14 at a concrete input: the rows A to C with 12 seats each, and the generation of the
seats A1, A2, A3 for movie 1, which has none. -/
theorem C14_witness :
    'C'.toNat < 0xD800 ∧
    (∀ x, x ∈ pushRow (String.singleton 'A') (String.singleton 'C') 12 ↔
      ∃ c : Char, 'A'.toNat ≤ c.toNat ∧ c.toNat ≤ 'C'.toNat ∧
        ∃ n, 1 ≤ n ∧ n ≤ 12 ∧ x = String.singleton c ++ toString n) ∧
    (pushRow (String.singleton 'A') (String.singleton 'C') 12).Nodup ∧
    (pushRow (String.singleton 'A') (String.singleton 'C') 12).length =
      ('C'.toNat + 1 - 'A'.toNat) * 12 ∧
    (generateDefaultSeats noFaults catalogStore 1 (some rowA3)).map (fun t => t.seats) =
      some [{ seat_id := 1, movie_id := 1, seat_number := "A1" },
            { seat_id := 2, movie_id := 1, seat_number := "A2" },
            { seat_id := 3, movie_id := 1, seat_number := "A3" }] ∧
    ∃ (s' : Store) (added : List SeatRow),
      generateDefaultSeats noFaults catalogStore 1 (some rowA3) = some s' ∧
      s'.seats = catalogStore.seats ++ added ∧
      added.map (fun r => r.seat_number) =
        keepNew (catalogStore.seatNumbers 1) (seatsToInsert (some rowA3)) ∧
      (∀ r ∈ added, r.movie_id = 1 ∧ r.status = SeatStatus.available) ∧
      (((seatsToInsert (some rowA3)).map Collation.key).Nodup →
        (∀ x ∈ seatsToInsert (some rowA3), ¬ collMem x (catalogStore.seatNumbers 1)) →
        added.map (fun r => r.seat_number) = seatsToInsert (some rowA3)) :=
  have h := C14_generateDefaultSeats_proposes_grid 'A' 'C' 12 (by decide)
  ⟨by decide, h.1, h.2.1, h.2.2.1, by decide,
    h.2.2.2.2.2.2.2.2 noFaults catalogStore 1 (some rowA3) rfl (by decide)⟩

/-- C15: when the seat numbers of a movie are pairwise distinct (the unique key
`uq_movie_seat`), they are still pairwise distinct after two seat generations for the movie,
whatever the two lists of row specs and the faults; and when the first generation answered
success, a second generation with the same row specs leaves the table `seats`, and so the
seat set of the movie, as the first left it.  The same holds for the seats of a show and two
runs of `generateSeatsForShow`, whose row specs are the rows and columns of the screen. -/
theorem C15_generation_twice_no_duplicate_seats [Collation] (f1 f2 : Faults) (s : Store) (movieId : Nat)
    (specs1 specs2 : Option (List RowSpec)) (h : (s.seatNumbers movieId).Nodup) :
    ((generateSeats f2 (generateSeats f1 s movieId specs1).2 movieId specs2).2.seatNumbers
      movieId).Nodup ∧
    ((generateSeats f1 s movieId specs1).1 = Response.success →
      (generateSeats f2 (generateSeats f1 s movieId specs1).2 movieId specs1).2.seats =
        (generateSeats f1 s movieId specs1).2.seats ∧
      (generateSeats f2 (generateSeats f1 s movieId specs1).2 movieId specs1).2.inventory
          (Owner.movie movieId) =
        (generateSeats f1 s movieId specs1).2.inventory (Owner.movie movieId)) ∧
    (∀ (showId : Nat) (t u : Store), (s.showSeatNumbers showId).Nodup →
      generateSeatsForShow f1 s showId = some t → generateSeatsForShow f2 t showId = some u →
      (u.showSeatNumbers showId).Nodup ∧ u.show_seats = t.show_seats ∧
      u.inventory (Owner.show showId) = t.inventory (Owner.show showId)) := by
  refine ⟨generateSeats_nodup f2 _ movieId specs2 (generateSeats_nodup f1 s movieId specs1 h),
    fun hs => ?_, fun showId t u hn ht hu => ?_⟩
  · have := generateSeats_again f1 f2 s movieId specs1 hs
    exact ⟨this, by simp only [Store.inventory, this]⟩
  · have := generateSeatsForShow_again ht hu
    exact ⟨generateSeatsForShow_nodup hu (generateSeatsForShow_nodup ht hn), this,
      by simp only [Store.inventory, this]⟩

/-- C15 at a concrete input: movie 1 has the seats A1 and A2; the rows A1..A3 are generated,
then the overlapping rows A1..A4, B1..B4. -/
theorem C15_witness :
    (twoSeatStore.seatNumbers 1).Nodup ∧
    ((generateSeats noFaults (generateSeats noFaults twoSeatStore 1 (some rowA3)).2 1
      (some rowsAB4)).2.seatNumbers 1).Nodup ∧
    (generateSeats noFaults (generateSeats noFaults twoSeatStore 1 (some rowA3)).2 1
      (some rowsAB4)).2.seatNumbers 1 =
      ["A1", "A2", "A3", "A4", "B1", "B2", "B3", "B4"] :=
  ⟨by decide,
    (C15_generation_twice_no_duplicate_seats noFaults noFaults twoSeatStore 1 (some rowA3)
      (some rowsAB4) (by decide)).1,
    by decide⟩

/-- C16 (as the claim states it, refuted): on a screen of 33 rows of 1 seat the call of
`createShow` succeeds and the new show has 32 seats, not 33: the label of row 32 is a1, which
the store takes for the label A1 of row 0, and the row that repeats a label is skipped by
`INSERT IGNORE`. -/
theorem C16_counterexample :
    (createShow noFaults rows33Store (some 1) demoShowRequest).1 = Response.createdShow 1 ∧
    ((createShow noFaults rows33Store (some 1) demoShowRequest).2.showSeatNumbers 1).length =
      32 ∧
    fromCharCode (65 + 32) ++ toString 1 = "a1" ∧
    fromCharCode (65 + 0) ++ toString 1 = "A1" ∧
    collEq "a1" "A1" ∧
    "a1" ∉ (createShow noFaults rows33Store (some 1) demoShowRequest).2.showSeatNumbers 1 := by
  refine ⟨by decide, by decide, by decide, by decide, by decide, by decide⟩

/-- C16 (amended): for every screen with row count R >= 1 whose row letters stay below the
surrogate code units (65 + R <= 0xD800) and column count C >= 1, whose seat labels the store
tells apart (no two of them have the same weights, as is the case up to 32 rows), in a store
whose show ids are below their counter, whose seat rows refer to existing shows and whose
screen ids are pairwise distinct, a successful `createShow` on the screen leaves the new show
with exactly R*C seats, all available and with pairwise distinct seat numbers: for each r in
0..R-1 and c in 1..C the character with code 65 + r followed by the decimal digits of c, in
this order. -/
theorem C16_new_show_has_rows_times_cols_seats [Collation] (f : Faults) (s s' : Store)
    (movieId : Option Nat) (req : ShowRequest) (id : Nat) (screen : ScreenRow)
    (hfresh : s.showIdsFresh)
    (hfk : ∀ r ∈ s.show_seats, r.show_id ∈ s.shows.map (fun sh => sh.id))
    (huniq : (s.screens.map (fun sc => sc.id)).Nodup) (hsc : screen ∈ s.screens)
    (hreq : req.screen_id = some screen.id)
    (hR : 1 ≤ screen.row_count) (hR' : 65 + screen.row_count.toNat ≤ 0xD800)
    (hC : 1 ≤ screen.col_count)
    (hkeys : ((showSeatLabels screen.row_count screen.col_count).map Collation.key).Nodup)
    (h : createShow f s movieId req = (Response.createdShow id, s')) :
    (s'.showSeatNumbers id).length = (screen.row_count * screen.col_count).toNat ∧
    (s'.showSeatNumbers id).Nodup ∧
    (∀ r ∈ s'.show_seats, r.show_id = id → r.status = SeatStatus.available) ∧
    (∀ x, x ∈ s'.showSeatNumbers id ↔
      ∃ r c : Nat, (r : Int) < screen.row_count ∧ 1 ≤ c ∧ (c : Int) ≤ screen.col_count ∧
        x = String.singleton (Char.ofNat (65 + r)) ++ toString c) ∧
    s'.showSeatNumbers id = showSeatLabels screen.row_count screen.col_count := by
  obtain ⟨-, hnum, hav, -⟩ := createShow_seatNumbers hfresh hfk huniq hsc hreq h
  have hnd : (showSeatLabels screen.row_count screen.col_count).Nodup :=
    List.Nodup.of_map _ hkeys
  rw [keepNew_eq_self hkeys (fun x _ hx => collMem_nil x hx)] at hnum
  refine ⟨?_, by rw [hnum]; exact hnd, hav, fun x => by rw [hnum]; exact mem_showSeatLabels hR',
    hnum⟩
  rw [hnum, showSeatLabels_eq_gridLabels, length_gridLabels]
  have h1 : ((screen.row_count.toNat : Nat) : Int) = screen.row_count :=
    Int.toNat_of_nonneg (by omega)
  have h2 : ((screen.col_count.toNat : Nat) : Int) = screen.col_count :=
    Int.toNat_of_nonneg (by omega)
  apply Int.ofNat_inj.1
  rw [Int.toNat_of_nonneg (Int.mul_nonneg (by omega) (by omega))]
  push_cast
  rw [h1, h2]

/-- C16 (amended) at a concrete input: a show on the screen of 3 rows of 4 seats has the 12
seats A1..A4, B1..B4, C1..C4; the store tells the labels of every screen of at most 32 rows
apart. -/
theorem C16_witness :
    catalogStore.showIdsFresh ∧
    ((showSeatLabels 3 4).map Collation.key).Nodup ∧
    (∀ R C : Int, R ≤ 32 → ((showSeatLabels R C).map Collation.key).Nodup) ∧
    (createShow noFaults catalogStore (some 1) demoShowRequest).1 = Response.createdShow 1 ∧
    ((createShow noFaults catalogStore (some 1) demoShowRequest).2.showSeatNumbers 1).length =
      ((3 : Int) * 4).toNat ∧
    (∀ r ∈ (createShow noFaults catalogStore (some 1) demoShowRequest).2.show_seats,
      r.show_id = 1 → r.status = SeatStatus.available) ∧
    (createShow noFaults catalogStore (some 1) demoShowRequest).2.showSeatNumbers 1 =
      ["A1", "A2", "A3", "A4", "B1", "B2", "B3", "B4", "C1", "C2", "C3", "C4"] :=
  have hfresh : catalogStore.showIdsFresh := by
    intro sh hsh
    cases hsh
  have hk : ((showSeatLabels 3 4).map Collation.key).Nodup := by decide
  have h := C16_new_show_has_rows_times_cols_seats noFaults catalogStore
    (createShow noFaults catalogStore (some 1) demoShowRequest).2 (some 1) demoShowRequest 1
    { id := 1, name := "Audi-1", row_count := 3, col_count := 4 } hfresh
    (by intro r hr; cases hr) (by decide) (by decide) rfl (by decide) (by decide) (by decide)
    hk (by decide)
  ⟨hfresh, hk,
    fun R C hR => by
      rw [showSeatLabels_eq_gridLabels]
      exact asciiWeights_gridLabels_nodup _ _ (by omega),
    by decide, h.1, h.2.2.1, by decide⟩

/-- C17 (as the claim states it, refuted): on a screen of 27 rows the seat of the last row
has the number `[1`, whose first character is not a letter. -/
theorem C17_counterexample :
    (createShow noFaults rows27Store (some 1) demoShowRequest).1 = Response.createdShow 1 ∧
    "[1" ∈ (createShow noFaults rows27Store (some 1) demoShowRequest).2.showSeatNumbers 1 ∧
    lettersThenDigits "[1" = false ∧
    fromCharCode (65 + 26) ++ toString 1 = "[1" := by
  decide

/-- C17 (amended): for every screen with at most 26 rows, in a store whose show ids are
below their counter, whose seat rows refer to existing shows and whose screen ids are
pairwise distinct, every seat number of a show created on the screen is a string of letters
A-Z (here one letter) followed by one or more decimal digits. -/
theorem C17_seat_numbers_letters_then_digits [Collation] (f : Faults) (s s' : Store)
    (movieId : Option Nat) (req : ShowRequest) (id : Nat) (screen : ScreenRow)
    (hfresh : s.showIdsFresh)
    (hfk : ∀ r ∈ s.show_seats, r.show_id ∈ s.shows.map (fun sh => sh.id))
    (huniq : (s.screens.map (fun sc => sc.id)).Nodup) (hsc : screen ∈ s.screens)
    (hreq : req.screen_id = some screen.id) (hR : screen.row_count ≤ 26)
    (h : createShow f s movieId req = (Response.createdShow id, s')) :
    (∀ x ∈ s'.showSeatNumbers id, lettersThenDigits x = true) ∧
    (∀ x ∈ showSeatLabels screen.row_count screen.col_count, lettersThenDigits x = true) := by
  have hlab : ∀ x ∈ showSeatLabels screen.row_count screen.col_count,
      lettersThenDigits x = true := by
    intro x hx
    rw [showSeatLabels_eq_gridLabels, mem_gridLabels] at hx
    obtain ⟨i, j, hi, -, rfl⟩ := hx
    exact lettersThenDigits_label i (j + 1) (by omega)
  obtain ⟨-, hnum, -, -⟩ := createShow_seatNumbers hfresh hfk huniq hsc hreq h
  refine ⟨fun x hx => ?_, hlab⟩
  rw [hnum] at hx
  exact hlab x (mem_keepNew hx).1

/-- C17 (amended) at a concrete input: the show on the screen of 3 rows of 4 seats. -/
theorem C17_witness :
    catalogStore.showIdsFresh ∧
    (∀ x ∈ (createShow noFaults catalogStore (some 1) demoShowRequest).2.showSeatNumbers 1,
      lettersThenDigits x = true) :=
  have hfresh : catalogStore.showIdsFresh := by
    intro sh hsh
    cases hsh
  ⟨hfresh, (C17_seat_numbers_letters_then_digits noFaults catalogStore
    (createShow noFaults catalogStore (some 1) demoShowRequest).2 (some 1) demoShowRequest 1
    { id := 1, name := "Audi-1", row_count := 3, col_count := 4 } hfresh
    (by intro r hr; cases hr) (by decide) (by decide) rfl (by decide) (by decide)).1⟩

/-- C18: when the store answers the connection request and the insert, and the request gives
the three fields and a movie id, `createShow` answers Conflict whenever a show with the same
movie, screen, date and time exists, and the store is left as it was; whatever the request
and the faults, an answer Conflict of `createShow` leaves the store as it was, so that no
show row and no seat row is added or changed. -/
theorem C18_duplicate_show_conflict [Collation] (f : Faults) (s : Store) (m sc : Nat) (d t : String)
    (req : ShowRequest) (hsc : req.screen_id = some sc) (hd : req.show_date = some d)
    (ht : req.show_time = some t) (hsc0 : sc ≠ 0) (hd0 : d ≠ "") (ht0 : t ≠ "")
    (hf : f Stmt.getConnection = false ∧ f Stmt.showInsert = false)
    (hdup : ∃ sh ∈ s.shows,
      sh.movie_id = m ∧ sh.screen_id = sc ∧ sh.show_date = d ∧ sh.show_time = t) :
    createShow f s (some m) req = (Response.conflictShow, s) ∧
    (∀ (f' : Faults) (s0 : Store) (movieId : Option Nat) (req' : ShowRequest),
      (createShow f' s0 movieId req').1 = Response.conflictShow →
      (createShow f' s0 movieId req').2 = s0 ∧
      (createShow f' s0 movieId req').2.shows = s0.shows ∧
      (createShow f' s0 movieId req').2.show_seats = s0.show_seats ∧
      (createShow f' s0 movieId req').2.seats = s0.seats) := by
  constructor
  · rcases req with ⟨screen', date, time, format⟩
    simp only at hsc hd ht
    subst hsc hd ht
    have h0 : (!truthyNat (some sc) || !truthyStr (some d) || !truthyStr (some t)) = false := by
      simp [truthyNat, truthyStr, hsc0, hd0, ht0]
    have h3 : showExists s m sc d t = true := by
      obtain ⟨sh, hsh, h1, h2, h3, h4⟩ := hdup
      unfold showExists
      rw [List.any_eq_true]
      exact ⟨sh, hsh, by simp [h1, h2, h3, h4]⟩
    simp only [createShow, h0, hf.1, hf.2, h3, Bool.false_eq_true, if_false, if_true]
  · intro f' s0 movieId req' h
    have := createShow_conflict_store f' s0 movieId req' h
    exact ⟨this, by rw [this], by rw [this], by rw [this]⟩

/-- C18 at a concrete input: show 1 of movie 1 exists on screen 1 at the date and time of the
request. -/
theorem C18_witness :
    (∃ sh ∈ oneShowStore.shows, sh.movie_id = 1 ∧ sh.screen_id = 1 ∧
      sh.show_date = "2025-10-27" ∧ sh.show_time = "18:00:00") ∧
    createShow noFaults oneShowStore (some 1) demoShowRequest =
      (Response.conflictShow, oneShowStore) :=
  ⟨by decide,
    (C18_duplicate_show_conflict noFaults oneShowStore 1 1 "2025-10-27" "18:00:00"
      demoShowRequest rfl rfl rfl (by decide) (by decide) (by decide) ⟨rfl, rfl⟩
      (by decide)).1⟩

/-- C19 (the code against the specification): `createScreen` never answers Conflict; when a
screen with the given name exists and the three fields are given it answers with status 500,
`Failed to create screen`, as for every other error of the insert, and leaves the store as
it was.  The handler of `createShow` maps the duplicate-key error to status 409. -/
theorem C19_duplicate_screen_name_answers_failure [Collation] (f : Faults) (s : Store)
    (req : ScreenRequest) :
    (createScreen f s req).1 ≠ Response.conflictShow ∧
    (∀ l : List String, (createScreen f s req).1 ≠ Response.conflict l) ∧
    (∀ name, req.name = some name → name ≠ "" → truthyInt req.rows = true →
      truthyInt req.cols = true → (∃ sc ∈ s.screens, sc.name = name) →
      createScreen f s req = (Response.failure "Failed to create screen", s)) ∧
    createScreen noFaults catalogStore demoScreenRequest =
      (Response.failure "Failed to create screen", catalogStore) := by
  have key : ∀ r : Response, (createScreen f s req).1 = r →
      r = Response.invalidInput "name, rows, cols required" ∨
      r = Response.failure "Failed to create screen" ∨ r = Response.createdScreen s.nextScreenId := by
    intro r hr
    rw [← hr]
    unfold createScreen
    split_ifs
    · exact Or.inl rfl
    · split
      · split_ifs
        · exact Or.inr (Or.inl rfl)
        · exact Or.inr (Or.inr rfl)
      · exact Or.inl rfl
  have dup : ∀ (g : Faults) (t : Store) (q : ScreenRequest) (name : String),
      q.name = some name → name ≠ "" → truthyInt q.rows = true →
      truthyInt q.cols = true → (∃ sc ∈ t.screens, sc.name = name) →
      createScreen g t q = (Response.failure "Failed to create screen", t) := by
    intro f s req name hn hne hr hc ⟨sc, hsc, hname⟩
    rcases req with ⟨n, rows, cols⟩
    simp only at hn hr hc
    subst hn
    rcases rows with _ | rows
    · simp [truthyInt] at hr
    rcases cols with _ | cols
    · simp [truthyInt] at hc
    have h0 : (!truthyStr (some name) || !truthyInt (some rows) || !truthyInt (some cols)) =
        false := by
      simp [truthyStr, hne, hr, hc]
    have hany : s.screens.any (fun sc => decide (collEq sc.name name)) = true := by
      rw [List.any_eq_true]
      exact ⟨sc, hsc, decide_eq_true (by rw [hname]; rfl)⟩
    simp only [createScreen, h0, hany, Bool.or_true, Bool.false_eq_true, if_false, if_true]
  refine ⟨?_, ?_, dup f s req,
    dup noFaults catalogStore demoScreenRequest "Audi-1" rfl (by decide) rfl rfl
      ⟨_, List.mem_singleton.2 rfl, rfl⟩⟩
  · intro h
    rcases key _ h with h' | h' | h' <;> cases h'
  · intro l h
    rcases key _ h with h' | h' | h' <;> cases h'

/-- C20 (as the claim states it, refuted): for movie 1 with the seats A1, A2 and A10,
`listSeats` returns A1, A10, A2: seat 10 of row A comes before seat 2 of row A. -/
theorem C20_counterexample :
    (listMovieSeats noFaults tenSeatStore 1).map (fun rows => rows.map (fun r => r.seat_number))
      = some ["A1", "A10", "A2"] ∧
    splitSeat "A10" = ("A", 10) ∧ splitSeat "A2" = ("A", 2) ∧
    (listShowSeats noFaults
      { tenSeatStore with
        show_seats := [{ id := 1, show_id := 1, seat_number := "A2" },
                       { id := 2, show_id := 1, seat_number := "A10" }] } 1).map
      (fun rows => rows.map (fun r => r.seat_number)) = some ["A10", "A2"] := by
  decide

/-- C20 (amended): for every owner, the sequence returned by `listSeats` is a rearrangement
of the owner's seat rows that is sorted by seat number as the store orders strings, by the
weights of their characters from left to right (so that in a row of ten or more seats A10
comes before A2). -/
theorem C20_listSeats_sorted_by_seat_number_as_string [Collation] (f : Faults) (s : Store)
    (id : Nat) (hf : f Stmt.seatSelect = false) :
    (∃ rows, listMovieSeats f s id = some rows ∧
      rows.Perm (s.seats.filter (fun r => r.movie_id = id)) ∧
      rows.Pairwise (fun a b =>
        weightLe (Collation.key a.seat_number) (Collation.key b.seat_number) = true)) ∧
    (∃ rows, listShowSeats f s id = some rows ∧
      rows.Perm (s.show_seats.filter (fun r => r.show_id = id)) ∧
      rows.Pairwise (fun a b =>
        weightLe (Collation.key a.seat_number) (Collation.key b.seat_number) = true)) := by
  constructor
  · refine ⟨orderBySeatNumber (s.seats.filter (fun r => r.movie_id = id)),
      by simp only [listMovieSeats, hf, Bool.false_eq_true, if_false], ?_, ?_⟩
    · exact List.perm_insertionSort _ _
    · haveI := seatNumberLeTotal
      haveI := seatNumberLeTrans
      exact List.sorted_insertionSort _ _
  · refine ⟨orderByShowSeatNumber (s.show_seats.filter (fun r => r.show_id = id)),
      by simp only [listShowSeats, hf, Bool.false_eq_true, if_false], ?_, ?_⟩
    · exact List.perm_insertionSort _ _
    · haveI := showSeatNumberLeTotal
      haveI := showSeatNumberLeTrans
      exact List.sorted_insertionSort _ _

/-- C20 (amended) at a concrete input: the seats A1, A2, A10 of movie 1, and the seats B1, a1,
A2, which are listed in the order a1, A2, B1. -/
theorem C20_witness :
    noFaults Stmt.seatSelect = false ∧
    (listMovieSeats noFaults mixedCaseStore 1).map
      (fun rows => rows.map (fun r => r.seat_number)) = some ["a1", "A2", "B1"] ∧
    ∃ rows, listMovieSeats noFaults tenSeatStore 1 = some rows ∧
      rows.Perm (tenSeatStore.seats.filter (fun r => r.movie_id = 1)) ∧
      rows.Pairwise (fun a b =>
        weightLe (Collation.key a.seat_number) (Collation.key b.seat_number) = true) :=
  ⟨rfl, by decide,
    (C20_listSeats_sorted_by_seat_number_as_string noFaults tenSeatStore 1 rfl).1⟩

/-- C21 (as the claim states it, refuted): a bulk update of movie 1 with the one entry Z9,
which is no seat of the movie, answers with the count 1 and updates no row; with the entry
A1 given twice it answers with the count 2 and updates one row.  The same for show 1. -/
theorem C21_counterexample :
    patchMovieSeats noFaults demoStore 1
      (some [{ seat_number := "Z9", status := SeatStatus.booked }]) =
        (Response.updated 1, demoStore) ∧
    demoStore.seatsNamed 1 [{ seat_number := "Z9", status := SeatStatus.booked }] = [] ∧
    (patchMovieSeats noFaults demoStore 1
      (some [{ seat_number := "A1", status := SeatStatus.booked },
             { seat_number := "A1", status := SeatStatus.booked }])).1 = Response.updated 2 ∧
    (demoStore.seatsNamed 1 [{ seat_number := "A1", status := SeatStatus.booked },
      { seat_number := "A1", status := SeatStatus.booked }]).length = 1 ∧
    patchShowSeats noFaults demoStore 1
      (some [{ seat_number := "Z9", status := SeatStatus.booked }]) =
        (Response.updated 1, demoStore) ∧
    demoStore.showSeatsNamed 1 [{ seat_number := "Z9", status := SeatStatus.booked }] = [] := by
  decide

/-- C21 (amended): for every owner and every non-empty list of entries, the count returned
by the bulk update, when it answers with a count (it does when the store answers), is the
number of entries of the list; this is the number of seat rows of the owner that the entries
name when the seat numbers of the entries are pairwise distinct, those of the owner are
pairwise distinct, and every entry names a seat of the owner. -/
theorem C21_count_is_number_of_entries [Collation] (f : Faults) (s : Store) (id : Nat)
    (l : List SeatPatch) (hl : l ≠ []) :
    (∀ n s', patchMovieSeats f s id (some l) = (Response.updated n, s') → n = l.length) ∧
    (∀ n s', patchShowSeats f s id (some l) = (Response.updated n, s') → n = l.length) ∧
    (patchMovieSeats noFaults s id (some l)).1 = Response.updated l.length ∧
    (patchShowSeats noFaults s id (some l)).1 = Response.updated l.length ∧
    ((l.map (fun u => u.seat_number)).Nodup →
      ((s.seatNumbers id).Nodup → (∀ u ∈ l, u.seat_number ∈ s.seatNumbers id) →
        (s.seatsNamed id l).length = l.length) ∧
      ((s.showSeatNumbers id).Nodup → (∀ u ∈ l, u.seat_number ∈ s.showSeatNumbers id) →
        (s.showSeatsNamed id l).length = l.length)) := by
  have hlen : l.length ≠ 0 := fun h => hl (List.length_eq_zero.1 h)
  refine ⟨?_, ?_, ?_, ?_, ?_⟩
  · intro n s' h
    have h1 := congrArg Prod.fst h
    simp only [patchMovieSeats, hlen, if_false] at h1
    rcases doUpdate_response f id l.length l 0 s with h2 | h2
    · rw [h2] at h1
      exact (Response.updated.inj h1).symm
    · rw [h2] at h1
      cases h1
  · intro n s' h
    have h1 := congrArg Prod.fst h
    simp only [patchShowSeats, hlen, if_false] at h1
    rcases doNext_response f id l.length l 0 s with h2 | h2
    · rw [h2] at h1
      exact (Response.updated.inj h1).symm
    · rw [h2] at h1
      cases h1
  · simp only [patchMovieSeats, hlen, if_false]
    exact doUpdate_noFaults id l.length l 0 s
  · simp only [patchShowSeats, hlen, if_false]
    exact doNext_noFaults id l.length l 0 s
  · intro hnd
    constructor
    · intro hs hcover
      rw [seatsNamed_eq, length_named _ _ _ hs hnd, List.length_map]
      intro n hn
      obtain ⟨u, hu, rfl⟩ := List.mem_map.1 hn
      exact hcover u hu
    · intro hs hcover
      rw [showSeatsNamed_eq, length_named _ _ _ hs hnd, List.length_map]
      intro n hn
      obtain ⟨u, hu, rfl⟩ := List.mem_map.1 hn
      exact hcover u hu

/-- C21 (amended) at a concrete input: the seats A1 and A3 of movie 1 are set to booked. -/
theorem C21_witness :
    ([{ seat_number := "A1", status := SeatStatus.booked },
      { seat_number := "A3", status := SeatStatus.booked }] : List SeatPatch) ≠ [] ∧
    (patchMovieSeats noFaults demoStore 1
      (some [{ seat_number := "A1", status := SeatStatus.booked },
             { seat_number := "A3", status := SeatStatus.booked }])).1 = Response.updated 2 ∧
    (demoStore.seatsNamed 1 [{ seat_number := "A1", status := SeatStatus.booked },
      { seat_number := "A3", status := SeatStatus.booked }]).length = 2 :=
  ⟨by decide,
    (C21_count_is_number_of_entries noFaults demoStore 1
      [{ seat_number := "A1", status := SeatStatus.booked },
       { seat_number := "A3", status := SeatStatus.booked }] (by decide)).2.2.1,
    by decide⟩

/-- C22: if the request is valid, the user is not blocked, no requested seat is booked, the
foreign keys of the new row hold and every statement up to the seat update succeeds, but the
user upsert fails, then `createBooking` answers with status 500 and rolls back the ledger
insert and the seat update: no ledger row of the attempt exists and every seat, and every
user row, is as before the call. -/
theorem C22_upsert_failure_aborts_booking [Collation] (now : Nat) (f : Faults) (s : Store)
    (req : BookingRequest) (u : String) (m : Nat) (str : String) (p : Int)
    (hu : req.username = some u) (hm : req.movie_id = some m) (hs : req.seats = some str)
    (hp : req.total_price = some p) (hu' : u ≠ "") (hm' : m ≠ 0) (hs' : str ≠ "")
    (hl : seatList str ≠ [])
    (hf : f Stmt.blockedLookup = false ∧ f Stmt.getConnection = false ∧
      f Stmt.beginTransaction = false ∧ f Stmt.availabilityQuery = false ∧
      f Stmt.ledgerInsert = false ∧ f Stmt.seatUpdate = false)
    (hup : f Stmt.userUpsert = true)
    (hnb : (selectBlocked s u).head? ≠ some true)
    (hfree : selectBooked s m req.show_id (seatList str) = [])
    (hfk : bookingForeignKeysOk s m (orNullNat req.show_id) = true) :
    createBooking now f s req =
      (Response.failure "Failed to create booking",
        rollback s
          (setSeatStatus
            (insertBooking s u (orNullNat req.user_id) (orNullStr req.user_email) m
              (orNullNat req.show_id) str p)
            m req.show_id SeatStatus.booked (seatList str))) ∧
    (createBooking now f s req).2.bookings = s.bookings ∧
    (createBooking now f s req).2.seats = s.seats ∧
    (createBooking now f s req).2.show_seats = s.show_seats ∧
    (createBooking now f s req).2.users = s.users := by
  obtain ⟨hf1, hf2, hf3, hf4, hf5, hf6⟩ := hf
  have h : createBooking now f s req =
      (Response.failure "Failed to create booking",
        rollback s
          (setSeatStatus
            (insertBooking s u (orNullNat req.user_id) (orNullStr req.user_email) m
              (orNullNat req.show_id) str p)
            m req.show_id SeatStatus.booked (seatList str))) := by
    rw [createBooking_of_fields now f s hu hm hs hp hu' hm' hs' hl]
    simp only [hf1, hf2, hf3, hnb, Bool.false_eq_true, if_false]
    unfold bookingTransaction
    simp only [hf4, hf5, hf6, hup, hfree, hfk, Bool.false_eq_true, if_false, if_true,
      List.length_nil, gt_iff_lt, Nat.lt_irrefl, Bool.not_true, Bool.or_self]
  rw [h]
  exact ⟨rfl, rfl, rfl, rfl, rfl⟩

/-- C22 at a concrete input: user bob books the free seats A1 and A3 of movie 1 and the user
upsert fails. -/
theorem C22_witness :
    upsertFails Stmt.userUpsert = true ∧
    (createBooking 7 upsertFails demoStore demoRequestFree).1 =
      Response.failure "Failed to create booking" ∧
    (createBooking 7 upsertFails demoStore demoRequestFree).2.bookings = demoStore.bookings ∧
    (createBooking 7 upsertFails demoStore demoRequestFree).2.seats = demoStore.seats ∧
    (createBooking 7 upsertFails demoStore demoRequestFree).2.show_seats =
      demoStore.show_seats :=
  have h := C22_upsert_failure_aborts_booking 7 upsertFails demoStore demoRequestFree "bob" 1
    "A1, A3" 76272 rfl rfl rfl rfl (by decide) (by decide) (by decide) (by decide)
    ⟨rfl, rfl, rfl, rfl, rfl, rfl⟩ rfl (by decide) (by decide) (by decide)
  ⟨rfl, by rw [h.1], h.2.1, h.2.2.1, h.2.2.2.1⟩

/-- C23: the scenario on a fresh show created on the screen of 3 rows of 4 seats: the show
has the 12 seats A1..C4, all available; the booking of A1 and A2 succeeds and makes them
booked; the following booking of A2 and A3 is answered Conflict with exactly the seat A2 and
changes nothing; the deletion of the first booking succeeds and makes A1 and A2 available
again; A3 is available after every step. -/
theorem C23_scenario_book_conflict_delete :
    (createShow noFaults catalogStore (some 1) demoShowRequest).1 = Response.createdShow 1 ∧
    scenarioShow.inventory (Owner.show 1) =
      [("A1", available), ("A2", available), ("A3", available), ("A4", available),
       ("B1", available), ("B2", available), ("B3", available), ("B4", available),
       ("C1", available), ("C2", available), ("C3", available), ("C4", available)] ∧
    (createBooking 7 noFaults scenarioShow demoRequestShow).1 = Response.created 1 ∧
    scenarioBooked.statusOf (Owner.show 1) "A1" = [booked] ∧
    scenarioBooked.statusOf (Owner.show 1) "A2" = [booked] ∧
    scenarioBooked.statusOf (Owner.show 1) "A3" = [available] ∧
    createBooking 8 noFaults scenarioBooked demoRequestShowA2A3 =
      (Response.conflict ["A2"], scenarioBooked) ∧
    scenarioRefused.statusOf (Owner.show 1) "A3" = [available] ∧
    (deleteBooking noFaults scenarioRefused (some 1)).1 = Response.success ∧
    scenarioDeleted.statusOf (Owner.show 1) "A1" = [available] ∧
    scenarioDeleted.statusOf (Owner.show 1) "A2" = [available] ∧
    scenarioDeleted.statusOf (Owner.show 1) "A3" = [available] ∧
    scenarioDeleted.bookings = [] ∧
    scenarioDeleted.show_seats = scenarioShow.show_seats := by
  decide

/-- C24: for every list of seat identifiers that are non-empty, contain no comma and have no
whitespace at their ends, the seat list parsed by the server from the string the client
builds by joining the identifiers with a comma and a space is the list of the identifiers,
in their order. -/
theorem C24_parse_of_joined_seats (ids : List String)
    (h : ∀ x ∈ ids, x ≠ "" ∧ ',' ∉ x.data ∧
      (∀ c, x.data.head? = some c → isJsWhitespace c = false) ∧
      (∀ c, x.data.getLast? = some c → isJsWhitespace c = false)) :
    seatList (joinSeats ids) = ids := by
  cases ids with
  | nil => rfl
  | cons x rest =>
    have := seatList_joinSeats_aux rest x [] (by intro c hc; cases hc) h
    rwa [List.nil_append] at this

/-- C24 at a concrete input: the seats A1, A2 and B10. -/
theorem C24_witness :
    joinSeats ["A1", "A2", "B10"] = "A1, A2, B10" ∧
    seatList (joinSeats ["A1", "A2", "B10"]) = ["A1", "A2", "B10"] :=
  ⟨by decide, C24_parse_of_joined_seats ["A1", "A2", "B10"] (by decide)⟩

/-- C25 (as the claim states it, refuted): movie 1 has the seat A1, available, and the ledger
is empty; after the one call of `createBooking` for the seat a1, which the store takes for
A1, seat A1 is booked and its number is in the parsed seat list of no ledger row. -/
theorem C25_counterexample :
    oneSeatStore.bookings = [] ∧
    (∀ r ∈ oneSeatStore.seats, r.status = SeatStatus.available) ∧
    (∀ r ∈ oneSeatStore.show_seats, r.status = SeatStatus.available) ∧
    ("A1", SeatStatus.booked) ∈
      (runCalls oneSeatStore [BookingCall.create 7 noFaults demoRequestLowerA1]).inventory
        (Owner.movie 1) ∧
    (¬ ∃ b ∈ (runCalls oneSeatStore [BookingCall.create 7 noFaults demoRequestLowerA1]).bookings,
      b.owner = Owner.movie 1 ∧ "A1" ∈ seatList b.seats) ∧
    ¬ (runCalls oneSeatStore
      [BookingCall.create 7 noFaults demoRequestLowerA1]).bookedIffListed := by
  refine ⟨by decide, by decide, by decide, by decide, by decide, ?_⟩
  intro h
  have h1 := (h (Owner.movie 1) "A1" SeatStatus.booked (by decide)).1 rfl
  revert h1
  decide

/-- C25 (amended): from a state with an empty ledger and every seat available (and show ids
below their counter), after every finite sequence of `createBooking` and `deleteBooking`
calls, whatever the requests, the ids and the faults: a seat number of an owner's inventory
that the store takes for a number of the parsed seat lists of two ledger rows of that owner
is in one and the same row, and a seat of an owner is booked if and only if the store takes
its number for a number of the parsed seat list of a ledger row of that owner. -/
theorem C25_ledger_disjoint_and_booked_iff [Collation] (s0 : Store)
    (calls : List BookingCall)
    (hl : s0.bookings = []) (hs : ∀ r ∈ s0.seats, r.status = SeatStatus.available)
    (hss : ∀ r ∈ s0.show_seats, r.status = SeatStatus.available) (hsh : s0.showIdsFresh) :
    (∀ b1 ∈ (runCalls s0 calls).bookings, ∀ b2 ∈ (runCalls s0 calls).bookings,
      b1.owner = b2.owner →
      ∀ n, collMem n (seatList b1.seats) → collMem n (seatList b2.seats) →
      (∃ st, (n, st) ∈ (runCalls s0 calls).inventory b1.owner) → b1 = b2) ∧
    (∀ (o : Owner) (n : String) (st : SeatStatus), (n, st) ∈ (runCalls s0 calls).inventory o →
      (st = SeatStatus.booked ↔
        ∃ b ∈ (runCalls s0 calls).bookings, b.owner = o ∧ collMem n (seatList b.seats))) := by
  have hi := bookingInvariant_of_reachable (bookingInvariant_of_clean hl hs hss hsh)
    (reachable_runCalls s0 calls BookingReachable.start)
  refine ⟨?_, hi.1⟩
  intro b1 hb1 b2 hb2 ho n h1 h2 hinv
  exact eq_of_id_eq hi.2.1.1 hb1 hb2 (hi.2.2.1 b1 hb1 b2 hb2 ho n h1 h2 hinv)

/-- C25 (amended) at a concrete input: on the show of the scenario, seats A1 and A2 are
booked, a booking of A2 and A3 is refused, seats B1 and B2 are booked under the numbers B1
and b2, and the first booking is deleted: ledger row 2 is left, and B1 and B2 are booked. -/
theorem C25_witness :
    scenarioShow.bookings = [] ∧
    (∀ r ∈ scenarioShow.seats, r.status = SeatStatus.available) ∧
    (∀ r ∈ scenarioShow.show_seats, r.status = SeatStatus.available) ∧
    scenarioShow.showIdsFresh ∧
    (runCalls scenarioShow
      [BookingCall.create 7 noFaults demoRequestShow,
       BookingCall.create 8 noFaults demoRequestShowA2A3,
       BookingCall.create 9 noFaults demoRequestShowB,
       BookingCall.delete noFaults (some 1)]).bookings.map (fun b => (b.id, b.seats)) =
      [(2, "B1, b2")] ∧
    (runCalls scenarioShow
      [BookingCall.create 7 noFaults demoRequestShow,
       BookingCall.create 8 noFaults demoRequestShowA2A3,
       BookingCall.create 9 noFaults demoRequestShowB,
       BookingCall.delete noFaults (some 1)]).showSeatNumbers 1 =
      ["A1", "A2", "A3", "A4", "B1", "B2", "B3", "B4", "C1", "C2", "C3", "C4"] ∧
    (runCalls scenarioShow
      [BookingCall.create 7 noFaults demoRequestShow,
       BookingCall.create 8 noFaults demoRequestShowA2A3,
       BookingCall.create 9 noFaults demoRequestShowB,
       BookingCall.delete noFaults (some 1)]).statusOf (Owner.show 1) "B2" =
      [SeatStatus.booked] ∧
    (∀ b1 ∈ (runCalls scenarioShow
        [BookingCall.create 7 noFaults demoRequestShow,
         BookingCall.create 8 noFaults demoRequestShowA2A3,
         BookingCall.create 9 noFaults demoRequestShowB,
         BookingCall.delete noFaults (some 1)]).bookings,
      ∀ b2 ∈ (runCalls scenarioShow
        [BookingCall.create 7 noFaults demoRequestShow,
         BookingCall.create 8 noFaults demoRequestShowA2A3,
         BookingCall.create 9 noFaults demoRequestShowB,
         BookingCall.delete noFaults (some 1)]).bookings,
      b1.owner = b2.owner →
      ∀ n, collMem n (seatList b1.seats) → collMem n (seatList b2.seats) →
      (∃ st, (n, st) ∈ (runCalls scenarioShow
        [BookingCall.create 7 noFaults demoRequestShow,
         BookingCall.create 8 noFaults demoRequestShowA2A3,
         BookingCall.create 9 noFaults demoRequestShowB,
         BookingCall.delete noFaults (some 1)]).inventory b1.owner) → b1 = b2) ∧
    (∀ (o : Owner) (n : String) (st : SeatStatus),
      (n, st) ∈ (runCalls scenarioShow
        [BookingCall.create 7 noFaults demoRequestShow,
         BookingCall.create 8 noFaults demoRequestShowA2A3,
         BookingCall.create 9 noFaults demoRequestShowB,
         BookingCall.delete noFaults (some 1)]).inventory o →
      (st = SeatStatus.booked ↔
        ∃ b ∈ (runCalls scenarioShow
          [BookingCall.create 7 noFaults demoRequestShow,
           BookingCall.create 8 noFaults demoRequestShowA2A3,
           BookingCall.create 9 noFaults demoRequestShowB,
           BookingCall.delete noFaults (some 1)]).bookings,
          b.owner = o ∧ collMem n (seatList b.seats))) :=
  have hsh : scenarioShow.showIdsFresh := by unfold Store.showIdsFresh; decide
  have h := C25_ledger_disjoint_and_booked_iff scenarioShow
    [BookingCall.create 7 noFaults demoRequestShow,
     BookingCall.create 8 noFaults demoRequestShowA2A3,
     BookingCall.create 9 noFaults demoRequestShowB,
     BookingCall.delete noFaults (some 1)]
    (by decide) (by decide) (by decide) hsh
  ⟨by decide, by decide, by decide, hsh, by decide, by decide, by decide, h.1, h.2⟩

/-- C26 (the code against its own account): the handler of the delete of a booking is to free
the seats of the booking.  Ledger row 2 is created with the show id 1 for the seats A1 and A2
of the show, while ledger row 1 holds seat A1 of movie 1.  After show 1 is deleted the schema
has set the show id of row 2 to null, and the delete of row 2 then sets seat A1 of movie 1 to
available: a movie-scoped seat that the booking never held and that ledger row 1 still
lists. -/
theorem C26_delete_after_show_deletion_frees_movie_seat :
    demoRequestShow.show_id = some 1 ∧
    (bothBooked.bookings.map (fun b => (b.id, b.show_id, b.seats))) =
      [(1, none, "A1"), (2, some 1, "A1,A2")] ∧
    (deleteShow noFaults bothBooked 1).1 = Response.success ∧
    (showDeleted.bookings.map (fun b => (b.id, b.show_id, b.seats))) =
      [(1, none, "A1"), (2, none, "A1,A2")] ∧
    showDeleted.statusOf (Owner.movie 1) "A1" = [booked] ∧
    (deleteBooking noFaults showDeleted (some 2)).1 = Response.success ∧
    (deleteBooking noFaults showDeleted (some 2)).2.statusOf (Owner.movie 1) "A1" =
      [available] ∧
    (deleteBooking noFaults showDeleted (some 2)).2.bookings.map
      (fun b => (b.id, b.show_id, b.seats)) = [(1, none, "A1")] ∧
    (deleteBooking noFaults bothBooked (some 2)).2.statusOf (Owner.movie 1) "A1" =
      [booked] := by
  decide

/-- C27: seat generation for a movie leaves every row of `seats` as it was (a booked seat
stays booked) and appends only available seats of the movie whose numbers the movie did not
have, each number once, among the proposed ones, and leaves the seats of the shows as they
were; the same holds for `generateSeatsForShow` and the seats of the show. -/
theorem C27_generation_keeps_existing_seats [Collation] (f : Faults) (s : Store) (id : Nat)
    (specs : Option (List RowSpec)) :
    (∃ added : List SeatRow,
      (generateSeats f s id specs).2.seats = s.seats ++ added ∧
      (∀ r ∈ added, r.movie_id = id ∧ r.status = SeatStatus.available ∧
        r.seat_number ∉ s.seatNumbers id ∧ r.seat_number ∈ seatsToInsert specs) ∧
      (added.map (fun r => r.seat_number)).Nodup ∧
      (generateSeats f s id specs).2.show_seats = s.show_seats) ∧
    (∀ t : Store, generateSeatsForShow f s id = some t →
      ∃ added : List ShowSeatRow,
        t.show_seats = s.show_seats ++ added ∧
        (∀ r ∈ added, r.show_id = id ∧ r.status = SeatStatus.available ∧
          r.seat_number ∉ s.showSeatNumbers id) ∧
        (added.map (fun r => r.seat_number)).Nodup ∧ t.seats = s.seats) := by
  constructor
  · have hnil : ∃ added : List SeatRow, s.seats = s.seats ++ added ∧
        (∀ r ∈ added, r.movie_id = id ∧ r.status = SeatStatus.available ∧
          r.seat_number ∉ s.seatNumbers id ∧ r.seat_number ∈ seatsToInsert specs) ∧
        (added.map (fun r => r.seat_number)).Nodup ∧ s.show_seats = s.show_seats :=
      ⟨[], by simp, by simp, by simp, rfl⟩
    unfold generateSeats
    rcases generateDefaultSeats_cases f s id specs with h1 | h1 | h1
    · rw [h1.2]; exact hnil
    · rw [h1.2.2]; exact hnil
    · rw [h1.2.2]
      obtain ⟨added, g1, g2, -, g4⟩ := insertIgnoreSeats_rows id (seatsToInsert specs) s
      have hshow := (insertIgnoreSeats_spec id (seatsToInsert specs) s).choose_spec.2.2.1
      rcases g2 with g2 | g2
      · refine ⟨added, g1, ?_, by rw [g2]; exact keepNew_nodup _ _, hshow⟩
        intro r hr
        have hm : r.seat_number ∈ keepNew (s.seatNumbers id) (seatsToInsert specs) := by
          rw [← g2]; exact List.mem_map_of_mem _ hr
        exact ⟨(g4 r hr).1, (g4 r hr).2, fun hx => (mem_keepNew hm).2 (collMem_of_mem hx),
          (mem_keepNew hm).1⟩
      · subst g2
        exact ⟨[], g1, by simp, by simp, hshow⟩
  · intro t ht
    obtain ⟨showRow, screen, -, -, -, -, rfl⟩ := generateSeatsForShow_cases ht
    obtain ⟨added, g1, g2, -, g4⟩ :=
      insertIgnoreShowSeats_rows id (showSeatLabels screen.row_count screen.col_count) s
    have hseats := (insertIgnoreShowSeats_spec id
      (showSeatLabels screen.row_count screen.col_count) s).choose_spec.2.2.1
    rcases g2 with g2 | g2
    · refine ⟨added, g1, ?_, by rw [g2]; exact keepNew_nodup _ _, hseats⟩
      intro r hr
      have hm : r.seat_number ∈ keepNew (s.showSeatNumbers id)
          (showSeatLabels screen.row_count screen.col_count) := by
        rw [← g2]; exact List.mem_map_of_mem _ hr
      exact ⟨(g4 r hr).1, (g4 r hr).2, fun hx => (mem_keepNew hm).2 (collMem_of_mem hx)⟩
    · subst g2
      exact ⟨[], g1, by simp, by simp, hseats⟩

/-- C28 (as the claim states it, refuted): for the time strings `13:` and `13::00`, whose
hour is 13 and whose minutes field is empty, `formatTime` returns `1:00 PM`: the minutes shown
are 00, not the minutes field as given. -/
theorem C28_counterexample :
    parseInt10 "13".data = some 13 ∧
    formatTime (some ("13" ++ ":" ++ "")) = "1:00 PM" ∧
    formatTime (some ("13" ++ ":" ++ "" ++ ":" ++ "00")) = "1:00 PM" ∧
    toString (if 13 % 12 = 0 then 12 else 13 % 12) ++ ":" ++ "" ++ " " ++
      (if 13 < 12 then "AM" else "PM") = "1: PM" ∧
    formatTime (some ("13" ++ ":" ++ "")) ≠
      toString (if 13 % 12 = 0 then 12 else 13 % 12) ++ ":" ++ "" ++ " " ++
        (if 13 < 12 then "AM" else "PM") := by
  decide

/-- C28 (amended): for every time string `H:M` or `H:M:S` whose hour field is parsed by
`parseInt` to an integer h in 0..23, `formatTime` returns `d:M AM` or `d:M PM` where d is h
mod 12 with 0 replaced by 12 (so d is in 1..12), M is the minutes field as given, or 00 when
the minutes field is empty, and the suffix is AM exactly when h < 12; for an empty or a
missing time it returns the empty string. -/
theorem C28_formatTime_twelve_hour_clock (H M S : String) (h : Nat) (hH : ':' ∉ H.data)
    (hM : ':' ∉ M.data) (hparse : parseInt10 H.data = some (h : Int)) (hr : h ≤ 23) :
    formatTime (some (H ++ ":" ++ M)) =
      toString (if h % 12 = 0 then 12 else h % 12) ++ ":" ++ (if M = "" then "00" else M) ++
        " " ++ (if h < 12 then "AM" else "PM") ∧
    formatTime (some (H ++ ":" ++ M ++ ":" ++ S)) =
      toString (if h % 12 = 0 then 12 else h % 12) ++ ":" ++ (if M = "" then "00" else M) ++
        " " ++ (if h < 12 then "AM" else "PM") ∧
    1 ≤ (if h % 12 = 0 then 12 else h % 12) ∧ (if h % 12 = 0 then 12 else h % 12) ≤ 12 ∧
    formatTime (some "") = "" ∧ formatTime none = "" := by
  have h1 : H ++ ":" ++ M = String.mk (H.data ++ ':' :: M.data ++ []) := by
    apply String.ext
    simp [String.data_append]
  have h2 : H ++ ":" ++ M ++ ":" ++ S = String.mk (H.data ++ ':' :: M.data ++ ':' :: S.data) := by
    apply String.ext
    simp [String.data_append]
  refine ⟨?_, ?_, ?_, ?_, rfl, rfl⟩
  · rw [h1, formatTime_fields H M [] hH hM (Or.inl rfl), hparse, displayHour_of_hour h hr,
      ampm_of_hour]
  · rw [h2, formatTime_fields H M (':' :: S.data) hH hM (Or.inr ⟨_, rfl⟩), hparse,
      displayHour_of_hour h hr, ampm_of_hour]
  · split_ifs <;> omega
  · split_ifs <;> omega

/-- C28 (amended) at a concrete input: the times 13:05:00, 00:30, 12:00, 09:15:00 and the
time 13: with an empty minutes field. -/
theorem C28_witness :
    parseInt10 "13".data = some ((13 : Nat) : Int) ∧
    formatTime (some ("13" ++ ":" ++ "05" ++ ":" ++ "00")) = "1:05 PM" ∧
    formatTime (some ("13" ++ ":" ++ "")) = "1:00 PM" ∧
    formatTime (some "00:30") = "12:30 AM" ∧ formatTime (some "12:00") = "12:00 PM" ∧
    formatTime (some "09:15:00") = "9:15 AM" :=
  ⟨by decide,
    (C28_formatTime_twelve_hour_clock "13" "05" "00" 13 (by decide) (by decide)
      (by decide) (by decide)).2.1,
    (C28_formatTime_twelve_hour_clock "13" "" "" 13 (by decide) (by decide)
      (by decide) (by decide)).1,
    by decide, by decide, by decide⟩

/-- C29 (as the claim states it, refuted): the seats A9007199254740993 and A9007199254740992
of row A, given in this order, are shown in this order: `parseInt` reads both numbers as the
double 9007199254740992, the comparator returns 0 and the stable sort keeps the order of the
input, which is not the order of the numeric values of the digits. -/
theorem C29_counterexample :
    digitsNat "9007199254740993".data = 9007199254740993 ∧
    digitsNat "9007199254740992".data = 9007199254740992 ∧
    splitSeat "A9007199254740993" = ("A", 9007199254740992) ∧
    splitSeat "A9007199254740992" = ("A", 9007199254740992) ∧
    compareSeats "A9007199254740993" "A9007199254740992" = 0 ∧
    (renderGridOrder hugeRows).map (fun r => r.seat_number) =
      ["A9007199254740993", "A9007199254740992"] := by
  decide

/-- C29 (amended): for every list of seats whose numbers are letters followed by digits that
write a number below 2^53 (every seat number the store holds is one: the column has ten
characters), the order in which the admin seat grid shows the list is a rearrangement of the
list that is sorted by the upper-cased row letters first and, for equal rows, by the
number, where the row letters of a seat are its letters in capitals and its number is the
number its digits write; so A2 comes before A10 and the seats of row A before those of row
B. -/
theorem C29_renderGrid_sorted_by_row_then_number (data : List SeatRow)
    (hdata : ∀ r ∈ data, ∃ ls ds : List Char, ls ≠ [] ∧ ds ≠ [] ∧
      (∀ c ∈ ls, isAsciiLetter c = true) ∧ (∀ c ∈ ds, c.isDigit = true) ∧
      digitsNat ds < 2 ^ 53 ∧ r.seat_number = String.mk (ls ++ ds)) :
    (renderGridOrder data).Perm data ∧
    (renderGridOrder data).Pairwise
      (fun a b => rowThenNumberLe a.seat_number b.seat_number) ∧
    (∀ r ∈ renderGridOrder data, ∃ ls ds : List Char, r.seat_number = String.mk (ls ++ ds) ∧
      (∀ c ∈ ls, isAsciiLetter c = true) ∧ (∀ c ∈ ds, c.isDigit = true) ∧
      splitSeat r.seat_number = (String.mk (ls.map Char.toUpper), digitsNat ds)) ∧
    (∀ ls ds : List Char, ls ≠ [] → ds ≠ [] → (∀ c ∈ ls, isAsciiLetter c = true) →
      (∀ c ∈ ds, c.isDigit = true) → digitsNat ds < 2 ^ 53 →
      splitSeat (String.mk (ls ++ ds)) = (String.mk (ls.map Char.toUpper), digitsNat ds)) := by
  have hsplit : ∀ ls ds : List Char, ls ≠ [] → ds ≠ [] → (∀ c ∈ ls, isAsciiLetter c = true) →
      (∀ c ∈ ds, c.isDigit = true) → digitsNat ds < 2 ^ 53 →
      splitSeat (String.mk (ls ++ ds)) =
        (String.mk (ls.map Char.toUpper), digitsNat ds) := by
    intro ls ds h1 h2 h3 h4 h5
    rw [splitSeat_letters_digits ls ds h1 h2 h3 h4, digitsValue, roundToDouble_of_lt h5]
  refine ⟨List.perm_insertionSort _ _, ?_, ?_, hsplit⟩
  · haveI := compareSeatsTotal
    haveI := compareSeatsTrans
    have h := List.sorted_insertionSort
      (fun a b : SeatRow => compareSeats a.seat_number b.seat_number ≤ 0) data
    exact List.Pairwise.imp (fun {a b} hab => (compareSeats_le_iff _ _).1 hab) h
  · intro r hr
    have hmem : r ∈ data := (List.perm_insertionSort _ data).mem_iff.1 hr
    obtain ⟨ls, ds, h1, h2, h3, h4, h5, h6⟩ := hdata r hmem
    exact ⟨ls, ds, h6, h3, h4, by rw [h6]; exact hsplit ls ds h1 h2 h3 h4 h5⟩

/-- C29 (amended) at a concrete input: the seats A10, B1, A2 are shown in the order A2, A10,
B1. -/
theorem C29_witness :
    (renderGridOrder gridRows).map (fun r => r.seat_number) = ["A2", "A10", "B1"] ∧
    splitSeat "A10" = ("A", 10) ∧ splitSeat "b7" = ("B", 7) ∧
    (renderGridOrder gridRows).Perm gridRows ∧
    (renderGridOrder gridRows).Pairwise
      (fun a b => rowThenNumberLe a.seat_number b.seat_number) :=
  have h := C29_renderGrid_sorted_by_row_then_number gridRows (by
    intro r hr
    simp only [gridRows, List.mem_cons, List.mem_singleton, List.not_mem_nil, or_false] at hr
    rcases hr with rfl | rfl | rfl
    · exact ⟨['A'], ['1', '0'], by decide, by decide, by decide, by decide, by decide, rfl⟩
    · exact ⟨['B'], ['1'], by decide, by decide, by decide, by decide, by decide, rfl⟩
    · exact ⟨['A'], ['2'], by decide, by decide, by decide, by decide, by decide, rfl⟩)
  ⟨by decide, by decide, by decide, h.1, h.2.1⟩

/-- C30: for every string s, `escapeHtml(s)` contains none of the characters `<`, `>`, the
double quote and the single quote, every `&` in it begins one of the five entities, and the
replacement of the five entities by their characters, read from left to right, gives back
s. -/
theorem C30_escapeHtml_escapes_and_round_trips (s : String) :
    (∀ c ∈ (escapeHtml s).data, c ≠ '<' ∧ c ≠ '>' ∧ c ≠ quoteChar ∧ c ≠ aposChar) ∧
    (∀ pre post : List Char, (escapeHtml s).data = pre ++ '&' :: post →
      ∃ e ∈ entities, e <+: '&' :: post) ∧
    unescapeHtml (escapeHtml s) = s ∧
    escapeHtml "a<b&c>d" = "a&lt;b&amp;c&gt;d" ∧
    unescapeHtml "a&lt;b&amp;c&gt;d" = "a<b&c>d" := by
  refine ⟨escape_no_special s.data, fun pre post h => escape_ampersand s.data pre post h, ?_,
    by decide, by decide⟩
  unfold unescapeHtml escapeHtml
  simp only []
  rw [unescapeFuel_escape s.data _ (Nat.le_refl _)]

end Cinema
